import Mathlib

/-!
# vulkantoy: uniform ring buffer, frame loop and hot-reload

A shallow embedding of the parts of `GfxResources`, `GpuBuffer.h` and
`Renderer.cpp` that own the triple-buffered uniform block, the round-robin
submission units, and the shader / image hot-reload paths.

Conventions.
* `uint32_t` values are natural numbers; every operation that can wrap is
  written with an explicit `% 2 ^ 32`.
* Vulkan handles are natural numbers and `0` is the null handle.
* Mapped memory is a function from byte offset (relative to the mapping
  base) to byte value.
* A failed `assert` is `none`.
-/

namespace core

/-! ## 32-bit arithmetic -/

/-- Wrapping `uint32_t` addition. -/
def add32 (a b : Nat) : Nat := (a + b) % 2 ^ 32

/-- Wrapping `uint32_t` subtraction. -/
def sub32 (a b : Nat) : Nat := (a % 2 ^ 32 + (2 ^ 32 - b % 2 ^ 32)) % 2 ^ 32

/-- Wrapping `uint32_t` multiplication. -/
def mul32 (a b : Nat) : Nat := (a * b) % 2 ^ 32

/-- Bitwise complement on `uint32_t` (the `~` operator). -/
def not32 (a : Nat) : Nat := 2 ^ 32 - 1 - a % 2 ^ 32

/-- `getAlignedByteSize` of `GfxResources.cpp`:
`(byteSize + alignment - 1) & (~(alignment - 1))` on `uint32_t`. -/
def getAlignedByteSize (byteSize alignment : Nat) : Nat :=
  sub32 (add32 byteSize alignment) 1 &&& not32 (sub32 alignment 1)

/-! ## Device limits -/

/-- The two limits of `GfxDevice::physicalDeviceProperties.limits` that the
buffers read. Both are 64-bit quantities in the source. -/
structure GfxDevice where
  minUniformBufferOffsetAlignment : Nat
  minMemoryMapAlignment : Nat

/-! ## Outcomes of code that can hit a failed `assert` -/

/-- Result of running a member function on a state of type `σ`: either it
ran to completion with a return value and the final state, or an `assert`
(or a null dereference) stopped it, and `aborted` carries the state at that
point. -/
inductive Run (σ : Type) (α : Type) where
  | done (value : α) (state : σ)
  | aborted (state : σ)

/-- State in which a run ended, completed or not. -/
def Run.state {σ α : Type} : Run σ α → σ
  | .done _ s => s
  | .aborted s => s

/-- Whether the run reached its end. -/
def Run.completed {σ α : Type} : Run σ α → Bool
  | .done _ _ => true
  | .aborted _ => false

/-! ## `GpuBufferUniform` -/

/-- `std::memcpy(dst + offset, src, n)` on byte-indexed memory. -/
def memcpy (dst : Nat → Nat) (offset : Nat) (src : Nat → Nat) (n : Nat) : Nat → Nat :=
  fun a => if offset ≤ a ∧ a < offset + n then src (a - offset) else dst a

/-- The data members of `GpuBufferUniform` that `copyData` and
`getByteOffset` touch. -/
structure GpuBufferUniform where
  byteSize : Nat
  wholeByteSize : Nat
  mp_data : Nat → Nat
  m_bufferIndex : Nat

/-- `GpuBufferUniform::c_bufferCount`. -/
def c_bufferCount : Nat := 3

/-- The constructor of `GpuBufferUniform`: asserts a positive size, rounds it
up to the larger of the two limits (cast to `uint32_t`), and sizes the whole
allocation as `byteSize * c_bufferCount`. The mapped memory starts with
whatever content `mem` the driver hands out. -/
def GpuBufferUniform.create (dev : GfxDevice) (sizeInBytes : Nat) (mem : Nat → Nat) :
    Option GpuBufferUniform :=
  if 0 < sizeInBytes then
    let minByteAlignment :=
      (max dev.minUniformBufferOffsetAlignment dev.minMemoryMapAlignment) % 2 ^ 32
    let byteSize := getAlignedByteSize sizeInBytes minByteAlignment
    some { byteSize := byteSize
           wholeByteSize := mul32 byteSize c_bufferCount
           mp_data := mem
           m_bufferIndex := 0 }
  else none

/-- `GpuBufferUniform::copyData`: assert, advance the cursor, copy
`min(byteSize, sizeInBytes)` bytes to `mp_data + m_bufferIndex * byteSize`.
The assert is the first statement, so an abort carries the state at entry. -/
def GpuBufferUniform.copyData (b : GpuBufferUniform) (sizeInBytes : Nat)
    (p_data : Nat → Nat) : Run GpuBufferUniform Unit :=
  if sizeInBytes ≤ b.byteSize then
    let idx := add32 b.m_bufferIndex 1 % c_bufferCount
    let minByteSize := min b.byteSize sizeInBytes
    let offset := mul32 idx b.byteSize
    .done () { b with m_bufferIndex := idx
                      mp_data := memcpy b.mp_data offset p_data minByteSize }
  else .aborted b

/-- `GpuBufferUniform::getByteOffset`. -/
def GpuBufferUniform.getByteOffset (b : GpuBufferUniform) : Nat :=
  mul32 b.m_bufferIndex b.byteSize

/-- A sequence of `copyData` calls, each given as payload length and payload
bytes; it stops at the first call that fails its assert. -/
def GpuBufferUniform.copyDataAll (b : GpuBufferUniform) :
    List (Nat × (Nat → Nat)) → Run GpuBufferUniform Unit
  | [] => .done () b
  | w :: ws =>
    match b.copyData w.1 w.2 with
    | .done _ b1 => b1.copyDataAll ws
    | .aborted s => .aborted s

/-! ## Recorded calls

`Renderer` and `GfxResources` talk to the device through Vulkan calls. The
model keeps them in program order in a log. Handles returned by the driver
are natural numbers, `0` is `nullptr`, and they are drawn from a counter, so a handle created later is larger than every
handle created before it. Device-memory allocation and the `VkResult` of
calls other than the fence wait are left out. -/

set_option maxHeartbeats 2000000 in
/-- One call made on the device, one command recorded into a command buffer,
or one host write into the mapped uniform allocation. -/
inductive Call where
  | deviceWaitIdle
  | acquireNextImage (semaphore : Nat) (imageIndex : Nat)
  | waitForFences (fence : Nat)
  | resetCommandBuffer (cb : Nat)
  | beginCommandBuffer (cb : Nat)
  | cmdImageBarriers (cb : Nat) (toShaderRead : Bool) (images : List Nat)
  | cmdCopyBufferToImage (cb srcBuffer dstImage : Nat)
  | hostWriteUniform (offset size : Nat)
  | cmdBufferBarrier (cb : Nat) (offset size : Nat)
  | cmdBindDescriptorSets (cb layout : Nat) (sets : List Nat) (dynamicOffset : Nat)
  | cmdBeginRenderPass (cb renderPass framebuffer : Nat) (width height : Nat)
  | cmdBindPipeline (cb pipeline : Nat)
  | cmdDraw (cb : Nat) (vertexCount instanceCount : Nat)
  | cmdEndRenderPass (cb : Nat)
  | endCommandBuffer (cb : Nat)
  | resetFences (fence : Nat)
  | queueSubmit (cb waitSemaphore signalSemaphore fence : Nat)
  | queuePresent (waitSemaphore : Nat) (imageIndex : Nat)
  | createShaderModule (h : Nat)
  | destroyShaderModule (h : Nat)
  | createPipelineLayout (h : Nat) (setLayouts : List Nat)
  | createGraphicsPipelines (h layout vert frag renderPass : Nat) (width height : Nat)
  | destroyPipelineLayout (h : Nat)
  | destroyPipeline (h : Nat)
  | createBuffer (h : Nat)
  | destroyBuffer (h : Nat)
  | createImage (h : Nat)
  | createImageView (h : Nat)
  | createSampler (h : Nat)
  | destroyImage (h : Nat)
  | destroyImageView (h : Nat)
  | destroySampler (h : Nat)
  | createDescriptorSetLayout (h : Nat)
  | allocateDescriptorSets (h : Nat)
  | destroyDescriptorSetLayout (h : Nat)
  | freeDescriptorSets (h : Nat)
  | updateDescriptorSets (set : Nat) (samplersAndViews : List (Nat × Nat))
  | createCommandPool (h : Nat)
  | allocateCommandBuffers (hs : List Nat)
  | createFence (h : Nat) (signaled : Bool)
  | createSemaphore (h : Nat)
  | destroySemaphore (h : Nat)
  | createSurface (h : Nat)
  | destroySurface (h : Nat)
  | createSwapchain (h surface minImageCount imageFormat colorSpace width height
      presentMode : Nat)
  | destroySwapchain (h : Nat)
  | createFramebuffer (h renderPass view width height : Nat)
  | destroyFramebuffer (h : Nat)
  deriving DecidableEq, Repr

/-! ## Resource objects -/

/-- `GpuBufferStaging`: the buffer handle, the aligned size, the number of
bytes its constructor copies from the source, and the source payload. -/
structure GpuBufferStaging where
  buffer : Nat
  byteSize : Nat
  bytesCopied : Nat
  payload : List Nat
  deriving DecidableEq, Repr

/-- `VK_IMAGE_LAYOUT_UNDEFINED`. -/
def VK_IMAGE_LAYOUT_UNDEFINED : Nat := 0

/-- `VK_IMAGE_LAYOUT_SHADER_READ_ONLY_OPTIMAL`. -/
def VK_IMAGE_LAYOUT_SHADER_READ_ONLY_OPTIMAL : Nat := 5

/-- `VK_IMAGE_LAYOUT_TRANSFER_DST_OPTIMAL`. -/
def VK_IMAGE_LAYOUT_TRANSFER_DST_OPTIMAL : Nat := 7

/-- `GpuImage`: its three handles, its `size` extent, and the `imageLayout`
member, which the constructor sets from its argument and nothing assigns
afterwards. -/
structure GpuImage where
  image : Nat
  imageView : Nat
  sampler : Nat
  width : Nat
  height : Nat
  depth : Nat
  imageLayout : Nat
  deriving DecidableEq, Repr

/-- `Renderer::ImageSet`. The three vectors hold `unique_ptr`s and flags. -/
structure ImageSet where
  stagingBuffers : List (Option GpuBufferStaging)
  images : List (Option GpuImage)
  dirtyFlags : List Bool
  dirty : Bool
  deriving DecidableEq, Repr

/-- `Shader`: the two module handles, null when a stage did not build. -/
structure Shader where
  vert : Nat
  frag : Nat
  deriving DecidableEq, Repr

/-- `DescriptorSet`. -/
structure DescriptorSet where
  descriptorSet : Nat
  descriptorSetLayout : Nat
  deriving DecidableEq, Repr

/-- `GfxCmdBuffer::CmdBuffer`, one submission unit as handed to `render`. -/
structure CmdBuffer where
  commandBuffer : Nat
  fence : Nat
  submitSemaphore : Nat
  deriving DecidableEq, Repr

/-- `GfxCmdBuffer`. -/
structure GfxCmdBuffer where
  commandBuffers : List Nat
  commandBufferFences : List Nat
  cmdBufferSubmitSemaphore : Nat
  m_bufferIndex : Nat
  deriving DecidableEq, Repr

/-- `GfxCmdBuffer::getNextCmdBuffer`. -/
def GfxCmdBuffer.getNextCmdBuffer (c : GfxCmdBuffer) : CmdBuffer × GfxCmdBuffer :=
  let idx := add32 c.m_bufferIndex 1 % c.commandBuffers.length
  ({ commandBuffer := c.commandBuffers.getD idx 0
     fence := c.commandBufferFences.getD idx 0
     submitSemaphore := c.cmdBufferSubmitSemaphore },
   { c with m_bufferIndex := idx })

/-- `GfxSwapchain`. `imageCount` is `images.size()`, which is also the
length of `imageViews`; `imageExtent` is not a member in the source, it
keeps the extent the swapchain was created with. -/
structure GfxSwapchain where
  imageIndex : Nat
  imageCount : Nat
  swapchainImageSemaphore : Nat
  imageViews : List Nat
  surface : Nat
  swapchain : Nat
  imageFormat : Nat
  colorSpace : Nat
  imageExtent : Nat × Nat
  deriving DecidableEq, Repr

/-- `Window`: the size reported by `getWidth` and `getHeight` (the members
`m_width`, `m_height`) and the flag `m_resized`. -/
structure Window where
  width : Nat
  height : Nat
  m_resized : Bool
  deriving DecidableEq, Repr

/-- `ResourceList::imagePath`. -/
def imagePath : String := "textures"

/-- `ResourceList::imageFilesForSearch`. -/
def imageFilesForSearch : List String := ["channel0", "channel1", "channel2", "channel3"]

/-! ## The renderer state -/

/-- The members of `Renderer`, the parts of `GfxResources` it reaches through
`mp_gfxResources`, the driver's handle counter and the call log. Members held
in a `unique_ptr` are options. `framebufferExtents` and `pipelineExtent` are
not members in the source: they keep the size each framebuffer and the
pipeline's viewport and scissor were created with. -/
structure Renderer where
  device : GfxDevice
  swapchain : GfxSwapchain
  cmdBuffer : GfxCmdBuffer
  window : Window
  m_renderPass : Nat
  m_graphicsPipeline : Nat
  m_pipelineLayout : Nat
  m_descriptorSetUniform : Option DescriptorSet
  m_gpuBufferUniform : Option GpuBufferUniform
  m_descriptorSetImage : Option DescriptorSet
  m_framebuffers : List Nat
  m_imageSet : ImageSet
  m_shader : Option Shader
  framebufferExtents : List (Nat × Nat)
  pipelineExtent : Nat × Nat
  nextHandle : Nat
  calls : List Call

/-- Append calls to the log. -/
def Renderer.emit (r : Renderer) (cs : List Call) : Renderer :=
  { r with calls := r.calls ++ cs }

/-- Sequencing of runs: continue with `f` unless the run aborted. -/
def Run.andThen {σ α β : Type} (x : Run σ α) (f : α → σ → Run σ β) : Run σ β :=
  match x with
  | .done a s => f a s
  | .aborted s => .aborted s

/-! ## `Renderer::render` -/

/-- `s_defaultTimeout`, in nanoseconds: the timeout `render` passes to
`vkWaitForFences`. -/
def s_defaultTimeout : Nat := 1000000000

/-- What the outside world answers during one `render` call: the image index
`vkAcquireNextImageKHR` stores, whether `vkWaitForFences` returned
`VK_SUCCESS` within the timeout, and the bytes found at the address of the
local `shaderInputUniform` once it has been filled in, as a function of the
four `iChannelResolution` entries that `render` stores into it (the members
taken from `rendererInput` and the encoding of `float` are left to the
environment). -/
structure FrameEnv where
  acquiredImageIndex : Nat
  fenceSignaled : Bool
  shaderInputUniform : List (Nat × Nat × Nat × Nat) → Nat → Nat

/-- The first loop over the local `shaderInputUniform` in `render`: the
integers that are converted to `float` and stored in
`iChannelResolution[idx][0..3]` for the four channels, namely width, height
and depth of the slot's image, and zero; `none` when a slot holds a null
pointer. -/
def Renderer.channelResolutions (r : Renderer) : Option (List (Nat × Nat × Nat × Nat)) :=
  (List.range 4).mapM fun idx =>
    (r.m_imageSet.images.getD idx none).map fun img => (img.width, img.height, img.depth, 0)

/-- Image and staging-buffer handles of the slots whose dirty flag is set, in
slot order; `none` when such a slot holds a null pointer. -/
def ImageSet.dirtyPairs (s : ImageSet) : Option (List (Nat × Nat)) :=
  ((List.range s.dirtyFlags.length).filter (fun i => s.dirtyFlags.getD i false)).mapM
    (fun i =>
      match s.images.getD i none, s.stagingBuffers.getD i none with
      | some img, some st => some (img.image, st.buffer)
      | _, _ => none)

/-- `Renderer::renderCopyImages`: one barrier call before the copies, one
copy per dirty slot, one barrier call after, then every flag is cleared. -/
def Renderer.renderCopyImages (r : Renderer) (cmdBuffer : CmdBuffer) : Run Renderer Unit :=
  match r.m_imageSet.dirtyPairs with
  | none => .aborted r
  | some pairs =>
    let cb := cmdBuffer.commandBuffer
    let r1 := r.emit
      ([Call.cmdImageBarriers cb false (pairs.map Prod.fst)] ++
       pairs.map (fun p => Call.cmdCopyBufferToImage cb p.2 p.1) ++
       [Call.cmdImageBarriers cb true (pairs.map Prod.fst)])
    .done ()
      { r1 with m_imageSet :=
          { r1.m_imageSet with dirty := false
                               dirtyFlags := r1.m_imageSet.dirtyFlags.map (fun _ => false) } }

/-- `Renderer::render`. The statements are in source order: next submission
unit, acquire, fence wait, command-buffer reset and begin, optional image
copy pass, read of `byteSize` and `getByteOffset()`, fill of the payload
(whose `iChannelResolution` entries are read through the four image slots),
`copyData` of the payload, buffer barrier, descriptor bind with the dynamic
offset, render pass with the draw, fence reset, submit, present. -/
def Renderer.render (r : Renderer) (env : FrameEnv) : Run Renderer Unit :=
  let next := r.cmdBuffer.getNextCmdBuffer
  let cmdBuffer := next.1
  let cb := cmdBuffer.commandBuffer
  let r1 := { r with cmdBuffer := next.2 }
  let r2 := { r1 with swapchain := { r1.swapchain with imageIndex := env.acquiredImageIndex } }.emit
    [Call.acquireNextImage r1.swapchain.swapchainImageSemaphore env.acquiredImageIndex]
  if env.acquiredImageIndex < r2.swapchain.imageCount then
    let framebuffer := r2.m_framebuffers.getD env.acquiredImageIndex 0
    let r3 := r2.emit [Call.waitForFences cmdBuffer.fence]
    if env.fenceSignaled then
      let r4 := r3.emit [Call.resetCommandBuffer cb, Call.beginCommandBuffer cb]
      (if r4.m_imageSet.dirty then r4.renderCopyImages cmdBuffer else .done () r4).andThen
        fun _ r5 =>
          match r5.m_descriptorSetUniform, r5.m_descriptorSetImage, r5.m_gpuBufferUniform with
          | some setUniform, some setImage, some uniform =>
            let bufByteSize := uniform.byteSize
            let bufByteOffset := uniform.getByteOffset
            match r5.channelResolutions with
            | some iChannelResolution =>
              match uniform.copyData (bufByteSize % 2 ^ 32)
                  (env.shaderInputUniform iChannelResolution) with
              | .aborted _ => .aborted r5
              | .done _ uniform1 =>
                .done ()
                  ({ r5 with m_gpuBufferUniform := some uniform1 }.emit
                    [Call.hostWriteUniform uniform1.getByteOffset
                       (min bufByteSize (bufByteSize % 2 ^ 32)),
                     Call.cmdBufferBarrier cb bufByteOffset bufByteSize,
                     Call.cmdBindDescriptorSets cb r5.m_pipelineLayout
                       [setUniform.descriptorSet, setImage.descriptorSet]
                       (bufByteOffset % 2 ^ 32),
                     Call.cmdBeginRenderPass cb r5.m_renderPass framebuffer
                       r5.window.width r5.window.height,
                     Call.cmdBindPipeline cb r5.m_graphicsPipeline,
                     Call.cmdDraw cb 3 1,
                     Call.cmdEndRenderPass cb,
                     Call.endCommandBuffer cb,
                     Call.resetFences cmdBuffer.fence,
                     Call.queueSubmit cb r5.swapchain.swapchainImageSemaphore
                       cmdBuffer.submitSemaphore cmdBuffer.fence,
                     Call.queuePresent cmdBuffer.submitSemaphore env.acquiredImageIndex])
            | none => .aborted r5
          | _, _, _ => .aborted r5
    else .aborted r3
  else .aborted r2

/-- Several frames in a row, as `Engine::run` issues them when no resize or
file change comes in between. -/
def Renderer.renderFrames (r : Renderer) : List FrameEnv → Run Renderer Unit
  | [] => .done () r
  | env :: envs => (r.render env).andThen fun _ r1 => r1.renderFrames envs

/-! ## In-flight uniform bindings, read off the call log -/

/-- Scan state: the dynamic offset bound in each command buffer's current
recording, the (fence, offset) pairs of submissions whose fence has not been
waited on since, and the hazards found so far. -/
structure FlightScan where
  recorded : List (Nat × Nat)
  pending : List (Nat × Nat)
  hazards : List (Nat × Nat)
  deriving DecidableEq, Repr

/-- One step of the scan. A host write of `size` bytes at `offset` is a
hazard for a pending submission that bound offset `d` when the written range
meets `[d, d + byteSize)`. A fence wait retires the submissions of that
fence; a device-idle wait retires all. -/
def FlightScan.step (byteSize : Nat) (s : FlightScan) : Call → FlightScan
  | .resetCommandBuffer cb => { s with recorded := s.recorded.filter (fun p => p.1 ≠ cb) }
  | .cmdBindDescriptorSets cb _ _ off =>
    { s with recorded := (cb, off) :: s.recorded.filter (fun p => p.1 ≠ cb) }
  | .queueSubmit cb _ _ fence =>
    match s.recorded.lookup cb with
    | some off => { s with pending := s.pending ++ [(fence, off)] }
    | none => s
  | .waitForFences fence => { s with pending := s.pending.filter (fun p => p.1 ≠ fence) }
  | .deviceWaitIdle => { s with pending := [] }
  | .hostWriteUniform offset size =>
    let hit := s.pending.filter (fun p => offset < p.2 + byteSize ∧ p.2 < offset + size)
    { s with hazards := s.hazards ++ hit.map (fun p => (offset, p.1)) }
  | _ => s

/-- Every (written offset, fence) pair such that the log writes the uniform
range at that offset while a submission that bound it, signalling that fence,
has not been waited on. -/
def sliceHazards (byteSize : Nat) (calls : List Call) : List (Nat × Nat) :=
  (calls.foldl (FlightScan.step byteSize) { recorded := [], pending := [], hazards := [] }).hazards

/-- Dynamic offsets passed to `vkCmdBindDescriptorSets`, in log order. -/
def boundOffsets (calls : List Call) : List Nat :=
  calls.filterMap fun c =>
    match c with
    | .cmdBindDescriptorSets _ _ _ off => some off
    | _ => none

/-- Offsets of the host-write-to-uniform-read buffer barriers, in log order. -/
def barrierOffsets (calls : List Call) : List Nat :=
  calls.filterMap fun c =>
    match c with
    | .cmdBufferBarrier _ off _ => some off
    | _ => none

/-- Offsets at which `copyData` wrote the payload, in log order. -/
def writtenOffsets (calls : List Call) : List Nat :=
  calls.filterMap fun c =>
    match c with
    | .hostWriteUniform off _ => some off
    | _ => none

/-! ## Shader hot-reload -/

/-- `createShaderModuleFromGlsl` (Shader.cpp): a module is created only when
the compiler reports a valid result, otherwise the handle stays null. -/
def Renderer.createShaderModuleFromGlsl (r : Renderer) (valid : Bool) : Nat × Renderer :=
  if valid then
    (r.nextHandle,
      { r with nextHandle := r.nextHandle + 1
               calls := r.calls ++ [Call.createShaderModule r.nextHandle] })
  else (0, r)

/-- `createShaderModule` (Shader.cpp), the SPIR-V path: asserts that the file
opened, then creates the module. -/
def Renderer.createShaderModule (r : Renderer) (fileOpen : Bool) : Run Renderer Nat :=
  if fileOpen then
    .done r.nextHandle
      { r with nextHandle := r.nextHandle + 1
               calls := r.calls ++ [Call.createShaderModule r.nextHandle] }
  else .aborted r

/-- `Shader::Shader`: vertex stage first, then fragment stage. `vertOk` and
`fragOk` are the outcome of the outside step of each stage (compile result
for GLSL, file open for SPIR-V). -/
def Renderer.newShader (r : Renderer) (fromGlsl vertOk fragOk : Bool) : Run Renderer Shader :=
  if fromGlsl then
    let v := r.createShaderModuleFromGlsl vertOk
    let f := v.2.createShaderModuleFromGlsl fragOk
    .done { vert := v.1, frag := f.1 } f.2
  else
    (r.createShaderModule vertOk).andThen fun vert r1 =>
      (r1.createShaderModule fragOk).andThen fun frag r2 =>
        .done { vert := vert, frag := frag } r2

/-- `Shader::~Shader`: both modules are destroyed, null or not. -/
def Shader.destroyCalls (s : Shader) : List Call :=
  [Call.destroyShaderModule s.vert, Call.destroyShaderModule s.frag]

/-- `Renderer::createShaders`: build a new `Shader`; install it (destroying
the one it replaces) only when both modules are non-null, otherwise drop it. -/
def Renderer.createShaders (r : Renderer) (fromGlsl vertOk fragOk : Bool) :
    Run Renderer Bool :=
  (r.newShader fromGlsl vertOk fragOk).andThen fun newShader r1 =>
    if newShader.vert ≠ 0 ∧ newShader.frag ≠ 0 then
      let old := match r1.m_shader with
        | some s => s.destroyCalls
        | none => []
      .done true ({ r1 with m_shader := some newShader }.emit old)
    else
      .done false (r1.emit newShader.destroyCalls)

/-- `Renderer::createGraphicsPipeline`: reads the shader and both descriptor
set layouts, creates the pipeline layout, then the pipeline with the window
size as viewport and scissor. -/
def Renderer.createGraphicsPipeline (r : Renderer) : Run Renderer Unit :=
  match r.m_shader, r.m_descriptorSetUniform, r.m_descriptorSetImage with
  | some shader, some setUniform, some setImage =>
    let layout := r.nextHandle
    let pipeline := r.nextHandle + 1
    .done ()
      ({ r with m_pipelineLayout := layout
                m_graphicsPipeline := pipeline
                pipelineExtent := (r.window.width, r.window.height)
                nextHandle := r.nextHandle + 2 }.emit
        [Call.createPipelineLayout layout
           [setUniform.descriptorSetLayout, setImage.descriptorSetLayout],
         Call.createGraphicsPipelines pipeline layout shader.vert shader.frag r.m_renderPass
           r.window.width r.window.height])
  | _, _, _ => .aborted r

/-- `Renderer::updateShaders`: idle wait, `createShaders(true)`, and only when
that reports success the old layout and pipeline are destroyed and
`createGraphicsPipeline` runs. The shader names are only printed. -/
def Renderer.updateShaders (r : Renderer) (_shaderNames : List String)
    (vertOk fragOk : Bool) : Run Renderer Unit :=
  ((r.emit [Call.deviceWaitIdle]).createShaders true vertOk fragOk).andThen fun valid r1 =>
    if valid then
      (r1.emit [Call.destroyPipelineLayout r1.m_pipelineLayout,
                Call.destroyPipeline r1.m_graphicsPipeline]).createGraphicsPipeline
    else .done () r1

/-! ## Image hot-reload -/

/-- What `stbi_load` returns for a file that decodes: width, height and the
RGBA bytes. -/
structure StbImage where
  x : Nat
  y : Nat
  data : List Nat
  deriving DecidableEq, Repr

/-- `ImageLoader` after its constructor ran. -/
structure ImageLoader where
  m_size : Nat × Nat
  m_channelCount : Nat
  m_bytesize : Nat
  m_byteData : List Nat
  deriving DecidableEq, Repr

/-- `ImageLoader::loadStbImage`, given what `stbi_load` returned (`none` for
a null pointer). The byte size is a 32-bit product. -/
def ImageLoader.loadStbImage (loaded : Option StbImage) : ImageLoader :=
  match loaded with
  | some p =>
    { m_size := (p.x, p.y)
      m_channelCount := 4
      m_bytesize := mul32 (mul32 p.x p.y) 4
      m_byteData := p.data.take (mul32 (mul32 p.x p.y) 4) }
  | none => { m_size := (0, 0), m_channelCount := 0, m_bytesize := 0, m_byteData := [] }

/-- Position of the last occurrence of `c`, as `std::string::find_last_of`
with a one-character argument; `none` stands for `npos`. -/
def findLastOf (s : List Char) (c : Char) : Option Nat :=
  if s.reverse.indexOf c < s.length then some (s.length - 1 - s.reverse.indexOf c) else none

/-- The `compareName` that `updateImages` computes from a changed file name:
the name cut before its last `'.'`, or the whole name when it has none. -/
def compareNameOf (nameRef : String) : String :=
  match findLastOf nameRef.data '.' with
  | some lastIndex => String.mk (nameRef.data.take lastIndex)
  | none => nameRef

/-- Destructor calls of a staging buffer held in a slot. -/
def stagingDestroyCalls : Option GpuBufferStaging → List Call
  | some st => [Call.destroyBuffer st.buffer]
  | none => []

/-- Destructor calls of an image held in a slot (`GpuImage::~GpuImage`). -/
def imageDestroyCalls : Option GpuImage → List Call
  | some img =>
    [Call.destroyImage img.image, Call.destroyImageView img.imageView,
     Call.destroySampler img.sampler]
  | none => []

/-- `Renderer::createImage`. The file system is the function `fs` from path
to what `stbi_load` returns. When the loader reports a positive byte size the
slot gets a new staging buffer and a new image (each built before the object
it replaces is destroyed) and its dirty flag is set; otherwise nothing
happens. `GpuImage` asserts a positive width and height; the layout argument
passed to it is `VK_IMAGE_LAYOUT_UNDEFINED`. -/
def Renderer.createImage (r : Renderer) (fs : String → Option StbImage) (index : Nat)
    (filename : String) : Run Renderer Unit :=
  let imgLoader := ImageLoader.loadStbImage (fs filename)
  if 0 < imgLoader.m_bytesize then
    let alignedSize :=
      getAlignedByteSize imgLoader.m_bytesize (r.device.minMemoryMapAlignment % 2 ^ 32)
    let staging : GpuBufferStaging :=
      { buffer := r.nextHandle, byteSize := alignedSize, bytesCopied := alignedSize
        payload := imgLoader.m_byteData }
    let r1 :=
      { r with nextHandle := r.nextHandle + 1
               m_imageSet := { r.m_imageSet with
                 stagingBuffers := r.m_imageSet.stagingBuffers.set index (some staging) } }.emit
        ([Call.createBuffer r.nextHandle] ++
          stagingDestroyCalls (r.m_imageSet.stagingBuffers.getD index none))
    if 0 < imgLoader.m_size.1 ∧ 0 < imgLoader.m_size.2 then
      let image : GpuImage :=
        { image := r1.nextHandle, imageView := r1.nextHandle + 1, sampler := r1.nextHandle + 2
          width := imgLoader.m_size.1, height := imgLoader.m_size.2, depth := 1
          imageLayout := VK_IMAGE_LAYOUT_UNDEFINED }
      .done ()
        ({ r1 with nextHandle := r1.nextHandle + 3
                   m_imageSet := { r1.m_imageSet with
                     images := r1.m_imageSet.images.set index (some image)
                     dirtyFlags := r1.m_imageSet.dirtyFlags.set index true } }.emit
          ([Call.createImage image.image, Call.createImageView image.imageView,
            Call.createSampler image.sampler] ++
            imageDestroyCalls (r1.m_imageSet.images.getD index none)))
    else .aborted r1
  else .done () r

/-- `DescriptorSet::~DescriptorSet`: the layout is destroyed, and the set is
freed when its handle is not null. -/
def DescriptorSet.destroyCalls (d : DescriptorSet) : List Call :=
  [Call.destroyDescriptorSetLayout d.descriptorSetLayout] ++
    if d.descriptorSet ≠ 0 then [Call.freeDescriptorSets d.descriptorSet] else []

/-- `Renderer::createDescriptorsImage`: the old set is released, a new layout
and set are created, and one (sampler, view) entry per slot is written, which
dereferences every slot. -/
def Renderer.createDescriptorsImage (r : Renderer) : Run Renderer Unit :=
  let released := match r.m_descriptorSetImage with
    | some old => old.destroyCalls
    | none => []
  let newSet : DescriptorSet :=
    { descriptorSetLayout := r.nextHandle, descriptorSet := r.nextHandle + 1 }
  let r1 :=
    { r with nextHandle := r.nextHandle + 2, m_descriptorSetImage := some newSet }.emit
      (released ++ [Call.createDescriptorSetLayout newSet.descriptorSetLayout,
                    Call.allocateDescriptorSets newSet.descriptorSet])
  match r1.m_imageSet.images.mapM (fun o => o.map (fun img => (img.sampler, img.imageView))) with
  | some infos => .done () (r1.emit [Call.updateDescriptorSets newSet.descriptorSet infos])
  | none => .aborted r1

/-- The inner loop of `updateImages` for one changed name: every search name
equal to `compareName` reloads its slot from the changed file and raises the
aggregate dirty flag. -/
def Renderer.reloadMatching (r : Renderer) (fs : String → Option StbImage)
    (nameRef compareName : String) : List (Nat × String) → Run Renderer Unit
  | [] => .done () r
  | (idx, searchName) :: rest =>
    if compareName = searchName then
      (r.createImage fs idx (imagePath ++ "/" ++ nameRef)).andThen fun _ r1 =>
        Renderer.reloadMatching
          { r1 with m_imageSet := { r1.m_imageSet with dirty := true } }
          fs nameRef compareName rest
    else Renderer.reloadMatching r fs nameRef compareName rest

/-- The outer loop of `updateImages` over the changed names. -/
def Renderer.reloadNames (r : Renderer) (fs : String → Option StbImage) :
    List String → Run Renderer Unit
  | [] => .done () r
  | nameRef :: rest =>
    (r.reloadMatching fs nameRef (compareNameOf nameRef) imageFilesForSearch.enum).andThen
      fun _ r1 => Renderer.reloadNames r1 fs rest

/-- `Renderer::updateImages`: idle wait, the two loops, then the image
descriptor set is rebuilt. -/
def Renderer.updateImages (r : Renderer) (fs : String → Option StbImage)
    (imageNames : List String) : Run Renderer Unit :=
  ((r.emit [Call.deviceWaitIdle]).reloadNames fs imageNames).andThen fun _ r1 =>
    r1.createDescriptorsImage

/-- What the constructor and every later call keep true of the image set:
the three vectors have the four entries `createImages` gave them and every
image slot is filled (`createDescriptorsImage` and `render` dereference all
four). -/
def Renderer.slotsLive (r : Renderer) : Prop :=
  r.m_imageSet.stagingBuffers.length = 4 ∧ r.m_imageSet.images.length = 4 ∧
  r.m_imageSet.dirtyFlags.length = 4 ∧ ∀ o ∈ r.m_imageSet.images, o ≠ none

/-- The slot condition can be checked by evaluation. -/
instance Renderer.decidableSlotsLive (r : Renderer) : Decidable r.slotsLive := by
  unfold Renderer.slotsLive
  infer_instance

/-- Slot-wise comparison of the image set now (`r`) with the image set at
entry (`r0`), given the set `M` of reloaded slots: a slot in `M` has its flag
set and holds a staging buffer and an image whose handles were handed out
after entry; a slot outside `M` holds what it held at entry. -/
def Renderer.reloaded (r0 r : Renderer) (M : Nat → Prop) : Prop :=
  r.slotsLive ∧ r0.nextHandle ≤ r.nextHandle ∧
  ∀ i, i < 4 →
    (M i →
      r.m_imageSet.dirtyFlags.getD i false = true ∧
      ∃ st img, r.m_imageSet.stagingBuffers.getD i none = some st ∧
        r.m_imageSet.images.getD i none = some img ∧
        r0.nextHandle ≤ st.buffer ∧ r0.nextHandle ≤ img.image) ∧
    (¬ M i →
      r.m_imageSet.stagingBuffers.getD i none = r0.m_imageSet.stagingBuffers.getD i none ∧
      r.m_imageSet.images.getD i none = r0.m_imageSet.images.getD i none ∧
      r.m_imageSet.dirtyFlags.getD i false = r0.m_imageSet.dirtyFlags.getD i false)

/-! ## Memory-type lookup (`GfxResources.cpp`) -/

/-- `VK_MAX_MEMORY_TYPES`, the length of the `memoryTypes` array. -/
def VK_MAX_MEMORY_TYPES : Nat := 32

/-- `VkPhysicalDeviceMemoryProperties`: the count and, for each memory type,
its `propertyFlags`. -/
structure VkPhysicalDeviceMemoryProperties where
  memoryTypeCount : Nat
  memoryTypes : List Nat
  deriving DecidableEq, Repr

/-- `VkMemoryRequirements`. -/
structure VkMemoryRequirements where
  size : Nat
  alignment : Nat
  memoryTypeBits : Nat
  deriving DecidableEq, Repr

/-- The test in the loop body of `getPhysicalDeviceMemoryTypeIndex`:
`(memoryTypeBits & (1 << idx)) && ((propertyFlags & flags) == flags)`. -/
def memoryTypeMatches (props : VkPhysicalDeviceMemoryProperties)
    (req : VkMemoryRequirements) (memoryPropertyFlags idx : Nat) : Bool :=
  (req.memoryTypeBits &&& ((1 <<< idx) % 2 ^ 32)) ≠ 0 ∧
    (props.memoryTypes.getD idx 0 &&& memoryPropertyFlags) = memoryPropertyFlags

/-- `getPhysicalDeviceMemoryTypeIndex`: the loop runs over every index below
`memoryTypeCount` without a break, so the last matching index wins; the
sentinel `~0u` left in place fails the assert. -/
def getPhysicalDeviceMemoryTypeIndex (props : VkPhysicalDeviceMemoryProperties)
    (req : VkMemoryRequirements) (memoryPropertyFlags : Nat) : Option Nat :=
  let memTypeIndex :=
    (List.range props.memoryTypeCount).foldl
      (fun acc idx => if memoryTypeMatches props req memoryPropertyFlags idx then idx else acc)
      (2 ^ 32 - 1)
  if memTypeIndex ≠ 2 ^ 32 - 1 then some memTypeIndex else none

/-! ## The pool of submission units (`GfxResources::createQueuesAndPools`) -/

/-- `GfxResources::c_bufferingCount`. -/
def c_bufferingCount : Nat := 3

/-- `GfxResources::createQueuesAndPools`, from the driver's handle counter:
one command pool, `c_bufferingCount` command buffers, as many fences created
signalled, and a single semaphore. It returns the pool with cursor 0, the
calls made and the counter afterwards. -/
def createQueuesAndPools (nextHandle : Nat) : GfxCmdBuffer × List Call × Nat :=
  let commandPool := nextHandle
  let commandBuffers := (List.range c_bufferingCount).map (fun i => nextHandle + 1 + i)
  let fences :=
    (List.range c_bufferingCount).map (fun i => nextHandle + 1 + c_bufferingCount + i)
  let semaphore := nextHandle + 1 + 2 * c_bufferingCount
  ({ commandBuffers := commandBuffers
     commandBufferFences := fences
     cmdBufferSubmitSemaphore := semaphore
     m_bufferIndex := 0 },
   [Call.createCommandPool commandPool, Call.allocateCommandBuffers commandBuffers] ++
     fences.map (fun f => Call.createFence f true) ++ [Call.createSemaphore semaphore],
   nextHandle + 2 + 2 * c_bufferingCount)

/-- The pool after `k` calls of `getNextCmdBuffer`. -/
def GfxCmdBuffer.advance (c : GfxCmdBuffer) : Nat → GfxCmdBuffer
  | 0 => c
  | k + 1 => (c.advance k).getNextCmdBuffer.2

/-- The unit that call number `k` (counting from 1) of `getNextCmdBuffer`
returns. -/
def GfxCmdBuffer.nthUnit (c : GfxCmdBuffer) (k : Nat) : CmdBuffer :=
  (c.advance (k - 1)).getNextCmdBuffer.1

/-! ## Window (`Window.cpp`) -/

/-- `Window::checkForResize`, given what `GetClientRect` answers (`none` for
a failed call): a size different from the stored one is stored and raises
`m_resized`. -/
def Window.checkForResize (w : Window) (clientRect : Option (Nat × Nat)) : Window :=
  match clientRect with
  | some (width, height) =>
    if w.width ≠ width ∨ w.height ≠ height then
      { w with m_resized := true, width := width, height := height }
    else w
  | none => w

/-- `Window::update`: when `PeekMessage` delivers a message the size is
checked, otherwise nothing happens. The argument is `none` when no message
was pending and otherwise carries the client rectangle. Close requests and
the mouse state are left out. -/
def Window.update (w : Window) (message : Option (Option (Nat × Nat))) : Window :=
  match message with
  | some clientRect => w.checkForResize clientRect
  | none => w

/-- `Window::resizeHandled`. -/
def Window.resizeHandled (w : Window) : Window :=
  { w with m_resized := false }

/-! ## Swapchain (`GfxResources.cpp`) -/

/-- `VK_FORMAT_UNDEFINED`. -/
def VK_FORMAT_UNDEFINED : Nat := 0

/-- `VK_FORMAT_R8G8B8A8_SRGB`. -/
def VK_FORMAT_R8G8B8A8_SRGB : Nat := 43

/-- `VK_FORMAT_B8G8R8A8_SRGB`. -/
def VK_FORMAT_B8G8R8A8_SRGB : Nat := 50

/-- `VK_PRESENT_MODE_MAILBOX_KHR`. -/
def VK_PRESENT_MODE_MAILBOX_KHR : Nat := 1

/-- `VK_PRESENT_MODE_FIFO_KHR`. -/
def VK_PRESENT_MODE_FIFO_KHR : Nat := 2

/-- `VK_PRESENT_MODE_FIFO_RELAXED_KHR`. -/
def VK_PRESENT_MODE_FIFO_RELAXED_KHR : Nat := 3

/-- `GfxPreferredSetup::presentation`. -/
def preferredPresentation : List Nat :=
  [VK_PRESENT_MODE_FIFO_KHR, VK_PRESENT_MODE_FIFO_RELAXED_KHR, VK_PRESENT_MODE_MAILBOX_KHR]

/-- `GfxPreferredSetup::surfaceFormats`. -/
def preferredSurfaceFormats : List Nat :=
  [VK_FORMAT_B8G8R8A8_SRGB, VK_FORMAT_R8G8B8A8_SRGB]

/-- `getPresentMode`: for each preferred mode in order, the first available
mode equal to it is returned; the default when no preferred mode occurs. -/
def getPresentMode : List Nat → List Nat → Nat → Nat
  | [], _, defaultVal => defaultVal
  | preferredRef :: rest, available, defaultVal =>
    match available.find? (fun availableRef => preferredRef == availableRef) with
    | some availableRef => availableRef
    | none => getPresentMode rest available defaultVal

/-- `getSurfaceFormat`: the same search over (format, color space) pairs,
returning the format. -/
def getSurfaceFormat : List Nat → List (Nat × Nat) → Nat → Nat
  | [], _, defaultVal => defaultVal
  | preferredRef :: rest, available, defaultVal =>
    match available.find? (fun availableRef => preferredRef == availableRef.1) with
    | some availableRef => availableRef.1
    | none => getSurfaceFormat rest available defaultVal

/-- What the surface and the driver answer while a swapchain is created:
presentation support of the queue family, the surface formats as (format,
color space) pairs, the present modes, surface support, and the number of
images the new swapchain turns out to have. -/
structure SurfaceEnv where
  hasPresentationSupport : Bool
  surfaceFormats : List (Nat × Nat)
  presentModes : List Nat
  surfaceSupported : Bool
  swapchainImageCount : Nat
  deriving DecidableEq, Repr

/-- `GfxResources::destroySwapchain`: semaphore, image views, swapchain,
surface. The members keep their stale values. -/
def Renderer.destroySwapchain (r : Renderer) : Renderer :=
  r.emit
    ([Call.destroySemaphore r.swapchain.swapchainImageSemaphore] ++
      r.swapchain.imageViews.map Call.destroyImageView ++
      [Call.destroySwapchain r.swapchain.swapchain, Call.destroySurface r.swapchain.surface])

/-- `GfxResources::createSwapchain`. In source order: presentation-support
assert, surface, formats (assert non-empty) and format choice with the
fallback to the first entry, present modes (assert non-empty) and mode
choice, surface-support assert, the swapchain itself with
`c_bufferingCount` as minimum image count and the window size as extent, the
images, one view per image, and the acquire semaphore. `imageIndex` is not
assigned. -/
def Renderer.createSwapchain (r : Renderer) (surf : SurfaceEnv) : Run Renderer Unit :=
  if surf.hasPresentationSupport then
    let surface := r.nextHandle
    let r1 :=
      { r with nextHandle := r.nextHandle + 1
               swapchain := { r.swapchain with surface := surface } }.emit
        [Call.createSurface surface]
    if 0 < surf.surfaceFormats.length then
      let found := getSurfaceFormat preferredSurfaceFormats surf.surfaceFormats VK_FORMAT_UNDEFINED
      let first := surf.surfaceFormats.getD 0 (0, 0)
      let imageFormat := if found = VK_FORMAT_UNDEFINED then first.1 else found
      let colorSpace := if found = VK_FORMAT_UNDEFINED then first.2 else r1.swapchain.colorSpace
      let r2 :=
        { r1 with swapchain :=
            { r1.swapchain with imageFormat := imageFormat, colorSpace := colorSpace } }
      if 0 < surf.presentModes.length then
        let presentMode :=
          getPresentMode preferredPresentation surf.presentModes VK_PRESENT_MODE_FIFO_KHR
        if surf.surfaceSupported then
          let swapchain := r2.nextHandle
          let imageCount := surf.swapchainImageCount
          let imageViews := (List.range imageCount).map (fun i => r2.nextHandle + 1 + i)
          let semaphore := r2.nextHandle + 1 + imageCount
          .done ()
            ({ r2 with
                nextHandle := r2.nextHandle + 2 + imageCount
                swapchain :=
                  { r2.swapchain with
                      swapchain := swapchain
                      imageCount := imageCount
                      imageViews := imageViews
                      swapchainImageSemaphore := semaphore
                      imageExtent := (r2.window.width, r2.window.height) } }.emit
              ([Call.createSwapchain swapchain surface c_bufferingCount imageFormat colorSpace
                  r2.window.width r2.window.height presentMode] ++
                imageViews.map Call.createImageView ++ [Call.createSemaphore semaphore]))
        else .aborted r2
      else .aborted r2
    else .aborted r1
  else .aborted r

/-- `GfxResources::resizeWindow`: idle wait, `destroySwapchain`,
`createSwapchain`. -/
def Renderer.resizeWindow (r : Renderer) (surf : SurfaceEnv) : Run Renderer Unit :=
  (r.emit [Call.deviceWaitIdle]).destroySwapchain.createSwapchain surf

/-- `Renderer::createFramebuffers`: one framebuffer per swapchain image view,
each with the window size. -/
def Renderer.createFramebuffers (r : Renderer) : Renderer :=
  let handles := (List.range r.swapchain.imageViews.length).map (fun i => r.nextHandle + i)
  { r with
      m_framebuffers := handles
      framebufferExtents :=
        r.swapchain.imageViews.map (fun _ => (r.window.width, r.window.height))
      nextHandle := r.nextHandle + r.swapchain.imageViews.length }.emit
    ((handles.zip r.swapchain.imageViews).map fun (p : Nat × Nat) =>
      Call.createFramebuffer p.1 r.m_renderPass p.2 r.window.width r.window.height)

/-- `Renderer::resizeFramebuffer`: idle wait, destruction of the
framebuffers, the pipeline layout and the pipeline, then
`createGraphicsPipeline` and `createFramebuffers`. -/
def Renderer.resizeFramebuffer (r : Renderer) : Run Renderer Unit :=
  ((r.emit
      ([Call.deviceWaitIdle] ++ r.m_framebuffers.map Call.destroyFramebuffer ++
        [Call.destroyPipelineLayout r.m_pipelineLayout,
         Call.destroyPipeline r.m_graphicsPipeline])).createGraphicsPipeline).andThen
    fun _ r1 => .done () r1.createFramebuffers

/-! ## The outer loop (`Engine::run`) -/

/-- What the outside world answers during one iteration of `Engine::run`:
the window message, the surface answers used if a resize is handled, the
file system and the drained change sets of the two watchers (empty when
nothing changed), the two compile results, and the frame answers. -/
structure LoopEnv where
  message : Option (Option (Nat × Nat))
  surface : SurfaceEnv
  files : String → Option StbImage
  changedImages : List String
  changedShaders : List String
  vertOk : Bool
  fragOk : Bool
  frame : FrameEnv

/-- The body of the loop in `Engine::run` up to, and not including, the
`render` call: window update, the resize cascade when the window reports a
resize, `updateImages` and `updateShaders` when their change set is not
empty. -/
def Engine.prepareFrame (r : Renderer) (env : LoopEnv) : Run Renderer Unit :=
  let r1 := { r with window := r.window.update env.message }
  (if r1.window.m_resized then
      (r1.resizeWindow env.surface).andThen fun _ r2 =>
        r2.resizeFramebuffer.andThen fun _ r3 =>
          .done () { r3 with window := r3.window.resizeHandled }
    else .done () r1).andThen fun _ r4 =>
    (if env.changedImages ≠ [] then r4.updateImages env.files env.changedImages
      else .done () r4).andThen fun _ r5 =>
      if env.changedShaders ≠ [] then
        r5.updateShaders env.changedShaders env.vertOk env.fragOk
      else .done () r5

/-- One iteration of the loop in `Engine::run`. -/
def Engine.runIteration (r : Renderer) (env : LoopEnv) : Run Renderer Unit :=
  (Engine.prepareFrame r env).andThen fun _ r1 => r1.render env.frame

/-- The loop of `Engine::run` over a list of iterations. -/
def Engine.run (r : Renderer) : List LoopEnv → Run Renderer Unit
  | [] => .done () r
  | env :: envs => (Engine.runIteration r env).andThen fun _ r1 => Engine.run r1 envs

/-- The swapchain extent, the size of every framebuffer and the pipeline's
viewport and scissor all equal the window size. -/
def Renderer.sizesMatch (r : Renderer) : Prop :=
  r.swapchain.imageExtent = (r.window.width, r.window.height) ∧
  (∀ e ∈ r.framebufferExtents, e = (r.window.width, r.window.height)) ∧
  r.framebufferExtents.length = r.m_framebuffers.length ∧
  r.pipelineExtent = (r.window.width, r.window.height)

/-- The size condition can be checked by evaluation. -/
instance Renderer.decidableSizesMatch (r : Renderer) : Decidable r.sizesMatch := by
  unfold Renderer.sizesMatch
  infer_instance

/-- Sizes of the render areas passed to `vkCmdBeginRenderPass`, in log
order. -/
def renderAreas (calls : List Call) : List (Nat × Nat) :=
  calls.filterMap fun c =>
    match c with
    | .cmdBeginRenderPass _ _ _ width height => some (width, height)
    | _ => none

/-! ## `GpuBufferStaging` -/

/-- The constructor of `GpuBufferStaging`, given the handle the driver hands
out for the buffer: asserts a positive size and a non-null source (`none` is
a null pointer), rounds `byteSize` up to `minMemoryMapAlignment` (cast to
`uint32_t`), and copies `byteSize` bytes, the rounded value, from the
source. -/
def GpuBufferStaging.create (dev : GfxDevice) (buffer sizeInBytes : Nat)
    (p_inputData : Option (List Nat)) : Option GpuBufferStaging :=
  if 0 < sizeInBytes then
    match p_inputData with
    | some source =>
      let minByteAlignment := dev.minMemoryMapAlignment % 2 ^ 32
      let byteSize := getAlignedByteSize sizeInBytes minByteAlignment
      some { buffer := buffer, byteSize := byteSize, bytesCopied := byteSize, payload := source }
    | none => none
  else none

/-- Indices of the source that the constructor's `memcpy` reads. -/
def GpuBufferStaging.sourceIndicesRead (st : GpuBufferStaging) : List Nat :=
  List.range st.bytesCopied



/-! ## The image descriptor pool, read off the call log -/

/-- `GfxDescriptorPool::c_maxSetsImage`, the `maxSets` of the image pool. -/
def c_maxSetsImage : Nat := 1

/-- Whether a call allocates or frees a descriptor set. -/
def Call.touchesDescriptorPool : Call → Bool
  | .allocateDescriptorSets _ => true
  | .freeDescriptorSets _ => true
  | _ => false

/-- The sets a pool holds after one more call, given the sets it held. -/
def liveSetsStep (live : List Nat) : Call → List Nat
  | .allocateDescriptorSets h => live ++ [h]
  | .freeDescriptorSets h => live.filter (fun x => x ≠ h)
  | _ => live

/-- The largest number of sets the pool holds at any point while the calls
are made, starting from the sets `live`. -/
def peakLiveSets (live : List Nat) : List Call → Nat
  | [] => live.length
  | c :: cs => max live.length (peakLiveSets (liveSetsStep live c) cs)

/-- State `s` has the window, the swapchain, the framebuffers and the
recorded sizes of state `r`. -/
def Renderer.sameFrame (r s : Renderer) : Prop :=
  s.window = r.window ∧ s.swapchain = r.swapchain ∧ s.m_framebuffers = r.m_framebuffers ∧
  s.framebufferExtents = r.framebufferExtents ∧ s.pipelineExtent = r.pipelineExtent

/-- What the reload loops of `updateImages` keep true from state `r` to state
`s`: the log has only grown, by calls that neither allocate nor free a
descriptor set, the image descriptor set is the same object, and window,
swapchain, framebuffers and recorded sizes are the same. -/
def Renderer.reloadStep (r s : Renderer) : Prop :=
  (∃ added, s.calls = r.calls ++ added ∧ ∀ c ∈ added, c.touchesDescriptorPool = false) ∧
  s.m_descriptorSetImage = r.m_descriptorSetImage ∧ r.sameFrame s

/-! ## Image layouts and uniform writes, read off the call log -/

/-- Old and new layout of the image barriers in the two pipeline-barrier
calls of `renderCopyImages`: undefined to transfer-destination before the
copies, transfer-destination to shader-read-only after them. -/
def copyBarrierLayouts (post : Bool) : Nat × Nat :=
  if post then (VK_IMAGE_LAYOUT_TRANSFER_DST_OPTIMAL, VK_IMAGE_LAYOUT_SHADER_READ_ONLY_OPTIMAL)
  else (VK_IMAGE_LAYOUT_UNDEFINED, VK_IMAGE_LAYOUT_TRANSFER_DST_OPTIMAL)

/-- The layout the recorded barriers leave an image in: the new layout of
the last barrier that names it, `none` when no barrier names it. -/
def imageLayoutAfter (image : Nat) (calls : List Call) : Option Nat :=
  calls.foldl
    (fun cur c =>
      match c with
      | .cmdImageBarriers _ post images =>
        if image ∈ images then some (copyBarrierLayouts post).2 else cur
      | _ => cur)
    none

/-- The `imageLayout` that `createDescriptorsImage` stores as third member of
each slot's `VkDescriptorImageInfo`: the `imageLayout` member of the slot's
image; `none` when a slot holds a null pointer. -/
def Renderer.descriptorImageLayouts (r : Renderer) : Option (List Nat) :=
  r.m_imageSet.images.mapM fun o => o.map fun img => img.imageLayout

/-- Number of `float`s of each member of `Renderer::ShaderInputUniform`, in
declaration order: `iChannelResolution[4][4]`, `iMouse[4]`, `iDate[4]`,
`iResolution[4]`, `iChannelTime[4]`, `iGlobalDelta`, `iGlobalFrame`,
`iGlobalTime`, `iSampleRate`. -/
def ShaderInputUniform.floatCounts : List Nat := [16, 4, 4, 4, 4, 1, 1, 1, 1]

/-- `sizeof(ShaderInputUniform)`: four bytes per `float`, no padding. -/
def sizeofShaderInputUniform : Nat := 4 * ShaderInputUniform.floatCounts.sum

/-- Byte counts of the `memcpy` calls into the uniform ring, in log order. -/
def hostWriteSizes (calls : List Call) : List Nat :=
  calls.filterMap fun c =>
    match c with
    | .hostWriteUniform _ size => some size
    | _ => none

/-! ## Start-up (`Renderer::Renderer`, `Renderer::createImages`) -/

/-- `ResourceList::imageFiles`. -/
def imageFiles : List String :=
  ["channel0.png", "channel1.png", "channel2.png", "channel3.png"]

/-- `std::vector::resize(n)`: the first `n` elements are kept and the vector
is padded with value-initialised elements. -/
def vectorResize {α : Type} (l : List α) (n : Nat) (d : α) : List α :=
  l.take n ++ List.replicate (n - l.length) d

/-- The loop of `createImages`: `createImage(idx, imagePath + "/" +
imageFiles[idx])` for each index. -/
def Renderer.createImagesLoop (r : Renderer) (fs : String → Option StbImage) :
    List (Nat × String) → Run Renderer Unit
  | [] => .done () r
  | (idx, file) :: rest =>
    (r.createImage fs idx (imagePath ++ "/" ++ file)).andThen fun _ r1 =>
      Renderer.createImagesLoop r1 fs rest

/-- `Renderer::createImages`: the three vectors are resized to the number of
image files, every file is loaded into its slot, and the aggregate dirty flag
is set. -/
def Renderer.createImages (r : Renderer) (fs : String → Option StbImage) :
    Run Renderer Unit :=
  let imageCount := imageFiles.length
  let r1 :=
    { r with m_imageSet :=
        { r.m_imageSet with
            stagingBuffers := vectorResize r.m_imageSet.stagingBuffers imageCount none
            images := vectorResize r.m_imageSet.images imageCount none
            dirtyFlags := vectorResize r.m_imageSet.dirtyFlags imageCount false } }
  (r1.createImagesLoop fs imageFiles.enum).andThen fun _ r2 =>
    .done () { r2 with m_imageSet := { r2.m_imageSet with dirty := true } }

/-- The first three steps of the constructor `Renderer::Renderer`:
`createImages`, `createShaders(false)` (whose result is ignored) and
`createDescriptorsImage`. -/
def Renderer.constructImages (r : Renderer) (fs : String → Option StbImage)
    (vertOpen fragOpen : Bool) : Run Renderer Unit :=
  (r.createImages fs).andThen fun _ r1 =>
    (r1.createShaders false vertOpen fragOpen).andThen fun _ r2 =>
      r2.createDescriptorsImage

/-! ## `FileDirectoryWatcher` -/

/-- State of the `std::future<bool>` member `m_watcher`: without shared
state (`valid()` is false), or holding the asynchronous watch, which is
still running or has returned a result that has not been fetched. -/
inductive WatchFuture where
  | invalid
  | running
  | ready (result : Bool)
  deriving DecidableEq, Repr

/-- The data members of `FileDirectoryWatcher`. The map `m_watchedFiles` is
a list of (name, timestamp) pairs with distinct names. -/
structure FileDirectoryWatcher where
  m_watchedFiles : List (String × Nat)
  m_changeDetected : Bool
  m_watcher : WatchFuture
  m_cropExtension : Bool
  deriving DecidableEq, Repr

/-- `FileDirectoryWatcher::getCroppedName`: the name cut before its last
`'.'`, or the whole name when it has none. -/
def getCroppedName (fullname : String) : String :=
  match findLastOf fullname.data '.' with
  | some lastIndex => String.mk (fullname.data.take lastIndex)
  | none => fullname

/-- Assignment `iter->second = stamp` through the iterator that
`m_watchedFiles.find(key)` returned. -/
def setStamp (m : List (String × Nat)) (key : String) (stamp : Nat) : List (String × Nat) :=
  m.map fun p => if p.1 = key then (p.1, stamp) else p

/-- The name a directory entry is looked up by. -/
def compareFilename (crop : Bool) (filename : String) : String :=
  if crop then getCroppedName filename else filename

/-- One iteration of the loop of `getWriteStampFiles` on a directory entry
(file name and last-write timestamp as a 64-bit value): when the compare name
is watched and the timestamp differs from the stored one, the stored one is
replaced and the full name is appended to the result. -/
def examineEntry (crop : Bool) (acc : List String × List (String × Nat))
    (entry : String × Nat) : List String × List (String × Nat) :=
  match acc.2.lookup (compareFilename crop entry.1) with
  | some stored =>
    if entry.2 ≠ stored then
      (acc.1 ++ [entry.1], setStamp acc.2 (compareFilename crop entry.1) entry.2)
    else acc
  | none => acc

/-- `FileDirectoryWatcher::getWriteStampFiles`. The listing is `none` when
`FindFirstFile` returns `INVALID_HANDLE_VALUE`; otherwise its first element
is the entry `FindFirstFile` stored and the others are the entries the
`FindNextFile` calls deliver. The loop body runs after each `FindNextFile`,
so the first element is not examined. -/
def FileDirectoryWatcher.getWriteStampFiles (w : FileDirectoryWatcher)
    (listing : Option (List (String × Nat))) : List String × FileDirectoryWatcher :=
  match listing with
  | some entries =>
    let res := (entries.drop 1).foldl (examineEntry w.m_cropExtension) ([], w.m_watchedFiles)
    (res.1, { w with m_watchedFiles := res.2 })
  | none => ([], w)

/-- `FileDirectoryWatcher::startWatch`: a new asynchronous watch. -/
def FileDirectoryWatcher.startWatch (w : FileDirectoryWatcher) : FileDirectoryWatcher :=
  { w with m_watcher := .running }

/-- One iteration of the loop of `setupTimestamps`: an entry whose compare
name is one of the given file names is entered into the map unless the name
is already there (`emplace`). -/
def setupEntry (crop : Bool) (filenames : List String) (m : List (String × Nat))
    (entry : String × Nat) : List (String × Nat) :=
  if compareFilename crop entry.1 ∈ filenames ∧
      m.lookup (compareFilename crop entry.1) = none then
    m ++ [(compareFilename crop entry.1, entry.2)]
  else m

/-- The constructor of `FileDirectoryWatcher`: `setupTimestamps` over the
directory listing (whose first element is not examined either), then
`startWatch`. -/
def FileDirectoryWatcher.create (filenames : List String) (dropExtension : Bool)
    (listing : Option (List (String × Nat))) : FileDirectoryWatcher :=
  let stamps := match listing with
    | some entries => (entries.drop 1).foldl (setupEntry dropExtension filenames) []
    | none => []
  FileDirectoryWatcher.startWatch
    { m_watchedFiles := stamps, m_changeDetected := false, m_watcher := .invalid
      m_cropExtension := dropExtension }

/-- The asynchronous watch returns `result` (`true` for a change
notification, `false` for the stop event, a failed wait or a failed
`FindFirstChangeNotification`). -/
def FileDirectoryWatcher.watchReturns (w : FileDirectoryWatcher) (result : Bool) :
    FileDirectoryWatcher :=
  match w.m_watcher with
  | .running => { w with m_watcher := .ready result }
  | _ => w

/-- `FileDirectoryWatcher::checkForChanges`: a finished watch hands its
result to `m_changeDetected`, which leaves the future without shared state;
the flag is returned. -/
def FileDirectoryWatcher.checkForChanges (w : FileDirectoryWatcher) :
    Bool × FileDirectoryWatcher :=
  match w.m_watcher with
  | .ready result => (result, { w with m_changeDetected := result, m_watcher := .invalid })
  | _ => (w.m_changeDetected, w)

/-- `FileDirectoryWatcher::getChangedFilesAndReset`. -/
def FileDirectoryWatcher.getChangedFilesAndReset (w : FileDirectoryWatcher)
    (listing : Option (List (String × Nat))) : List String × FileDirectoryWatcher :=
  if w.m_changeDetected then
    let res := { w with m_changeDetected := false }.getWriteStampFiles listing
    (res.1, if res.2.m_watcher = .invalid then res.2.startWatch else res.2)
  else ([], w)

/-- What can happen to a watcher between two looks at it: one of its two
public member functions is called, or its asynchronous watch returns. -/
inductive WatcherEvent where
  | checkForChanges
  | getChangedFilesAndReset (listing : Option (List (String × Nat)))
  | watchReturns (result : Bool)
  deriving DecidableEq, Repr

/-- The watcher after one event. -/
def FileDirectoryWatcher.step (w : FileDirectoryWatcher) : WatcherEvent → FileDirectoryWatcher
  | .checkForChanges => w.checkForChanges.2
  | .getChangedFilesAndReset listing => (w.getChangedFilesAndReset listing).2
  | .watchReturns result => w.watchReturns result

/-- The watcher after a sequence of events. -/
def FileDirectoryWatcher.run (w : FileDirectoryWatcher) (events : List WatcherEvent) :
    FileDirectoryWatcher :=
  events.foldl FileDirectoryWatcher.step w

/-- Whether the stored timestamp of a directory entry's compare name differs
from the entry's timestamp. -/
def stampDiffers (crop : Bool) (m : List (String × Nat)) (entry : String × Nat) : Bool :=
  match m.lookup (compareFilename crop entry.1) with
  | some stored => decide (entry.2 ≠ stored)
  | none => false
/-! ## Concrete inputs -/

/-- Device whose two limits are 256 and 64. -/
def sampleDevice : GfxDevice :=
  { minUniformBufferOffsetAlignment := 256, minMemoryMapAlignment := 64 }

/-- The ring the constructor builds on `sampleDevice` for the 144-byte
`ShaderInputUniform`, with zeroed memory. -/
def sampleBuffer : GpuBufferUniform :=
  { byteSize := 256, wholeByteSize := 768, mp_data := fun _ => 0, m_bufferIndex := 0 }

/-- Two small payloads: four bytes `1, 2, 3, 4`, then two bytes `9, 9`. -/
def sampleWrites : List (Nat × (Nat → Nat)) :=
  [(4, fun i => i + 1), (2, fun _ => 9)]

/-- The ring the constructor builds on `sampleDevice` for a request of
`2 ^ 31` bytes, with zeroed memory. -/
def wideBuffer : GpuBufferUniform :=
  { byteSize := 2 ^ 31, wholeByteSize := 2 ^ 31, mp_data := fun _ => 0, m_bufferIndex := 0 }

/-- Two one-byte payloads, `7` then `9`. -/
def wideWrites : List (Nat × (Nat → Nat)) :=
  [(1, fun _ => 7), (1, fun _ => 9)]

/-- One decoded 1x1 image slot: staging buffer `100 + 10 * i`, image handles
`101 + 10 * i` and the two after it. -/
def sampleStaging (i : Nat) : GpuBufferStaging :=
  { buffer := 100 + 10 * i, byteSize := 64, bytesCopied := 64, payload := [0, 0, 0, 255] }

/-- Image object of slot `i` in `bootRenderer`. -/
def sampleImage (i : Nat) : GpuImage :=
  { image := 101 + 10 * i, imageView := 102 + 10 * i, sampler := 103 + 10 * i
    width := 1, height := 1, depth := 1, imageLayout := VK_IMAGE_LAYOUT_UNDEFINED }

/-- A renderer as the constructor leaves it on `sampleDevice`: three
submission units with cursor 0, a three-slice uniform ring with cursor 0,
four loaded image slots still to be uploaded, and an empty call log. -/
def bootRenderer : Renderer :=
  { device := sampleDevice
    swapchain :=
      { imageIndex := 0, imageCount := 3, swapchainImageSemaphore := 40
        imageViews := [41, 42, 43], surface := 44, swapchain := 45
        imageFormat := 50, colorSpace := 0, imageExtent := (1280, 720) }
    cmdBuffer :=
      { commandBuffers := [11, 12, 13], commandBufferFences := [21, 22, 23]
        cmdBufferSubmitSemaphore := 30, m_bufferIndex := 0 }
    window := { width := 1280, height := 720, m_resized := false }
    m_renderPass := 50
    m_graphicsPipeline := 52
    m_pipelineLayout := 51
    m_descriptorSetUniform := some { descriptorSet := 60, descriptorSetLayout := 61 }
    m_gpuBufferUniform := some sampleBuffer
    m_descriptorSetImage := some { descriptorSet := 62, descriptorSetLayout := 63 }
    m_framebuffers := [71, 72, 73]
    m_imageSet :=
      { stagingBuffers := (List.range 4).map (fun i => some (sampleStaging i))
        images := (List.range 4).map (fun i => some (sampleImage i))
        dirtyFlags := [true, true, true, true]
        dirty := true }
    m_shader := some { vert := 80, frag := 81 }
    framebufferExtents := [(1280, 720), (1280, 720), (1280, 720)]
    pipelineExtent := (1280, 720)
    nextHandle := 200
    calls := [] }

/-- A frame in which the acquire returns image `i`, the fence wait succeeds
and the payload bytes are all `v`. -/
def frameEnv (i v : Nat) : FrameEnv :=
  { acquiredImageIndex := i, fenceSignaled := true, shaderInputUniform := fun _ _ => v }

/-- A file system in which every path decodes to a 1x1 image. -/
def sampleFiles : String → Option StbImage :=
  fun _ => some { x := 1, y := 1, data := [0, 0, 0, 255] }

/-- A file system in which no path decodes. -/
def missingFiles : String → Option StbImage :=
  fun _ => none

/-- The renderer once the first frame has uploaded the images: every dirty
flag is clear. -/
def settledRenderer : Renderer :=
  { bootRenderer with
    m_imageSet :=
      { bootRenderer.m_imageSet with dirtyFlags := [false, false, false, false]
                                     dirty := false } }

/-- Three memory types: device-local (1), host-visible and coherent (6), and
all three flags (7). -/
def sampleMemory : VkPhysicalDeviceMemoryProperties :=
  { memoryTypeCount := 3, memoryTypes := [1, 6, 7] ++ List.replicate 29 0 }

/-- Requirements that allow memory types 1 and 2. -/
def sampleRequirements : VkMemoryRequirements :=
  { size := 768, alignment := 256, memoryTypeBits := 6 }


/-- A frame in which the acquire returns image 0 and the fence wait does not
return `VK_SUCCESS` within the timeout. -/
def timeoutEnv : FrameEnv :=
  { acquiredImageIndex := 0, fenceSignaled := false, shaderInputUniform := fun _ _ => 0 }

/-- A file system in which every path decodes to a 2x3 image. -/
def widerFiles : String → Option StbImage :=
  fun _ => some { x := 2, y := 3, data := List.replicate 24 0 }

/-- Surface answers under which a swapchain is created with three images:
presentation and the surface are supported, one surface format
(`VK_FORMAT_B8G8R8A8_SRGB`, color space 0) and one present mode (FIFO). -/
def sampleSurface : SurfaceEnv :=
  { hasPresentationSupport := true, surfaceFormats := [(50, 0)], presentModes := [2]
    surfaceSupported := true, swapchainImageCount := 3 }

/-- The renderer of `bootRenderer` on a driver that gave the swapchain four
images: four image views and four framebuffers. -/
def fourImageRenderer : Renderer :=
  { bootRenderer with
    swapchain := { bootRenderer.swapchain with imageCount := 4, imageViews := [41, 42, 43, 46] }
    m_framebuffers := [71, 72, 73, 74]
    framebufferExtents := [(1280, 720), (1280, 720), (1280, 720), (1280, 720)] }

/-- One iteration of the loop in which the window message reports a client
rectangle of 1920x1080, no file changed, and the frame acquires image 0. -/
def resizeEnv : LoopEnv :=
  { message := some (some (1920, 1080)), surface := sampleSurface, files := sampleFiles
    changedImages := [], changedShaders := [], vertOk := true, fragOk := true
    frame := frameEnv 0 7 }

/-- One iteration of the loop in which no window message is pending, no file
changed, and the frame acquires image `i`. -/
def quietEnv (i : Nat) : LoopEnv :=
  { message := none, surface := sampleSurface, files := sampleFiles
    changedImages := [], changedShaders := [], vertOk := true, fragOk := true
    frame := frameEnv i 7 }

/-- The `Renderer` object when its constructor body starts: the resources of
`GfxResources` exist, the renderer's own members are empty or null. -/
def blankRenderer : Renderer :=
  { bootRenderer with
    m_renderPass := 0, m_graphicsPipeline := 0, m_pipelineLayout := 0
    m_descriptorSetUniform := none, m_gpuBufferUniform := none, m_descriptorSetImage := none
    m_framebuffers := [], m_shader := none
    m_imageSet := { stagingBuffers := [], images := [], dirtyFlags := [], dirty := false }
    framebufferExtents := [], pipelineExtent := (0, 0) }

/-- A file system in which `textures/channel2.png` does not decode and every
other path decodes to a 1x1 image. -/
def partialFiles : String → Option StbImage :=
  fun path =>
    if path = "textures/channel2.png" then none
    else some { x := 1, y := 1, data := [0, 0, 0, 255] }

/-- The texture directory as `FindFirstFile` and `FindNextFile` list it: the
two dot entries, then `channel0.jpg` (timestamp 10) and `channel0.png`
(timestamp 20), two files with the same name up to the extension. -/
def twinListing : Option (List (String × Nat)) :=
  some [(".", 1), ("..", 1), ("channel0.jpg", 10), ("channel0.png", 20)]

/-- The texture directory with one file per channel; `channel1.png` has
timestamp 31. -/
def plainListing : Option (List (String × Nat)) :=
  some [(".", 1), ("..", 1), ("channel0.png", 20), ("channel1.png", 31)]

/-- An image watcher after a change was detected: `channel0` and `channel1`
are watched with stored timestamps 20 and 30, the flag is set and the watch
has been consumed. -/
def flaggedWatcher : FileDirectoryWatcher :=
  { m_watchedFiles := [("channel0", 20), ("channel1", 30)], m_changeDetected := true
    m_watcher := .invalid, m_cropExtension := true }

/-- Component `k` of one `iChannelResolution` entry. -/
def channelComponent (t : Nat × Nat × Nat × Nat) (k : Nat) : Nat :=
  match k with
  | 0 => t.1
  | 1 => t.2.1
  | 2 => t.2.2.1
  | _ => t.2.2.2

/-- A frame that acquires image 0, whose fence wait succeeds, and whose
payload is laid out one value per address: address `4 * idx + k` holds
component `k` of `iChannelResolution[idx]`, addresses past the sixteenth hold
zero. -/
def resolutionEnv : FrameEnv :=
  { acquiredImageIndex := 0, fenceSignaled := true
    shaderInputUniform := fun iChannelResolution a =>
      channelComponent (iChannelResolution.getD (a / 4) (0, 0, 0, 0)) (a % 4) }
/-! ## Alignment -/

/-- Masking a 32-bit value with the complement of `2 ^ k - 1` clears its low
`k` bits, which rounds it down to a multiple of `2 ^ k`. -/
theorem and_not32_two_pow (x k : Nat) (hx : x < 2 ^ 32) (hk : k ≤ 32) :
    x &&& (2 ^ 32 - ((2 ^ k - 1) + 1)) = 2 ^ k * (x / 2 ^ k) := by
  apply Nat.eq_of_testBit_eq
  intro i
  have hlt : 2 ^ k - 1 < 2 ^ 32 := by
    have : 2 ^ k ≤ 2 ^ 32 := Nat.pow_le_pow_right (by decide) hk
    have : 0 < 2 ^ k := Nat.two_pow_pos k
    omega
  rw [Nat.testBit_and, Nat.testBit_two_pow_sub_succ hlt, Nat.testBit_two_pow_sub_one,
    Nat.testBit_mul_pow_two, ← Nat.shiftRight_eq_div_pow, Nat.testBit_shiftRight]
  by_cases hik : k ≤ i
  · have hki : k + (i - k) = i := by omega
    by_cases hi : i < 32
    · simp [hik, hi, hki, Nat.not_lt.mpr hik]
    · have hxi : x.testBit i = false :=
        Nat.testBit_lt_two_pow (lt_of_lt_of_le hx (Nat.pow_le_pow_right (by decide) (by omega)))
      simp [hik, hi, hki, hxi]
  · have : i < k := by omega
    simp [hik, this]

/-- Closed form of `getAlignedByteSize` for a power-of-two alignment when the
intermediate sum fits in 32 bits. -/
theorem getAlignedByteSize_eq (byteSize k : Nat) (h : byteSize + 2 ^ k - 1 < 2 ^ 32) :
    getAlignedByteSize byteSize (2 ^ k) = 2 ^ k * ((byteSize + 2 ^ k - 1) / 2 ^ k) := by
  have hpos : 0 < 2 ^ k := Nat.two_pow_pos k
  have hk : k ≤ 32 := by
    by_contra hc
    have : 2 ^ 33 ≤ 2 ^ k := Nat.pow_le_pow_right (by decide) (by omega)
    norm_num at this h
    omega
  have h1 : sub32 (add32 byteSize (2 ^ k)) 1 = byteSize + 2 ^ k - 1 := by
    unfold sub32 add32
    norm_num at h ⊢
    omega
  have h2 : not32 (sub32 (2 ^ k) 1) = 2 ^ 32 - ((2 ^ k - 1) + 1) := by
    unfold not32 sub32
    norm_num at h ⊢
    omega
  rw [getAlignedByteSize, h1, h2, and_not32_two_pow _ _ h hk]

/-- The rounded-up value `a * ((n + a - 1) / a)` is the least multiple of `a`
that is at least `n`. -/
theorem roundUp_least (n a : Nat) (hpos : 0 < a) :
    a ∣ a * ((n + a - 1) / a) ∧ n ≤ a * ((n + a - 1) / a) ∧
    (∀ m, a ∣ m → n ≤ m → a * ((n + a - 1) / a) ≤ m) ∧
    a * ((n + a - 1) / a) < n + a := by
  have hdm := Nat.div_add_mod (n + a - 1) a
  have hml := Nat.mod_lt (n + a - 1) hpos
  refine ⟨Dvd.intro _ rfl, by omega, ?_, by omega⟩
  rintro m ⟨c, rfl⟩ hle
  apply Nat.mul_le_mul_left
  apply Nat.lt_succ_iff.mp
  apply Nat.div_lt_of_lt_mul
  rw [Nat.mul_succ]
  omega

/-- C9. For a power-of-two alignment and `byteSize + alignment - 1 < 2 ^ 32`,
`getAlignedByteSize byteSize alignment` is a multiple of the alignment, is at
least `byteSize`, is below every other such multiple, is less than
`byteSize + alignment`, and equals `byteSize` when `byteSize` is already a
multiple of the alignment. -/
theorem getAlignedByteSize_smallest_multiple (byteSize alignment k : Nat)
    (hk : alignment = 2 ^ k) (h : byteSize + alignment - 1 < 2 ^ 32) :
    alignment ∣ getAlignedByteSize byteSize alignment ∧
    byteSize ≤ getAlignedByteSize byteSize alignment ∧
    (∀ m, alignment ∣ m → byteSize ≤ m → getAlignedByteSize byteSize alignment ≤ m) ∧
    getAlignedByteSize byteSize alignment < byteSize + alignment ∧
    (alignment ∣ byteSize → getAlignedByteSize byteSize alignment = byteSize) := by
  subst hk
  rw [getAlignedByteSize_eq byteSize k h]
  obtain ⟨h1, h2, h3, h4⟩ := roundUp_least byteSize (2 ^ k) (Nat.two_pow_pos k)
  exact ⟨h1, h2, h3, h4, fun hd => le_antisymm (h3 _ hd le_rfl) h2⟩

/-- Witness for C9: size 144 and alignment 256 round up to 256. -/
theorem getAlignedByteSize_smallest_multiple_witness :
    256 ∣ getAlignedByteSize 144 256 ∧
    144 ≤ getAlignedByteSize 144 256 ∧
    (∀ m, 256 ∣ m → 144 ≤ m → getAlignedByteSize 144 256 ≤ m) ∧
    getAlignedByteSize 144 256 < 144 + 256 ∧
    (256 ∣ 144 → getAlignedByteSize 144 256 = 144) :=
  getAlignedByteSize_smallest_multiple 144 256 8 (by decide) (by decide)

/-! ## The uniform ring buffer -/

/-- Outcome of one `copyData` call whose payload fits the slice. -/
theorem copyData_done (b : GpuBufferUniform) (n : Nat) (p : Nat → Nat) (h : n ≤ b.byteSize) :
    b.copyData n p = .done ()
      { b with m_bufferIndex := add32 b.m_bufferIndex 1 % c_bufferCount
               mp_data := memcpy b.mp_data
                 (mul32 (add32 b.m_bufferIndex 1 % c_bufferCount) b.byteSize) p
                 (min b.byteSize n) } := by
  simp [GpuBufferUniform.copyData, h]

/-- C8. `copyData` fails exactly when the payload length exceeds the
per-slice size; a failed call leaves the whole object (cursor and mapped
bytes) as it was; a successful call keeps the slice size, writes the
`sizeInBytes` payload bytes at consecutive addresses starting at the offset
`getByteOffset` reports afterwards, leaves every other address untouched, and
the written range ends inside the slice of `byteSize` bytes that starts at
that offset. -/
theorem copyData_fails_iff_and_writes_in_slice (b : GpuBufferUniform) (sizeInBytes : Nat)
    (p_data : Nat → Nat) :
    ((b.copyData sizeInBytes p_data).completed = false ↔ b.byteSize < sizeInBytes) ∧
    ((b.copyData sizeInBytes p_data).completed = false →
      (b.copyData sizeInBytes p_data).state = b) ∧
    ((b.copyData sizeInBytes p_data).completed = true →
      (b.copyData sizeInBytes p_data).state.byteSize = b.byteSize ∧
      (∀ i, i < sizeInBytes →
        (b.copyData sizeInBytes p_data).state.mp_data
          ((b.copyData sizeInBytes p_data).state.getByteOffset + i) = p_data i) ∧
      (∀ a, ¬ ((b.copyData sizeInBytes p_data).state.getByteOffset ≤ a ∧
               a < (b.copyData sizeInBytes p_data).state.getByteOffset + sizeInBytes) →
        (b.copyData sizeInBytes p_data).state.mp_data a = b.mp_data a) ∧
      (b.copyData sizeInBytes p_data).state.getByteOffset + sizeInBytes ≤
        (b.copyData sizeInBytes p_data).state.getByteOffset + b.byteSize) := by
  by_cases h : sizeInBytes ≤ b.byteSize
  · rw [copyData_done b sizeInBytes p_data h]
    have hmin : min b.byteSize sizeInBytes = sizeInBytes := Nat.min_eq_right h
    refine ⟨?_, ?_, ?_⟩
    · simp [Run.completed]; omega
    · simp [Run.completed]
    · intro _
      refine ⟨rfl, ?_, ?_, ?_⟩
      · intro i hi
        simp [Run.state, GpuBufferUniform.getByteOffset, memcpy, hmin, hi]
      · intro a ha
        simp only [Run.state, GpuBufferUniform.getByteOffset, memcpy, hmin] at ha ⊢
        rw [if_neg ha]
      · simp only [Run.state, GpuBufferUniform.getByteOffset]
        omega
  · have hlt : b.byteSize < sizeInBytes := by omega
    simp [GpuBufferUniform.copyData, h, Run.completed, Run.state, hlt]

/-- Slice offsets of a ring whose three slices fit in 32 bits do not wrap. -/
theorem mul32_slice (i bs : Nat) (hi : i < 3) (hfit : 3 * bs < 2 ^ 32) :
    mul32 i bs = i * bs := by
  unfold mul32
  apply Nat.mod_eq_of_lt
  have h2 : i * bs ≤ 2 * bs := Nat.mul_le_mul_right bs (by omega)
  omega

/-- The cursor after one more call, when it was `c % 3` before. -/
theorem next_index (c : Nat) : add32 (c % 3) 1 % c_bufferCount = (c + 1) % 3 := by
  unfold add32 c_bufferCount
  have h : c % 3 + 1 < 2 ^ 32 := by
    have := Nat.mod_lt c (by decide : 0 < 3)
    norm_num
    omega
  rw [Nat.mod_eq_of_lt h]
  omega

/-- One call from a state whose cursor is `c % 3`: the explicit successor. -/
theorem copyData_step (b : GpuBufferUniform) (c n : Nat) (p : Nat → Nat)
    (hc : b.m_bufferIndex = c % 3) (hfit : 3 * b.byteSize < 2 ^ 32) (hn : n ≤ b.byteSize) :
    b.copyData n p = .done ()
      { b with m_bufferIndex := (c + 1) % 3
               mp_data := memcpy b.mp_data ((c + 1) % 3 * b.byteSize) p n } := by
  rw [copyData_done b n p hn, hc, next_index,
    mul32_slice _ _ (Nat.mod_lt _ (by decide)) hfit, Nat.min_eq_right hn]

/-- Running a list of calls after another list. -/
theorem copyDataAll_append (xs ys : List (Nat × (Nat → Nat))) (b : GpuBufferUniform) :
    b.copyDataAll (xs ++ ys) =
      match b.copyDataAll xs with
      | .done _ b1 => b1.copyDataAll ys
      | .aborted s => .aborted s := by
  induction xs generalizing b with
  | nil => simp [GpuBufferUniform.copyDataAll]
  | cons x xs ih =>
    simp only [List.cons_append, GpuBufferUniform.copyDataAll]
    cases b.copyData x.1 x.2 with
    | done _ b1 => simpa using ih b1
    | aborted s => rfl

/-- A run of fitting payloads completes, keeps the sizes and advances the
cursor by the number of calls modulo three. -/
theorem copyDataAll_done (ws : List (Nat × (Nat → Nat))) (b : GpuBufferUniform) (c : Nat)
    (hc : b.m_bufferIndex = c % 3) (hfit : 3 * b.byteSize < 2 ^ 32)
    (hlen : ∀ w ∈ ws, w.1 ≤ b.byteSize) :
    ∃ b1, b.copyDataAll ws = .done () b1 ∧ b1.byteSize = b.byteSize ∧
      b1.wholeByteSize = b.wholeByteSize ∧ b1.m_bufferIndex = (c + ws.length) % 3 := by
  induction ws generalizing b c with
  | nil => exact ⟨b, rfl, rfl, rfl, by simpa using hc⟩
  | cons w ws ih =>
    have hw : w.1 ≤ b.byteSize := hlen w (List.mem_cons_self _ _)
    simp only [GpuBufferUniform.copyDataAll, copyData_step b c w.1 w.2 hc hfit hw]
    obtain ⟨b1, h1, h2, h3, h4⟩ := ih
      { b with m_bufferIndex := (c + 1) % 3
               mp_data := memcpy b.mp_data ((c + 1) % 3 * b.byteSize) w.2 w.1 }
      (c + 1) rfl hfit (fun v hv => hlen v (List.mem_cons_of_mem _ hv))
    refine ⟨b1, h1, h2, h3, ?_⟩
    rw [h4, List.length_cons]
    congr 1
    omega

/-- Calls that never select slice `j` leave every byte of slice `j` alone. -/
theorem copyDataAll_other_slices (ws : List (Nat × (Nat → Nat))) (b : GpuBufferUniform)
    (c j : Nat) (hc : b.m_bufferIndex = c % 3) (hfit : 3 * b.byteSize < 2 ^ 32)
    (hlen : ∀ w ∈ ws, w.1 ≤ b.byteSize)
    (hne : ∀ t, t < ws.length → (c + t + 1) % 3 ≠ j)
    (a : Nat) (ha1 : j * b.byteSize ≤ a) (ha2 : a < j * b.byteSize + b.byteSize) :
    (b.copyDataAll ws).state.mp_data a = b.mp_data a := by
  induction ws generalizing b c with
  | nil => rfl
  | cons w ws ih =>
    have hw : w.1 ≤ b.byteSize := hlen w (List.mem_cons_self _ _)
    simp only [GpuBufferUniform.copyDataAll, copyData_step b c w.1 w.2 hc hfit hw]
    have key := ih
      { b with m_bufferIndex := (c + 1) % 3
               mp_data := memcpy b.mp_data ((c + 1) % 3 * b.byteSize) w.2 w.1 }
      (c + 1) rfl hfit (fun v hv => hlen v (List.mem_cons_of_mem _ hv))
      (fun t ht => by
        have := hne (t + 1) (by simpa using ht)
        rwa [show c + (t + 1) + 1 = c + 1 + t + 1 by omega] at this)
      ha1 ha2
    rw [key]
    have h0 := hne 0 (by simp)
    simp only [memcpy]
    rw [if_neg]
    rintro ⟨h1, h2⟩
    -- the selected slice is another one, so its range is disjoint from slice j
    have hm : (c + 1) % 3 < 3 := Nat.mod_lt _ (by decide)
    rcases Nat.lt_or_gt_of_ne h0 with hlt | hgt
    · have : ((c + 0 + 1) % 3 + 1) * b.byteSize ≤ j * b.byteSize :=
        Nat.mul_le_mul_right _ hlt
      simp only [Nat.add_zero, Nat.add_mul, Nat.one_mul] at this
      omega
    · have : (j + 1) * b.byteSize ≤ (c + 0 + 1) % 3 * b.byteSize :=
        Nat.mul_le_mul_right _ hgt
      simp only [Nat.add_zero, Nat.add_mul, Nat.one_mul] at this
      omega

/-- C7, as amended. On a fresh ring (cursor 0) whose three slices fit in
32 bits (`3 * byteSize < 2 ^ 32`), every
sequence of `copyData` calls with payloads no longer than a slice runs to
completion; the call number `k + 1` writes its payload at the start of slice
`(k + 1) % 3` and changes no byte outside that slice; and at the end each
payload that no later call has overwritten (no later call maps to the same
slice) is still what its slice holds. -/
theorem copyData_ring_slices (b0 : GpuBufferUniform) (ws : List (Nat × (Nat → Nat)))
    (hfresh : b0.m_bufferIndex = 0)
    (hfit : 3 * b0.byteSize < 2 ^ 32) (hlen : ∀ w ∈ ws, w.1 ≤ b0.byteSize) :
    (b0.copyDataAll ws).completed = true ∧
    (∀ k w, ws[k]? = some w →
      (b0.copyDataAll (ws.take (k + 1))).completed = true ∧
      (∀ i, i < w.1 →
        (b0.copyDataAll (ws.take (k + 1))).state.mp_data
          ((k + 1) % 3 * b0.byteSize + i) = w.2 i) ∧
      (∀ a, ¬ ((k + 1) % 3 * b0.byteSize ≤ a ∧
               a < (k + 1) % 3 * b0.byteSize + b0.byteSize) →
        (b0.copyDataAll (ws.take (k + 1))).state.mp_data a =
          (b0.copyDataAll (ws.take k)).state.mp_data a)) ∧
    (∀ k w, ws[k]? = some w →
      (∀ j, k < j → j < ws.length → (j + 1) % 3 ≠ (k + 1) % 3) →
      ∀ i, i < w.1 →
        (b0.copyDataAll ws).state.mp_data ((k + 1) % 3 * b0.byteSize + i) = w.2 i) := by
  have h0 : b0.m_bufferIndex = 0 % 3 := by simpa using hfresh
  -- the state after the first `k` calls and after call `k + 1`
  have hstep : ∀ k w, ws[k]? = some w →
      ∃ bk, b0.copyDataAll (ws.take k) = .done () bk ∧ bk.byteSize = b0.byteSize ∧
        bk.m_bufferIndex = k % 3 ∧ w.1 ≤ b0.byteSize ∧
        b0.copyDataAll (ws.take (k + 1)) = .done ()
          { bk with m_bufferIndex := (k + 1) % 3
                    mp_data := memcpy bk.mp_data ((k + 1) % 3 * bk.byteSize) w.2 w.1 } := by
    intro k w hk
    have hklt : k < ws.length := by
      rcases Nat.lt_or_ge k ws.length with h | h
      · exact h
      · rw [List.getElem?_eq_none h] at hk; cases hk
    have hwmem : w ∈ ws := List.getElem?_mem hk
    obtain ⟨bk, e1, e2, _, e4⟩ := copyDataAll_done (ws.take k) b0 0 h0 hfit
      (fun v hv => hlen v (List.mem_of_mem_take hv))
    have e4 : bk.m_bufferIndex = k % 3 := by
      rw [e4, List.length_take, Nat.min_eq_left (Nat.le_of_lt hklt), Nat.zero_add]
    refine ⟨bk, e1, e2, e4, hlen w hwmem, ?_⟩
    rw [List.take_succ, hk, copyDataAll_append, e1]
    simp only [Option.toList, GpuBufferUniform.copyDataAll]
    rw [copyData_step bk k w.1 w.2 e4 (by rw [e2]; exact hfit) (by rw [e2]; exact hlen w hwmem)]
  refine ⟨?_, ?_, ?_⟩
  · obtain ⟨b1, e1, _⟩ := copyDataAll_done ws b0 0 h0 hfit hlen
    rw [e1]; rfl
  · intro k w hk
    obtain ⟨bk, e1, e2, e3, e4, e5⟩ := hstep k w hk
    rw [e5, e1]
    refine ⟨rfl, ?_, ?_⟩
    · intro i hi
      simp [Run.state, memcpy, e2, hi]
    · intro a ha
      simp only [Run.state, memcpy, e2]
      rw [if_neg]
      rintro ⟨h1, h2⟩
      exact ha ⟨h1, by omega⟩
  · intro k w hk hlater i hi
    obtain ⟨bk, e1, e2, e3, e4, e5⟩ := hstep k w hk
    have hklt : k < ws.length := by
      rcases Nat.lt_or_ge k ws.length with h | h
      · exact h
      · rw [List.getElem?_eq_none h] at hk; cases hk
    have hsplit : ws = ws.take (k + 1) ++ ws.drop (k + 1) := (List.take_append_drop _ _).symm
    have hrun : b0.copyDataAll ws =
        GpuBufferUniform.copyDataAll
          { bk with m_bufferIndex := (k + 1) % 3
                    mp_data := memcpy bk.mp_data ((k + 1) % 3 * bk.byteSize) w.2 w.1 }
          (ws.drop (k + 1)) := by
      conv_lhs => rw [hsplit]
      rw [copyDataAll_append, e5]
    rw [hrun]
    have key := copyDataAll_other_slices (ws.drop (k + 1))
      { bk with m_bufferIndex := (k + 1) % 3
                mp_data := memcpy bk.mp_data ((k + 1) % 3 * bk.byteSize) w.2 w.1 }
      (k + 1) ((k + 1) % 3) rfl (by simpa [e2] using hfit)
      (fun v hv => by simpa [e2] using hlen v (List.mem_of_mem_drop hv))
      (fun t ht => by
        have ht2 : t < ws.length - (k + 1) := by simpa using ht
        have := hlater (k + 1 + t) (by omega) (by omega)
        exact this)
      ((k + 1) % 3 * b0.byteSize + i)
      (by simp [e2]) (by simp only [e2]; omega)
    rw [key]
    simp [memcpy, e2, hi]

/-- Whatever the payloads, a run of `copyData` calls keeps the cursor below
three and never changes the two sizes. -/
theorem copyDataAll_invariant (ws : List (Nat × (Nat → Nat))) (b : GpuBufferUniform)
    (h : b.m_bufferIndex < 3) :
    (b.copyDataAll ws).state.m_bufferIndex < 3 ∧
    (b.copyDataAll ws).state.byteSize = b.byteSize ∧
    (b.copyDataAll ws).state.wholeByteSize = b.wholeByteSize := by
  induction ws generalizing b with
  | nil => exact ⟨h, rfl, rfl⟩
  | cons w ws ih =>
    simp only [GpuBufferUniform.copyDataAll]
    by_cases hw : w.1 ≤ b.byteSize
    · rw [copyData_done b w.1 w.2 hw]
      exact ih _ (Nat.mod_lt _ (by decide))
    · simp only [GpuBufferUniform.copyData, hw, if_false]
      exact ⟨h, rfl, rfl⟩

/-- The larger of two powers of two is a power of two that both divide. -/
theorem max_two_pow (ka kb : Nat) :
    max (2 ^ ka) (2 ^ kb) = 2 ^ max ka kb ∧ 2 ^ ka ∣ 2 ^ max ka kb ∧
      2 ^ kb ∣ 2 ^ max ka kb := by
  refine ⟨?_, pow_dvd_pow 2 (le_max_left ka kb), pow_dvd_pow 2 (le_max_right ka kb)⟩
  rcases le_total ka kb with h | h
  · rw [max_eq_right h, max_eq_right (Nat.pow_le_pow_right (by decide) h)]
  · rw [max_eq_left h, max_eq_left (Nat.pow_le_pow_right (by decide) h)]

/-- C10, as amended. For power-of-two device limits with larger value `A`, a
positive requested size `s`, and `3 * (s rounded up to A) < 2 ^ 32`, the
constructor succeeds; the per-slice size is `s` rounded up to `A` (a multiple
of `A`, at least `s`, less than `s + A`); the whole allocation is exactly
three slices; and after any sequence of `copyData` calls `getByteOffset` is
`0`, `byteSize` or `2 * byteSize`, a multiple of both limits, with
`offset + byteSize ≤ wholeByteSize`. -/
theorem uniform_create_layout (dev : GfxDevice) (s ka kb : Nat) (mem : Nat → Nat)
    (ha : dev.minUniformBufferOffsetAlignment = 2 ^ ka)
    (hb : dev.minMemoryMapAlignment = 2 ^ kb)
    (hs : 0 < s)
    (hfit : 3 * (max (2 ^ ka) (2 ^ kb) *
      ((s + max (2 ^ ka) (2 ^ kb) - 1) / max (2 ^ ka) (2 ^ kb))) < 2 ^ 32) :
    ∃ b0, GpuBufferUniform.create dev s mem = some b0 ∧
      (max (2 ^ ka) (2 ^ kb) ∣ b0.byteSize ∧ s ≤ b0.byteSize ∧
        b0.byteSize < s + max (2 ^ ka) (2 ^ kb)) ∧
      b0.wholeByteSize = 3 * b0.byteSize ∧
      ∀ ws : List (Nat × (Nat → Nat)),
        ((b0.copyDataAll ws).state.getByteOffset = 0 ∨
          (b0.copyDataAll ws).state.getByteOffset = b0.byteSize ∨
          (b0.copyDataAll ws).state.getByteOffset = 2 * b0.byteSize) ∧
        dev.minUniformBufferOffsetAlignment ∣ (b0.copyDataAll ws).state.getByteOffset ∧
        dev.minMemoryMapAlignment ∣ (b0.copyDataAll ws).state.getByteOffset ∧
        (b0.copyDataAll ws).state.getByteOffset + b0.byteSize ≤ b0.wholeByteSize := by
  obtain ⟨hA, hda, hdb⟩ := max_two_pow ka kb
  rw [hA] at hfit ⊢
  have hApos : 0 < 2 ^ max ka kb := Nat.two_pow_pos _
  obtain ⟨r1, r2, _, r4⟩ := roundUp_least s (2 ^ max ka kb) hApos
  generalize hr : 2 ^ max ka kb * ((s + 2 ^ max ka kb - 1) / 2 ^ max ka kb) = r at hfit r1 r2 r4
  have hAr : 2 ^ max ka kb ≤ r := Nat.le_of_dvd (by omega) r1
  have hAlt : 2 ^ max ka kb < 2 ^ 32 := by omega
  have hsum : s + 2 ^ max ka kb - 1 < 2 ^ 32 := by omega
  have hbs : getAlignedByteSize s (2 ^ max ka kb) = r := by
    rw [getAlignedByteSize_eq s _ hsum, hr]
  have hwhole : mul32 r c_bufferCount = 3 * r := by
    unfold mul32 c_bufferCount
    rw [Nat.mul_comm]
    exact Nat.mod_eq_of_lt hfit
  refine ⟨{ byteSize := r, wholeByteSize := 3 * r, mp_data := mem, m_bufferIndex := 0 },
    ?_, ⟨r1, r2, r4⟩, rfl, ?_⟩
  · simp only [GpuBufferUniform.create, hs, if_true, ha, hb, hA, Nat.mod_eq_of_lt hAlt, hbs,
      hwhole]
  · intro ws
    obtain ⟨i1, i2, _⟩ := copyDataAll_invariant ws
      { byteSize := r, wholeByteSize := 3 * r, mp_data := mem, m_bufferIndex := 0 }
      (Nat.zero_lt_succ 2)
    have hoff : GpuBufferUniform.getByteOffset
        (GpuBufferUniform.copyDataAll
          { byteSize := r, wholeByteSize := 3 * r, mp_data := mem, m_bufferIndex := 0 }
          ws).state =
        (GpuBufferUniform.copyDataAll
          { byteSize := r, wholeByteSize := 3 * r, mp_data := mem, m_bufferIndex := 0 }
          ws).state.m_bufferIndex * r := by
      unfold GpuBufferUniform.getByteOffset
      rw [i2]
      exact mul32_slice _ _ i1 hfit
    rw [hoff]
    generalize (GpuBufferUniform.copyDataAll
      { byteSize := r, wholeByteSize := 3 * r, mp_data := mem, m_bufferIndex := 0 }
      ws).state.m_bufferIndex = idx at i1
    simp only
    refine ⟨?_, ?_, ?_, ?_⟩
    · interval_cases idx <;> simp
    · rw [ha]; exact Dvd.dvd.mul_left (dvd_trans hda r1) idx
    · rw [hb]; exact Dvd.dvd.mul_left (dvd_trans hdb r1) idx
    · have : idx * r ≤ 2 * r := Nat.mul_le_mul_right r (by omega)
      omega

/-- Witness for the amended C7: two writes into the 256-byte ring. -/
theorem copyData_ring_slices_witness :
    sampleBuffer.m_bufferIndex = 0 ∧ 3 * sampleBuffer.byteSize < 2 ^ 32 ∧
    (sampleBuffer.copyDataAll sampleWrites).completed = true ∧
    (∀ k w, sampleWrites[k]? = some w →
      (sampleBuffer.copyDataAll (sampleWrites.take (k + 1))).completed = true ∧
      (∀ i, i < w.1 →
        (sampleBuffer.copyDataAll (sampleWrites.take (k + 1))).state.mp_data
          ((k + 1) % 3 * sampleBuffer.byteSize + i) = w.2 i) ∧
      (∀ a, ¬ ((k + 1) % 3 * sampleBuffer.byteSize ≤ a ∧
               a < (k + 1) % 3 * sampleBuffer.byteSize + sampleBuffer.byteSize) →
        (sampleBuffer.copyDataAll (sampleWrites.take (k + 1))).state.mp_data a =
          (sampleBuffer.copyDataAll (sampleWrites.take k)).state.mp_data a)) ∧
    (∀ k w, sampleWrites[k]? = some w →
      (∀ j, k < j → j < sampleWrites.length → (j + 1) % 3 ≠ (k + 1) % 3) →
      ∀ i, i < w.1 →
        (sampleBuffer.copyDataAll sampleWrites).state.mp_data
          ((k + 1) % 3 * sampleBuffer.byteSize + i) = w.2 i) :=
  ⟨rfl, by decide,
    copyData_ring_slices sampleBuffer sampleWrites rfl (by decide)
      (by
        intro w hw
        simp only [sampleWrites, List.mem_cons, List.mem_singleton, List.not_mem_nil,
          or_false] at hw
        rcases hw with rfl | rfl <;> decide)⟩

/-- Counterexample to C7 as stated (every `byteSize > 0`): with the slice size
`2 ^ 31` that the constructor produces for a request of `2 ^ 31` bytes, the
second call selects slice 2 but its 32-bit offset `2 * 2 ^ 31` wraps to `0`,
so it overwrites the first byte of slice 0 and writes nothing at the start
of slice 2. -/
theorem copyData_second_call_wraps :
    GpuBufferUniform.create sampleDevice (2 ^ 31) (fun _ => 0) = some wideBuffer ∧
    0 < wideBuffer.byteSize ∧
    (wideBuffer.copyDataAll wideWrites).completed = true ∧
    (wideBuffer.copyDataAll wideWrites).state.m_bufferIndex = 2 ∧
    (wideBuffer.copyDataAll (wideWrites.take 1)).state.mp_data 0 = 0 ∧
    (wideBuffer.copyDataAll wideWrites).state.mp_data 0 = 9 ∧
    (wideBuffer.copyDataAll wideWrites).state.mp_data (2 * wideBuffer.byteSize) = 0 := by
  refine ⟨rfl, by decide, by decide, by decide, by decide, by decide, by decide⟩

/-- Witness for the amended C10: the 144-byte request on `sampleDevice`. -/
theorem uniform_create_layout_witness :
    sampleDevice.minUniformBufferOffsetAlignment = 2 ^ 8 ∧
    sampleDevice.minMemoryMapAlignment = 2 ^ 6 ∧ 0 < 144 ∧
    ∃ b0, GpuBufferUniform.create sampleDevice 144 (fun _ => 0) = some b0 ∧
      (max (2 ^ 8) (2 ^ 6) ∣ b0.byteSize ∧ 144 ≤ b0.byteSize ∧
        b0.byteSize < 144 + max (2 ^ 8) (2 ^ 6)) ∧
      b0.wholeByteSize = 3 * b0.byteSize ∧
      ∀ ws : List (Nat × (Nat → Nat)),
        ((b0.copyDataAll ws).state.getByteOffset = 0 ∨
          (b0.copyDataAll ws).state.getByteOffset = b0.byteSize ∨
          (b0.copyDataAll ws).state.getByteOffset = 2 * b0.byteSize) ∧
        sampleDevice.minUniformBufferOffsetAlignment ∣
          (b0.copyDataAll ws).state.getByteOffset ∧
        sampleDevice.minMemoryMapAlignment ∣ (b0.copyDataAll ws).state.getByteOffset ∧
        (b0.copyDataAll ws).state.getByteOffset + b0.byteSize ≤ b0.wholeByteSize :=
  ⟨rfl, rfl, by decide,
    uniform_create_layout sampleDevice 144 8 6 (fun _ => 0) rfl rfl (by decide) (by decide)⟩

/-- Counterexample to C10 as stated (no bound on the requested size): for a
request of `2 ^ 31` bytes on `sampleDevice` the slice size is `2 ^ 31`, the
32-bit product `byteSize * 3` wraps to `2 ^ 31`, so the whole allocation is
not three slices, and after one `copyData` the offset plus a slice exceeds
the whole size. -/
theorem uniform_whole_size_wraps :
    GpuBufferUniform.create sampleDevice (2 ^ 31) (fun _ => 0) = some wideBuffer ∧
    sampleDevice.minUniformBufferOffsetAlignment = 2 ^ 8 ∧
    sampleDevice.minMemoryMapAlignment = 2 ^ 6 ∧
    wideBuffer.wholeByteSize ≠ 3 * wideBuffer.byteSize ∧
    (wideBuffer.copyDataAll (wideWrites.take 1)).state.getByteOffset = wideBuffer.byteSize ∧
    ¬ ((wideBuffer.copyDataAll (wideWrites.take 1)).state.getByteOffset + wideBuffer.byteSize
        ≤ wideBuffer.wholeByteSize) := by
  refine ⟨rfl, rfl, rfl, by decide, by decide, by decide⟩

/-! ## The frame loop -/

/-- C2 (the code departs from the claim). First frame from `bootRenderer`:
the frame completes; `copyData` fills the slice at offset 256, while the
dynamic offset of the descriptor bind and the offset of the buffer barrier
are both 0, the value `getByteOffset` had before `copyData` advanced the
cursor. -/
theorem render_binds_offset_read_before_copyData :
    (bootRenderer.render (frameEnv 0 7)).completed = true ∧
    writtenOffsets (bootRenderer.render (frameEnv 0 7)).state.calls = [256] ∧
    boundOffsets (bootRenderer.render (frameEnv 0 7)).state.calls = [0] ∧
    barrierOffsets (bootRenderer.render (frameEnv 0 7)).state.calls = [0] := by
  decide

/-- C1 (the code departs from the claim). Three frames from `bootRenderer`:
all complete; the first two write without a hazard; the third writes the
slice at offset 0, which the first frame's submission bound as its dynamic
offset, and the fence of that submission (handle 22) has not been waited on
since it was submitted, because the third frame waits on fence 21: past the
first frame's own wait (the second entry of the log) no wait on fence 22
occurs. -/
theorem render_third_frame_writes_unwaited_slice :
    (bootRenderer.renderFrames [frameEnv 0 7, frameEnv 1 8, frameEnv 2 9]).completed = true ∧
    sliceHazards 256
      (bootRenderer.renderFrames [frameEnv 0 7, frameEnv 1 8]).state.calls = [] ∧
    sliceHazards 256
      (bootRenderer.renderFrames [frameEnv 0 7, frameEnv 1 8, frameEnv 2 9]).state.calls
      = [(0, 22)] ∧
    Call.waitForFences 22 ∉
      (bootRenderer.renderFrames [frameEnv 0 7, frameEnv 1 8, frameEnv 2 9]).state.calls.drop 2
    := by
  decide

/-! ## Shader hot-reload -/

/-- Reload in which neither stage compiles. -/
theorem updateShaders_none_ok (r : Renderer) (shaderNames : List String) :
    r.updateShaders shaderNames false false = .done ()
      { r with calls := r.calls ++
          [Call.deviceWaitIdle, Call.destroyShaderModule 0, Call.destroyShaderModule 0] } := by
  simp [Renderer.updateShaders, Renderer.createShaders, Renderer.newShader,
    Renderer.createShaderModuleFromGlsl, Run.andThen, Renderer.emit, Shader.destroyCalls]

/-- Reload in which only the fragment stage compiles. -/
theorem updateShaders_frag_ok (r : Renderer) (shaderNames : List String) :
    r.updateShaders shaderNames false true = .done ()
      { r with nextHandle := r.nextHandle + 1
               calls := r.calls ++
                 [Call.deviceWaitIdle, Call.createShaderModule r.nextHandle,
                  Call.destroyShaderModule 0, Call.destroyShaderModule r.nextHandle] } := by
  simp [Renderer.updateShaders, Renderer.createShaders, Renderer.newShader,
    Renderer.createShaderModuleFromGlsl, Run.andThen, Renderer.emit, Shader.destroyCalls]

/-- Reload in which only the vertex stage compiles. -/
theorem updateShaders_vert_ok (r : Renderer) (shaderNames : List String) :
    r.updateShaders shaderNames true false = .done ()
      { r with nextHandle := r.nextHandle + 1
               calls := r.calls ++
                 [Call.deviceWaitIdle, Call.createShaderModule r.nextHandle,
                  Call.destroyShaderModule r.nextHandle, Call.destroyShaderModule 0] } := by
  simp [Renderer.updateShaders, Renderer.createShaders, Renderer.newShader,
    Renderer.createShaderModuleFromGlsl, Run.andThen, Renderer.emit, Shader.destroyCalls]

/-- C3. When a stage fails to compile, `updateShaders` completes and leaves
the pipeline handle, the layout handle and the shader object as they were;
the calls it adds are the idle wait, the creation of the stage that did
compile, and `destroyShaderModule` on handles that are null or were created
in this call. So it destroys no pipeline, no layout, and no module that
existed before the call. -/
theorem updateShaders_compile_failure (r : Renderer) (shaderNames : List String)
    (vertOk fragOk : Bool) (hfail : vertOk = false ∨ fragOk = false) :
    ∃ r1 added, r.updateShaders shaderNames vertOk fragOk = .done () r1 ∧
      r1.m_graphicsPipeline = r.m_graphicsPipeline ∧
      r1.m_pipelineLayout = r.m_pipelineLayout ∧
      r1.m_shader = r.m_shader ∧
      r1.calls = r.calls ++ added ∧
      (∀ c ∈ added, c = Call.deviceWaitIdle ∨
        (∃ h, c = Call.createShaderModule h ∧ r.nextHandle ≤ h) ∨
        (∃ h, c = Call.destroyShaderModule h ∧ (h = 0 ∨ r.nextHandle ≤ h))) ∧
      (∀ h, Call.destroyPipeline h ∉ added ∧ Call.destroyPipelineLayout h ∉ added) ∧
      (∀ h, 0 < h → h < r.nextHandle → Call.destroyShaderModule h ∉ added) := by
  have key : ∃ r1 added, r.updateShaders shaderNames vertOk fragOk = .done () r1 ∧
      r1.m_graphicsPipeline = r.m_graphicsPipeline ∧
      r1.m_pipelineLayout = r.m_pipelineLayout ∧
      r1.m_shader = r.m_shader ∧
      r1.calls = r.calls ++ added ∧
      (∀ c ∈ added, c = Call.deviceWaitIdle ∨
        (∃ h, c = Call.createShaderModule h ∧ r.nextHandle ≤ h) ∨
        (∃ h, c = Call.destroyShaderModule h ∧ (h = 0 ∨ r.nextHandle ≤ h))) := by
    have hcases : (vertOk = false ∧ fragOk = false) ∨ (vertOk = false ∧ fragOk = true) ∨
        (vertOk = true ∧ fragOk = false) := by
      cases vertOk <;> cases fragOk <;> simp at hfail ⊢
    rcases hcases with ⟨hv, hf⟩ | ⟨hv, hf⟩ | ⟨hv, hf⟩
    · subst hv hf
      exact ⟨_, _, updateShaders_none_ok r shaderNames, rfl, rfl, rfl, rfl, by simp⟩
    · subst hv hf
      exact ⟨_, _, updateShaders_frag_ok r shaderNames, rfl, rfl, rfl, rfl, by simp⟩
    · subst hv hf
      exact ⟨_, _, updateShaders_vert_ok r shaderNames, rfl, rfl, rfl, rfl, by simp⟩
  obtain ⟨r1, added, h1, h2, h3, h4, h5, h6⟩ := key
  refine ⟨r1, added, h1, h2, h3, h4, h5, h6, ?_, ?_⟩
  · intro h
    constructor
    · intro hm
      rcases h6 _ hm with hc | ⟨_, hc, _⟩ | ⟨_, hc, _⟩ <;> cases hc
    · intro hm
      rcases h6 _ hm with hc | ⟨_, hc, _⟩ | ⟨_, hc, _⟩ <;> cases hc
  · intro h hpos hlt hm
    rcases h6 _ hm with hc | ⟨_, hc, _⟩ | ⟨k, hc, hk⟩
    · cases hc
    · cases hc
    · cases hc
      omega

/-- Witness for C3: the fragment stage fails on `bootRenderer`. -/
theorem updateShaders_compile_failure_witness :
    (true = false ∨ false = false) ∧
    ∃ r1 added, bootRenderer.updateShaders ["toy.frag"] true false = .done () r1 ∧
      r1.m_graphicsPipeline = bootRenderer.m_graphicsPipeline ∧
      r1.m_pipelineLayout = bootRenderer.m_pipelineLayout ∧
      r1.m_shader = bootRenderer.m_shader ∧
      r1.calls = bootRenderer.calls ++ added ∧
      (∀ c ∈ added, c = Call.deviceWaitIdle ∨
        (∃ h, c = Call.createShaderModule h ∧ bootRenderer.nextHandle ≤ h) ∨
        (∃ h, c = Call.destroyShaderModule h ∧ (h = 0 ∨ bootRenderer.nextHandle ≤ h))) ∧
      (∀ h, Call.destroyPipeline h ∉ added ∧ Call.destroyPipelineLayout h ∉ added) ∧
      (∀ h, 0 < h → h < bootRenderer.nextHandle → Call.destroyShaderModule h ∉ added) :=
  ⟨Or.inr rfl, updateShaders_compile_failure bootRenderer ["toy.frag"] true false (Or.inr rfl)⟩

/-- C4, as amended. On a renderer whose shader and descriptor sets exist, a
reload in which both stages compile completes with exactly this call
sequence: idle wait, the two new modules, destruction of the two old
modules, destruction of the old pipeline layout and the old pipeline, then
creation of the new layout and the new pipeline. The old layout and pipeline
are destroyed after the new shader modules exist and before the new pipeline
is created. -/
theorem updateShaders_success_order (r : Renderer) (shaderNames : List String)
    (old : Shader) (setUniform setImage : DescriptorSet)
    (hs : r.m_shader = some old) (hu : r.m_descriptorSetUniform = some setUniform)
    (hi : r.m_descriptorSetImage = some setImage) (hpos : 0 < r.nextHandle) :
    ∃ r1, r.updateShaders shaderNames true true = .done () r1 ∧
      r1.calls = r.calls ++
        [Call.deviceWaitIdle,
         Call.createShaderModule r.nextHandle,
         Call.createShaderModule (r.nextHandle + 1),
         Call.destroyShaderModule old.vert,
         Call.destroyShaderModule old.frag,
         Call.destroyPipelineLayout r.m_pipelineLayout,
         Call.destroyPipeline r.m_graphicsPipeline,
         Call.createPipelineLayout (r.nextHandle + 2)
           [setUniform.descriptorSetLayout, setImage.descriptorSetLayout],
         Call.createGraphicsPipelines (r.nextHandle + 3) (r.nextHandle + 2)
           r.nextHandle (r.nextHandle + 1) r.m_renderPass r.window.width r.window.height] ∧
      r1.m_shader = some { vert := r.nextHandle, frag := r.nextHandle + 1 } ∧
      r1.m_pipelineLayout = r.nextHandle + 2 ∧
      r1.m_graphicsPipeline = r.nextHandle + 3 := by
  have hne : r.nextHandle ≠ 0 := by omega
  have hrun : r.updateShaders shaderNames true true = .done ()
      { r with m_shader := some { vert := r.nextHandle, frag := r.nextHandle + 1 }
               m_pipelineLayout := r.nextHandle + 2
               m_graphicsPipeline := r.nextHandle + 3
               pipelineExtent := (r.window.width, r.window.height)
               nextHandle := r.nextHandle + 4
               calls := r.calls ++
                 [Call.deviceWaitIdle,
                  Call.createShaderModule r.nextHandle,
                  Call.createShaderModule (r.nextHandle + 1),
                  Call.destroyShaderModule old.vert,
                  Call.destroyShaderModule old.frag,
                  Call.destroyPipelineLayout r.m_pipelineLayout,
                  Call.destroyPipeline r.m_graphicsPipeline,
                  Call.createPipelineLayout (r.nextHandle + 2)
                    [setUniform.descriptorSetLayout, setImage.descriptorSetLayout],
                  Call.createGraphicsPipelines (r.nextHandle + 3) (r.nextHandle + 2)
                    r.nextHandle (r.nextHandle + 1) r.m_renderPass r.window.width
                    r.window.height] } := by
    simp [Renderer.updateShaders, Renderer.createShaders, Renderer.newShader,
      Renderer.createShaderModuleFromGlsl, Run.andThen, Renderer.emit, Shader.destroyCalls,
      Renderer.createGraphicsPipeline, hs, hu, hi, hne]
  exact ⟨_, hrun, rfl, rfl, rfl, rfl⟩

/-- Witness for the amended C4: both stages compile on `bootRenderer`. -/
theorem updateShaders_success_order_witness :
    bootRenderer.m_shader = some { vert := 80, frag := 81 } ∧ 0 < bootRenderer.nextHandle ∧
    ∃ r1, bootRenderer.updateShaders ["toy.frag"] true true = .done () r1 ∧
      r1.calls = bootRenderer.calls ++
        [Call.deviceWaitIdle,
         Call.createShaderModule bootRenderer.nextHandle,
         Call.createShaderModule (bootRenderer.nextHandle + 1),
         Call.destroyShaderModule 80,
         Call.destroyShaderModule 81,
         Call.destroyPipelineLayout bootRenderer.m_pipelineLayout,
         Call.destroyPipeline bootRenderer.m_graphicsPipeline,
         Call.createPipelineLayout (bootRenderer.nextHandle + 2) [61, 63],
         Call.createGraphicsPipelines (bootRenderer.nextHandle + 3)
           (bootRenderer.nextHandle + 2) bootRenderer.nextHandle
           (bootRenderer.nextHandle + 1) bootRenderer.m_renderPass
           bootRenderer.window.width bootRenderer.window.height] ∧
      r1.m_shader =
        some { vert := bootRenderer.nextHandle, frag := bootRenderer.nextHandle + 1 } ∧
      r1.m_pipelineLayout = bootRenderer.nextHandle + 2 ∧
      r1.m_graphicsPipeline = bootRenderer.nextHandle + 3 :=
  ⟨rfl, by decide,
    updateShaders_success_order bootRenderer ["toy.frag"] { vert := 80, frag := 81 }
      { descriptorSet := 60, descriptorSetLayout := 61 }
      { descriptorSet := 62, descriptorSetLayout := 63 } rfl rfl rfl (by decide)⟩

/-- Counterexample to C4 as stated: in a successful reload on `bootRenderer`
the old pipeline layout (51) and the old pipeline (52) are destroyed at
positions 5 and 6 of the call sequence, before the new pipeline (203) is
created at position 8. -/
theorem updateShaders_destroys_before_create :
    (bootRenderer.updateShaders ["toy.frag"] true true).completed = true ∧
    (bootRenderer.updateShaders ["toy.frag"] true true).state.calls =
      [Call.deviceWaitIdle,
       Call.createShaderModule 200,
       Call.createShaderModule 201,
       Call.destroyShaderModule 80,
       Call.destroyShaderModule 81,
       Call.destroyPipelineLayout 51,
       Call.destroyPipeline 52,
       Call.createPipelineLayout 202 [61, 63],
       Call.createGraphicsPipelines 203 202 200 201 50 1280 720] := by
  decide

/-! ## Image hot-reload -/

/-- A positive byte size means the file decoded with positive width and
height. -/
theorem loadStbImage_pos (loaded : Option StbImage)
    (h : 0 < (ImageLoader.loadStbImage loaded).m_bytesize) :
    0 < (ImageLoader.loadStbImage loaded).m_size.1 ∧
    0 < (ImageLoader.loadStbImage loaded).m_size.2 := by
  cases loaded with
  | none => simp [ImageLoader.loadStbImage] at h
  | some p =>
    simp only [ImageLoader.loadStbImage] at h ⊢
    constructor
    · rcases Nat.eq_zero_or_pos p.x with h0 | h0
      · simp [h0, mul32] at h
      · exact h0
    · rcases Nat.eq_zero_or_pos p.y with h0 | h0
      · simp [h0, mul32] at h
      · exact h0

/-- Reading slot `i` after slot `idx` was overwritten. -/
theorem getD_set {α : Type} (l : List α) (idx i : Nat) (a d : α) (h : idx < l.length) :
    (l.set idx a).getD i d = if i = idx then a else l.getD i d := by
  simp only [List.getD_eq_getElem?_getD, List.getElem?_set]
  by_cases hi : i = idx
  · subst hi
    simp [h]
  · have : ¬ idx = i := fun e => hi e.symm
    simp [hi, this]

/-- `createImage` on a file the loader rejects does nothing at all. -/
theorem createImage_rejected (r : Renderer) (fs : String → Option StbImage) (index : Nat)
    (filename : String) (h : (ImageLoader.loadStbImage (fs filename)).m_bytesize = 0) :
    r.createImage fs index filename = .done () r := by
  simp [Renderer.createImage, h]

/-- `createImage` on a file that loads: the slot gets a staging buffer with
the next handle and an image with the handle after it, its flag is set, and
the other entries of the three vectors are the old ones. -/
theorem createImage_loaded (r : Renderer) (fs : String → Option StbImage) (index : Nat)
    (filename : String) (h : 0 < (ImageLoader.loadStbImage (fs filename)).m_bytesize) :
    ∃ r1 st img, r.createImage fs index filename = .done () r1 ∧
      r1.m_imageSet.stagingBuffers = r.m_imageSet.stagingBuffers.set index (some st) ∧
      r1.m_imageSet.images = r.m_imageSet.images.set index (some img) ∧
      r1.m_imageSet.dirtyFlags = r.m_imageSet.dirtyFlags.set index true ∧
      st.buffer = r.nextHandle ∧ img.image = r.nextHandle + 1 ∧
      r1.nextHandle = r.nextHandle + 4 := by
  have hd := loadStbImage_pos (fs filename) h
  simp only [Renderer.createImage, h, hd, if_true, and_self, Renderer.emit]
  exact ⟨_, _, _, rfl, rfl, rfl, rfl, rfl, rfl, rfl⟩

/-- One reload keeps the comparison with the entry state and adds its slot
to the reloaded ones. -/
theorem reloaded_createImage (r0 r : Renderer) (M : Nat → Prop)
    (fs : String → Option StbImage) (index : Nat) (filename : String)
    (hr : r0.reloaded r M) (hidx : index < 4)
    (h : 0 < (ImageLoader.loadStbImage (fs filename)).m_bytesize) :
    ∃ r1, r.createImage fs index filename = .done () r1 ∧
      r0.reloaded r1 (fun i => M i ∨ i = index) := by
  obtain ⟨r1, st, img, e, e1, e2, e3, e4, e5, e6⟩ := createImage_loaded r fs index filename h
  obtain ⟨⟨l1, l2, l3, l4⟩, hn, hslots⟩ := hr
  refine ⟨r1, e, ⟨?_, ?_, ?_, ?_⟩, by omega, ?_⟩
  · rw [e1, List.length_set, l1]
  · rw [e2, List.length_set, l2]
  · rw [e3, List.length_set, l3]
  · intro o ho
    rw [e2] at ho
    rcases List.mem_or_eq_of_mem_set ho with hm | hm
    · exact l4 o hm
    · rw [hm]; simp
  · intro i hi
    rw [e1, e2, e3, getD_set _ _ _ _ _ (by omega), getD_set _ _ _ _ _ (by omega),
      getD_set _ _ _ _ _ (by omega)]
    by_cases hii : i = index
    · simp only [hii, if_true, or_true, true_implies, not_true_eq_false, false_implies,
        and_true]
      exact ⟨trivial, st, img, rfl, rfl, by omega, by omega⟩
    · simp only [hii, if_false, or_false]
      exact hslots i hi

/-- Raising the aggregate flag does not touch the slots. -/
theorem reloaded_dirty (r0 r : Renderer) (M : Nat → Prop) (hr : r0.reloaded r M) :
    r0.reloaded { r with m_imageSet := { r.m_imageSet with dirty := true } } M := hr

/-- The comparison only depends on which of the four slots are in `M`. -/
theorem reloaded_congr (r0 r : Renderer) (M N : Nat → Prop) (hr : r0.reloaded r M)
    (h : ∀ i, i < 4 → (M i ↔ N i)) : r0.reloaded r N := by
  obtain ⟨hl, hn, hslots⟩ := hr
  refine ⟨hl, hn, fun i hi => ?_⟩
  obtain ⟨a, b⟩ := hslots i hi
  exact ⟨fun hN => a ((h i hi).mpr hN), fun hN => b (fun hM => hN ((h i hi).mp hM))⟩

/-- The inner loop of `updateImages` over a list of (slot, search name)
pairs: it completes, and the reloaded slots are the ones whose search name
equals `compareName`. -/
theorem reloadMatching_reloaded (r0 : Renderer) (fs : String → Option StbImage)
    (nameRef compareName : String)
    (h : 0 < (ImageLoader.loadStbImage (fs (imagePath ++ "/" ++ nameRef))).m_bytesize)
    (l : List (Nat × String)) (hl : ∀ p ∈ l, p.1 < 4) (r : Renderer) (M : Nat → Prop)
    (hr : r0.reloaded r M) :
    ∃ r1, r.reloadMatching fs nameRef compareName l = .done () r1 ∧
      r0.reloaded r1 (fun i => M i ∨ ∃ p ∈ l, p.1 = i ∧ compareName = p.2) := by
  induction l generalizing r M with
  | nil =>
    exact ⟨r, rfl, reloaded_congr r0 r M _ hr (fun i _ => by simp)⟩
  | cons p l ih =>
    obtain ⟨idx, searchName⟩ := p
    have hidx : idx < 4 := hl (idx, searchName) (List.mem_cons_self _ _)
    have hl1 : ∀ q ∈ l, q.1 < 4 := fun q hq => hl q (List.mem_cons_of_mem _ hq)
    simp only [Renderer.reloadMatching]
    by_cases hc : compareName = searchName
    · obtain ⟨r1, e1, hr1⟩ := reloaded_createImage r0 r M fs idx _ hr hidx h
      obtain ⟨r2, e2, hr2⟩ := ih hl1
        { r1 with m_imageSet := { r1.m_imageSet with dirty := true } }
        (fun i => M i ∨ i = idx) (reloaded_dirty r0 r1 _ hr1)
      refine ⟨r2, ?_, reloaded_congr r0 r2 _ _ hr2 (fun i _ => ?_)⟩
      · simp only [hc, if_true, e1, Run.andThen] at e2 ⊢
        exact e2
      · simp only [List.mem_cons, exists_eq_or_imp]
        constructor
        · rintro ((hm | hi) | hx)
          · exact Or.inl hm
          · exact Or.inr (Or.inl ⟨hi.symm, hc⟩)
          · exact Or.inr (Or.inr hx)
        · rintro (hm | ⟨hi, _⟩ | hx)
          · exact Or.inl (Or.inl hm)
          · exact Or.inl (Or.inr hi.symm)
          · exact Or.inr hx
    · obtain ⟨r2, e2, hr2⟩ := ih hl1 r M hr
      refine ⟨r2, ?_, reloaded_congr r0 r2 _ _ hr2 (fun i _ => ?_)⟩
      · simp only [hc, if_false]
        exact e2
      · simp only [List.mem_cons, exists_eq_or_imp]
        constructor
        · rintro (hm | hx)
          · exact Or.inl hm
          · exact Or.inr (Or.inr hx)
        · rintro (hm | ⟨_, hcc⟩ | hx)
          · exact Or.inl hm
          · exact absurd hcc hc
          · exact Or.inr hx

/-- The slot indices that `updateImages` iterates over are the four slots. -/
theorem enum_search_lt (p : Nat × String) (hp : p ∈ imageFilesForSearch.enum) : p.1 < 4 := by
  have := List.mem_enum_iff_getElem?.mp hp
  rcases Nat.lt_or_ge p.1 4 with h | h
  · exact h
  · rw [List.getElem?_eq_none (by simpa [imageFilesForSearch] using h)] at this
    cases this

/-- The outer loop of `updateImages`: it completes, and the reloaded slots are
the ones whose search name is the cut name of some changed file. -/
theorem reloadNames_reloaded (r0 : Renderer) (fs : String → Option StbImage)
    (names : List String)
    (h : ∀ n ∈ names, 0 < (ImageLoader.loadStbImage (fs (imagePath ++ "/" ++ n))).m_bytesize)
    (r : Renderer) (M : Nat → Prop) (hr : r0.reloaded r M) :
    ∃ r1, r.reloadNames fs names = .done () r1 ∧
      r0.reloaded r1 (fun i => M i ∨
        ∃ n ∈ names, ∃ p ∈ imageFilesForSearch.enum, p.1 = i ∧ compareNameOf n = p.2) := by
  induction names generalizing r M with
  | nil => exact ⟨r, rfl, reloaded_congr r0 r M _ hr (fun i _ => by simp)⟩
  | cons n names ih =>
    obtain ⟨r1, e1, hr1⟩ := reloadMatching_reloaded r0 fs n (compareNameOf n)
      (h n (List.mem_cons_self _ _)) imageFilesForSearch.enum enum_search_lt r M hr
    obtain ⟨r2, e2, hr2⟩ := ih (fun m hm => h m (List.mem_cons_of_mem _ hm)) r1 _ hr1
    refine ⟨r2, ?_, reloaded_congr r0 r2 _ _ hr2 (fun i _ => ?_)⟩
    · simp only [Renderer.reloadNames, e1, Run.andThen]
      exact e2
    · simp only [List.mem_cons, exists_eq_or_imp]
      constructor
      · rintro ((hm | hx) | hy)
        · exact Or.inl hm
        · exact Or.inr (Or.inl hx)
        · exact Or.inr (Or.inr hy)
      · rintro (hm | hx | hy)
        · exact Or.inl (Or.inl hm)
        · exact Or.inl (Or.inr hx)
        · exact Or.inr hy

/-- Mapping a partial function over filled slots yields all the entries. -/
theorem mapM_filled {α β : Type} (f : α → β) (l : List (Option α))
    (h : ∀ o ∈ l, o ≠ none) : ∃ bs, l.mapM (fun o => o.map f) = some bs := by
  induction l with
  | nil => exact ⟨[], rfl⟩
  | cons o l ih =>
    obtain ⟨bs, hbs⟩ := ih (fun x hx => h x (List.mem_cons_of_mem _ hx))
    cases o with
    | none => exact absurd rfl (h none (List.mem_cons_self _ _))
    | some a =>
      refine ⟨f a :: bs, ?_⟩
      rw [List.mapM_cons, hbs]
      rfl

/-- With every slot filled, `createDescriptorsImage` completes and leaves the
image set alone. -/
theorem createDescriptorsImage_done (r : Renderer) (h : r.slotsLive) :
    ∃ r1, r.createDescriptorsImage = .done () r1 ∧ r1.m_imageSet = r.m_imageSet ∧
      r.nextHandle ≤ r1.nextHandle := by
  obtain ⟨infos, hi⟩ := mapM_filled (fun img : GpuImage => (img.sampler, img.imageView))
    r.m_imageSet.images h.2.2.2
  simp only [Renderer.createDescriptorsImage, Renderer.emit, hi]
  exact ⟨_, rfl, rfl, Nat.le_add_right _ _⟩

/-- C5. On a renderer whose four slots are filled, for every list of changed
names whose files all load, `updateImages` completes, and for each slot `i`
with search name `s`: if some changed name cut before its last `'.'` equals
`s`, the slot's dirty flag is set and the slot holds a staging buffer and an
image created during this call; otherwise its staging buffer, image and dirty
flag are what they were. -/
theorem updateImages_touches_matching_slots (r : Renderer) (fs : String → Option StbImage)
    (imageNames : List String) (hlive : r.slotsLive)
    (hload : ∀ n ∈ imageNames,
      0 < (ImageLoader.loadStbImage (fs (imagePath ++ "/" ++ n))).m_bytesize) :
    ∃ r1, r.updateImages fs imageNames = .done () r1 ∧
      ∀ i s, imageFilesForSearch[i]? = some s →
        ((∃ n ∈ imageNames, compareNameOf n = s) →
          r1.m_imageSet.dirtyFlags.getD i false = true ∧
          ∃ st img, r1.m_imageSet.stagingBuffers.getD i none = some st ∧
            r1.m_imageSet.images.getD i none = some img ∧
            r.nextHandle ≤ st.buffer ∧ r.nextHandle ≤ img.image) ∧
        ((¬ ∃ n ∈ imageNames, compareNameOf n = s) →
          r1.m_imageSet.stagingBuffers.getD i none = r.m_imageSet.stagingBuffers.getD i none ∧
          r1.m_imageSet.images.getD i none = r.m_imageSet.images.getD i none ∧
          r1.m_imageSet.dirtyFlags.getD i false = r.m_imageSet.dirtyFlags.getD i false) := by
  have h0 : r.reloaded (r.emit [Call.deviceWaitIdle]) (fun _ => False) :=
    ⟨hlive, Nat.le_refl _, fun i _ => ⟨fun hf => hf.elim, fun _ => ⟨rfl, rfl, rfl⟩⟩⟩
  obtain ⟨r1, e1, hr1⟩ := reloadNames_reloaded r fs imageNames hload _ _ h0
  obtain ⟨r2, e2, hset, _⟩ := createDescriptorsImage_done r1 hr1.1
  refine ⟨r2, ?_, ?_⟩
  · simp only [Renderer.updateImages, e1, Run.andThen]
    exact e2
  · intro i s his
    have hi : i < 4 := enum_search_lt (i, s) (List.mk_mem_enum_iff_getElem?.mpr his)
    have hM : (False ∨ ∃ n ∈ imageNames, ∃ p ∈ imageFilesForSearch.enum,
        p.1 = i ∧ compareNameOf n = p.2) ↔ ∃ n ∈ imageNames, compareNameOf n = s := by
      constructor
      · rintro (hf | ⟨n, hn, p, hp, hpi, hpc⟩)
        · exact hf.elim
        · refine ⟨n, hn, ?_⟩
          have hp2 := List.mem_enum_iff_getElem?.mp hp
          rw [hpi, his] at hp2
          rw [hpc]
          exact (Option.some.inj hp2).symm
      · rintro ⟨n, hn, hc⟩
        exact Or.inr ⟨n, hn, (i, s), List.mk_mem_enum_iff_getElem?.mpr his, rfl, hc⟩
    obtain ⟨a, b⟩ := hr1.2.2 i hi
    rw [hset]
    exact ⟨fun hm => a (hM.mpr hm), fun hm => b (fun hx => hm (hM.mp hx))⟩

/-- Witness for C5: the change set `["channel0.png"]` on `settledRenderer`.
The cut name is `"channel0"`, and the flags afterwards are set for slot 0
only. -/
theorem updateImages_touches_matching_slots_witness :
    settledRenderer.slotsLive ∧
    compareNameOf "channel0.png" = "channel0" ∧
    (settledRenderer.updateImages sampleFiles ["channel0.png"]).state.m_imageSet.dirtyFlags
      = [true, false, false, false] ∧
    ∃ r1, settledRenderer.updateImages sampleFiles ["channel0.png"] = .done () r1 ∧
      ∀ i s, imageFilesForSearch[i]? = some s →
        ((∃ n ∈ ["channel0.png"], compareNameOf n = s) →
          r1.m_imageSet.dirtyFlags.getD i false = true ∧
          ∃ st img, r1.m_imageSet.stagingBuffers.getD i none = some st ∧
            r1.m_imageSet.images.getD i none = some img ∧
            settledRenderer.nextHandle ≤ st.buffer ∧ settledRenderer.nextHandle ≤ img.image) ∧
        ((¬ ∃ n ∈ ["channel0.png"], compareNameOf n = s) →
          r1.m_imageSet.stagingBuffers.getD i none =
            settledRenderer.m_imageSet.stagingBuffers.getD i none ∧
          r1.m_imageSet.images.getD i none = settledRenderer.m_imageSet.images.getD i none ∧
          r1.m_imageSet.dirtyFlags.getD i false =
            settledRenderer.m_imageSet.dirtyFlags.getD i false) :=
  ⟨by decide, by decide, by decide,
    updateImages_touches_matching_slots settledRenderer sampleFiles ["channel0.png"]
      (by decide)
      (by intro n _; simp [sampleFiles, ImageLoader.loadStbImage, mul32])⟩

/-- One `createImage` call, loaded or rejected, completes and keeps the four
slots filled. -/
theorem createImage_live (r : Renderer) (fs : String → Option StbImage) (index : Nat)
    (filename : String) (hlive : r.slotsLive) (hidx : index < 4) :
    ∃ r1, r.createImage fs index filename = .done () r1 ∧ r1.slotsLive := by
  rcases Nat.eq_zero_or_pos (ImageLoader.loadStbImage (fs filename)).m_bytesize with h | h
  · exact ⟨r, createImage_rejected r fs index filename h, hlive⟩
  · have h0 : r.reloaded r (fun _ => False) :=
      ⟨hlive, Nat.le_refl _, fun i _ => ⟨fun hf => hf.elim, fun _ => ⟨rfl, rfl, rfl⟩⟩⟩
    obtain ⟨r1, e, hr1⟩ := reloaded_createImage r r _ fs index filename h0 hidx h
    exact ⟨r1, e, hr1.1⟩

/-- The inner loop completes whatever the loader answers. -/
theorem reloadMatching_live (fs : String → Option StbImage) (nameRef compareName : String)
    (l : List (Nat × String)) (hl : ∀ p ∈ l, p.1 < 4) (r : Renderer) (hlive : r.slotsLive) :
    ∃ r1, r.reloadMatching fs nameRef compareName l = .done () r1 ∧ r1.slotsLive := by
  induction l generalizing r with
  | nil => exact ⟨r, rfl, hlive⟩
  | cons p l ih =>
    obtain ⟨idx, searchName⟩ := p
    have hl1 : ∀ q ∈ l, q.1 < 4 := fun q hq => hl q (List.mem_cons_of_mem _ hq)
    simp only [Renderer.reloadMatching]
    by_cases hc : compareName = searchName
    · obtain ⟨r1, e1, h1⟩ := createImage_live r fs idx (imagePath ++ "/" ++ nameRef) hlive
        (hl (idx, searchName) (List.mem_cons_self _ _))
      obtain ⟨r2, e2, h2⟩ := ih hl1
        { r1 with m_imageSet := { r1.m_imageSet with dirty := true } } h1
      refine ⟨r2, ?_, h2⟩
      simp only [hc, if_true, e1, Run.andThen] at e2 ⊢
      exact e2
    · obtain ⟨r2, e2, h2⟩ := ih hl1 r hlive
      refine ⟨r2, ?_, h2⟩
      simp only [hc, if_false]
      exact e2

/-- The outer loop completes whatever the loader answers. -/
theorem reloadNames_live (fs : String → Option StbImage) (names : List String)
    (r : Renderer) (hlive : r.slotsLive) :
    ∃ r1, r.reloadNames fs names = .done () r1 ∧ r1.slotsLive := by
  induction names generalizing r with
  | nil => exact ⟨r, rfl, hlive⟩
  | cons n names ih =>
    obtain ⟨r1, e1, h1⟩ := reloadMatching_live fs n (compareNameOf n)
      imageFilesForSearch.enum enum_search_lt r hlive
    obtain ⟨r2, e2, h2⟩ := ih r1 h1
    refine ⟨r2, ?_, h2⟩
    simp only [Renderer.reloadNames, e1, Run.andThen]
    exact e2

/-- The inner loop for a rejected file leaves the three slot vectors alone. -/
theorem reloadMatching_rejected (fs : String → Option StbImage) (nameRef compareName : String)
    (h : (ImageLoader.loadStbImage (fs (imagePath ++ "/" ++ nameRef))).m_bytesize = 0)
    (l : List (Nat × String)) (r : Renderer) :
    ∃ r1, r.reloadMatching fs nameRef compareName l = .done () r1 ∧
      r1.m_imageSet.stagingBuffers = r.m_imageSet.stagingBuffers ∧
      r1.m_imageSet.images = r.m_imageSet.images ∧
      r1.m_imageSet.dirtyFlags = r.m_imageSet.dirtyFlags := by
  induction l generalizing r with
  | nil => exact ⟨r, rfl, rfl, rfl, rfl⟩
  | cons p l ih =>
    obtain ⟨idx, searchName⟩ := p
    simp only [Renderer.reloadMatching]
    by_cases hc : compareName = searchName
    · obtain ⟨r2, e2, a, b, c⟩ := ih
        { r with m_imageSet := { r.m_imageSet with dirty := true } }
      refine ⟨r2, ?_, a, b, c⟩
      simp only [hc, if_true, createImage_rejected r fs idx _ h, Run.andThen] at e2 ⊢
      exact e2
    · obtain ⟨r2, e2, a, b, c⟩ := ih r
      refine ⟨r2, ?_, a, b, c⟩
      simp only [hc, if_false]
      exact e2

/-- C6. If the loader reports byte size 0 for a changed file, `createImage`
on that file returns with the renderer exactly as it was, whatever the slot;
`updateImages` on any change set (so on every one naming that file) runs to
completion on a renderer whose four slots are filled; and when the change set is that file
alone, the staging buffers, images and per-slot dirty flags afterwards are
the ones before. -/
theorem updateImages_tolerates_failed_load (r : Renderer) (fs : String → Option StbImage)
    (imageNames : List String) (name : String) (hlive : r.slotsLive)
    (hfail : (ImageLoader.loadStbImage (fs (imagePath ++ "/" ++ name))).m_bytesize = 0) :
    (∀ index, r.createImage fs index (imagePath ++ "/" ++ name) = .done () r) ∧
    (r.updateImages fs imageNames).completed = true ∧
    (r.updateImages fs [name]).completed = true ∧
    (r.updateImages fs [name]).state.m_imageSet.stagingBuffers = r.m_imageSet.stagingBuffers ∧
    (r.updateImages fs [name]).state.m_imageSet.images = r.m_imageSet.images ∧
    (r.updateImages fs [name]).state.m_imageSet.dirtyFlags = r.m_imageSet.dirtyFlags := by
  refine ⟨fun index => createImage_rejected r fs index _ hfail, ?_, ?_⟩
  · obtain ⟨r1, e1, h1⟩ := reloadNames_live fs imageNames (r.emit [Call.deviceWaitIdle]) hlive
    obtain ⟨r2, e2, _⟩ := createDescriptorsImage_done r1 h1
    simp only [Renderer.updateImages, e1, Run.andThen, e2, Run.completed]
  · obtain ⟨r1, e1, a, b, c⟩ := reloadMatching_rejected fs name (compareNameOf name) hfail
      imageFilesForSearch.enum (r.emit [Call.deviceWaitIdle])
    have hl1 : r1.slotsLive := by
      obtain ⟨l1, l2, l3, l4⟩ := hlive
      exact ⟨by rw [a]; exact l1, by rw [b]; exact l2, by rw [c]; exact l3,
        by rw [b]; exact l4⟩
    obtain ⟨r2, e2, hset, _⟩ := createDescriptorsImage_done r1 hl1
    simp only [Renderer.updateImages, Renderer.reloadNames, e1, Run.andThen, e2,
      Run.completed, Run.state, hset, a, b, c]
    exact ⟨trivial, rfl, rfl, rfl⟩

/-- Witness for C6: `"channel1.png"` fails to load on `settledRenderer`. -/
theorem updateImages_tolerates_failed_load_witness :
    settledRenderer.slotsLive ∧
    (ImageLoader.loadStbImage
      (missingFiles (imagePath ++ "/" ++ "channel1.png"))).m_bytesize = 0 ∧
    (∀ index, settledRenderer.createImage missingFiles index
      (imagePath ++ "/" ++ "channel1.png") = .done () settledRenderer) ∧
    (settledRenderer.updateImages missingFiles ["channel0.png", "channel1.png"]).completed
      = true ∧
    (settledRenderer.updateImages missingFiles ["channel1.png"]).completed = true ∧
    (settledRenderer.updateImages missingFiles ["channel1.png"]).state.m_imageSet.stagingBuffers
      = settledRenderer.m_imageSet.stagingBuffers ∧
    (settledRenderer.updateImages missingFiles ["channel1.png"]).state.m_imageSet.images
      = settledRenderer.m_imageSet.images ∧
    (settledRenderer.updateImages missingFiles ["channel1.png"]).state.m_imageSet.dirtyFlags
      = settledRenderer.m_imageSet.dirtyFlags :=
  ⟨by decide, rfl,
    updateImages_tolerates_failed_load settledRenderer missingFiles
      ["channel0.png", "channel1.png"] "channel1.png" (by decide) rfl⟩

/-! ## Memory-type lookup -/

/-- A loop that overwrites its result at every index satisfying `p` ends on
the start value when no index below `n` satisfies `p`, and otherwise on an
index below `n` that satisfies `p`. -/
theorem foldl_last_match (p : Nat → Bool) (n s : Nat) :
    ((List.range n).foldl (fun acc idx => if p idx then idx else acc) s = s ∧
        ∀ i, i < n → p i = false) ∨
    ((List.range n).foldl (fun acc idx => if p idx then idx else acc) s < n ∧
        p ((List.range n).foldl (fun acc idx => if p idx then idx else acc) s) = true) := by
  induction n with
  | zero => exact Or.inl ⟨rfl, fun i hi => absurd hi (Nat.not_lt_zero i)⟩
  | succ n ih =>
    rw [List.range_succ, List.foldl_append]
    simp only [List.foldl_cons, List.foldl_nil]
    by_cases hp : p n = true
    · rw [if_pos hp]
      exact Or.inr ⟨Nat.lt_succ_self n, hp⟩
    · rw [if_neg hp]
      rcases ih with ⟨h1, h2⟩ | ⟨h1, h2⟩
      · refine Or.inl ⟨h1, fun i hi => ?_⟩
        rcases Nat.lt_succ_iff_lt_or_eq.mp hi with h | h
        · exact h2 i h
        · rw [h]; simpa using hp
      · exact Or.inr ⟨Nat.lt_succ_of_lt h1, h2⟩

/-- Masking with `1 << i` is non-zero exactly when bit `i` is set. -/
theorem and_shift_ne_zero (x i : Nat) (hi : i < 32) :
    (x &&& ((1 <<< i) % 2 ^ 32)) ≠ 0 ↔ x.testBit i = true := by
  have hlt : 2 ^ i < 2 ^ 32 := Nat.pow_lt_pow_right (by decide) hi
  rw [Nat.one_shiftLeft, Nat.mod_eq_of_lt hlt]
  constructor
  · intro h
    by_contra hb
    apply h
    apply Nat.eq_of_testBit_eq
    intro j
    rw [Nat.testBit_and, Nat.testBit_two_pow, Nat.zero_testBit]
    by_cases hj : i = j
    · subst hj; simp [hb]
    · simp [hj]
  · intro hb h
    have := congrArg (fun y => Nat.testBit y i) h
    simp [Nat.testBit_and, Nat.testBit_two_pow, hb] at this

/-- `(p & q) == q` says that every bit of `q` is a bit of `p`. -/
theorem and_eq_right_iff (p q : Nat) :
    p &&& q = q ↔ ∀ b, q.testBit b = true → p.testBit b = true := by
  constructor
  · intro h b hb
    have := congrArg (fun y => Nat.testBit y b) h
    simp only [Nat.testBit_and, hb, Bool.and_true] at this
    exact this
  · intro h
    apply Nat.eq_of_testBit_eq
    intro b
    rw [Nat.testBit_and]
    by_cases hb : q.testBit b = true
    · rw [hb, h b hb]; rfl
    · simp [hb]

/-- The loop test, read as the two conditions of the lookup. -/
theorem memoryTypeMatches_iff (props : VkPhysicalDeviceMemoryProperties)
    (req : VkMemoryRequirements) (flags idx : Nat) (hidx : idx < 32) :
    memoryTypeMatches props req flags idx = true ↔
      req.memoryTypeBits.testBit idx = true ∧
      ∀ b, flags.testBit b = true → (props.memoryTypes.getD idx 0).testBit b = true := by
  unfold memoryTypeMatches
  rw [decide_eq_true_iff, and_shift_ne_zero _ _ hidx, and_eq_right_iff]

/-- C11. For a properties structure whose count does not exceed the 32
entries of its `memoryTypes` array: whenever some index below
`memoryTypeCount` has its bit set in `memoryTypeBits` and a memory type with
every requested property flag, the lookup returns such an index; and the
lookup fails exactly when no index below `memoryTypeCount` satisfies both
conditions. -/
theorem getPhysicalDeviceMemoryTypeIndex_spec (props : VkPhysicalDeviceMemoryProperties)
    (req : VkMemoryRequirements) (flags : Nat)
    (hcount : props.memoryTypeCount ≤ VK_MAX_MEMORY_TYPES) :
    ((∃ i, i < props.memoryTypeCount ∧ req.memoryTypeBits.testBit i = true ∧
          ∀ b, flags.testBit b = true → (props.memoryTypes.getD i 0).testBit b = true) →
      ∃ j, getPhysicalDeviceMemoryTypeIndex props req flags = some j ∧
        j < props.memoryTypeCount ∧ req.memoryTypeBits.testBit j = true ∧
        ∀ b, flags.testBit b = true → (props.memoryTypes.getD j 0).testBit b = true) ∧
    (getPhysicalDeviceMemoryTypeIndex props req flags = none ↔
      ¬ ∃ i, i < props.memoryTypeCount ∧ req.memoryTypeBits.testBit i = true ∧
          ∀ b, flags.testBit b = true → (props.memoryTypes.getD i 0).testBit b = true) := by
  have h32 : props.memoryTypeCount ≤ 32 := hcount
  have hcases := foldl_last_match (memoryTypeMatches props req flags)
    props.memoryTypeCount (2 ^ 32 - 1)
  unfold getPhysicalDeviceMemoryTypeIndex
  simp only
  generalize (List.range props.memoryTypeCount).foldl
    (fun acc idx => if memoryTypeMatches props req flags idx = true then idx else acc)
    (2 ^ 32 - 1) = res at hcases
  rcases hcases with ⟨h1, h2⟩ | ⟨h1, h2⟩
  · -- no index matches
    have hnone : ¬ ∃ i, i < props.memoryTypeCount ∧ req.memoryTypeBits.testBit i = true ∧
        ∀ b, flags.testBit b = true → (props.memoryTypes.getD i 0).testBit b = true := by
      rintro ⟨i, hi, hb, hf⟩
      have := h2 i hi
      rw [(memoryTypeMatches_iff props req flags i (by omega)).mpr ⟨hb, hf⟩] at this
      cases this
    refine ⟨fun hex => absurd hex hnone, ?_⟩
    rw [h1]
    simp only [ne_eq, not_true_eq_false, if_false, true_iff]
    exact hnone
  · -- the result is a matching index
    have hres : res ≠ 2 ^ 32 - 1 := by
      have : res < 32 := by omega
      norm_num
      omega
    have hm := (memoryTypeMatches_iff props req flags res (by omega)).mp h2
    rw [if_pos hres]
    refine ⟨fun _ => ⟨res, rfl, h1, hm.1, hm.2⟩, ?_⟩
    constructor
    · intro h; cases h
    · intro hno
      exact absurd ⟨res, h1, hm.1, hm.2⟩ hno

/-- Witness for C11: host-visible and coherent memory (flags 6) on
`sampleMemory`; types 1 and 2 both qualify and the lookup returns 2. -/
theorem getPhysicalDeviceMemoryTypeIndex_spec_witness :
    sampleMemory.memoryTypeCount ≤ VK_MAX_MEMORY_TYPES ∧
    getPhysicalDeviceMemoryTypeIndex sampleMemory sampleRequirements 6 = some 2 ∧
    getPhysicalDeviceMemoryTypeIndex sampleMemory sampleRequirements 8 = none ∧
    ((∃ i, i < sampleMemory.memoryTypeCount ∧
          sampleRequirements.memoryTypeBits.testBit i = true ∧
          ∀ b, (6 : Nat).testBit b = true →
            (sampleMemory.memoryTypes.getD i 0).testBit b = true) →
      ∃ j, getPhysicalDeviceMemoryTypeIndex sampleMemory sampleRequirements 6 = some j ∧
        j < sampleMemory.memoryTypeCount ∧
        sampleRequirements.memoryTypeBits.testBit j = true ∧
        ∀ b, (6 : Nat).testBit b = true →
          (sampleMemory.memoryTypes.getD j 0).testBit b = true) ∧
    (getPhysicalDeviceMemoryTypeIndex sampleMemory sampleRequirements 6 = none ↔
      ¬ ∃ i, i < sampleMemory.memoryTypeCount ∧
          sampleRequirements.memoryTypeBits.testBit i = true ∧
          ∀ b, (6 : Nat).testBit b = true →
            (sampleMemory.memoryTypes.getD i 0).testBit b = true) :=
  ⟨by decide, by decide, by decide,
    getPhysicalDeviceMemoryTypeIndex_spec sampleMemory sampleRequirements 6 (by decide)⟩

/-! ## The pool of submission units -/

/-- The cursor after `k` calls on a pool of `N` units (`1 ≤ N < 2 ^ 32`)
that started at cursor 0, and the vectors, which never change. -/
theorem advance_index (c : GfxCmdBuffer) (hN : 1 ≤ c.commandBuffers.length)
    (h32 : c.commandBuffers.length < 2 ^ 32) (h0 : c.m_bufferIndex = 0) (k : Nat) :
    (c.advance k).m_bufferIndex = k % c.commandBuffers.length ∧
    (c.advance k).commandBuffers = c.commandBuffers ∧
    (c.advance k).commandBufferFences = c.commandBufferFences ∧
    (c.advance k).cmdBufferSubmitSemaphore = c.cmdBufferSubmitSemaphore := by
  induction k with
  | zero => exact ⟨by rw [Nat.zero_mod]; exact h0, rfl, rfl, rfl⟩
  | succ k ih =>
    obtain ⟨i1, i2, i3, i4⟩ := ih
    refine ⟨?_, i2, i3, i4⟩
    simp only [GfxCmdBuffer.advance, GfxCmdBuffer.getNextCmdBuffer, i1, i2]
    have hlt : k % c.commandBuffers.length < c.commandBuffers.length := Nat.mod_lt _ hN
    have hadd : add32 (k % c.commandBuffers.length) 1 = k % c.commandBuffers.length + 1 := by
      unfold add32
      exact Nat.mod_eq_of_lt (by omega)
    rw [hadd, Nat.mod_add_mod]

/-- C12. On a pool of `N` units with `1 ≤ N < 2 ^ 32` (the count is a
`uint32_t`), as many fences, and cursor 0: call number `k ≥ 1` of
`getNextCmdBuffer` returns the command buffer and the fence stored at index
`k % N`; among any `N` consecutive calls the indices are pairwise different
and every index occurs; two calls that return the same index are at least
`N` calls apart. The pool `createQueuesAndPools` builds has
`c_bufferingCount = 3` command buffers and fences and cursor 0, and every
swapchain creation requests `c_bufferingCount` as its minimum image count. -/
theorem getNextCmdBuffer_round_robin (c : GfxCmdBuffer)
    (hN : 1 ≤ c.commandBuffers.length) (h32 : c.commandBuffers.length < 2 ^ 32)
    (hf : c.commandBufferFences.length = c.commandBuffers.length)
    (h0 : c.m_bufferIndex = 0) :
    (∀ k, 1 ≤ k →
      c.commandBuffers[k % c.commandBuffers.length]? = some (c.nthUnit k).commandBuffer ∧
      c.commandBufferFences[k % c.commandBuffers.length]? = some (c.nthUnit k).fence ∧
      (c.advance k).m_bufferIndex = k % c.commandBuffers.length) ∧
    (∀ k j1 j2, j1 < c.commandBuffers.length → j2 < c.commandBuffers.length →
      (c.advance (k + j1 + 1)).m_bufferIndex = (c.advance (k + j2 + 1)).m_bufferIndex →
      j1 = j2) ∧
    (∀ k i, i < c.commandBuffers.length →
      ∃ j, j < c.commandBuffers.length ∧ (c.advance (k + j + 1)).m_bufferIndex = i) ∧
    (∀ k1 k2, k1 < k2 → (c.advance k1).m_bufferIndex = (c.advance k2).m_bufferIndex →
      c.commandBuffers.length ≤ k2 - k1) ∧
    (∀ n, (createQueuesAndPools n).1.commandBuffers.length = c_bufferingCount ∧
      (createQueuesAndPools n).1.commandBufferFences.length = c_bufferingCount ∧
      (createQueuesAndPools n).1.m_bufferIndex = 0) ∧
    c_bufferingCount = 3 ∧
    (∀ (r : Renderer) (surf : SurfaceEnv) h s m f cs w ht pm,
      Call.createSwapchain h s m f cs w ht pm ∈
        (r.createSwapchain surf).state.calls.drop r.calls.length → m = c_bufferingCount) := by
  have hidx := advance_index c hN h32 h0
  refine ⟨?_, ?_, ?_, ?_, ?_, rfl, ?_⟩
  · intro k hk
    obtain ⟨i1, i2, i3, _⟩ := hidx (k - 1)
    have hlt : k % c.commandBuffers.length < c.commandBuffers.length := Nat.mod_lt _ hN
    have hstep : add32 (c.advance (k - 1)).m_bufferIndex 1 % c.commandBuffers.length
        = k % c.commandBuffers.length := by
      have := (hidx k).1
      have hk1 : k = (k - 1) + 1 := by omega
      rw [hk1] at this
      simp only [GfxCmdBuffer.advance, GfxCmdBuffer.getNextCmdBuffer, i2] at this
      rw [← hk1] at this
      exact this
    refine ⟨?_, ?_, (hidx k).1⟩
    · simp only [GfxCmdBuffer.nthUnit, GfxCmdBuffer.getNextCmdBuffer, i2, hstep,
        List.getD_eq_getElem?_getD]
      rw [List.getElem?_eq_getElem hlt]
      rfl
    · simp only [GfxCmdBuffer.nthUnit, GfxCmdBuffer.getNextCmdBuffer, i2, i3, hstep,
        List.getD_eq_getElem?_getD]
      rw [List.getElem?_eq_getElem (by rw [hf]; exact hlt)]
      rfl
  · intro k j1 j2 h1 h2 he
    rw [(hidx _).1, (hidx _).1] at he
    have hmod : Nat.ModEq c.commandBuffers.length (k + 1 + j1) (k + 1 + j2) := by
      unfold Nat.ModEq
      rw [show k + 1 + j1 = k + j1 + 1 by omega, show k + 1 + j2 = k + j2 + 1 by omega]
      exact he
    exact Nat.ModEq.eq_of_lt_of_lt (Nat.ModEq.add_left_cancel' (k + 1) hmod) h1 h2
  · intro k i hi
    have hlt : (k + 1) % c.commandBuffers.length < c.commandBuffers.length :=
      Nat.mod_lt _ hN
    refine ⟨(i + (c.commandBuffers.length - (k + 1) % c.commandBuffers.length))
      % c.commandBuffers.length, Nat.mod_lt _ hN, ?_⟩
    rw [(hidx _).1]
    have hdm := Nat.div_add_mod (k + 1) c.commandBuffers.length
    rw [show k + (i + (c.commandBuffers.length - (k + 1) % c.commandBuffers.length))
      % c.commandBuffers.length + 1 = (k + 1) + (i + (c.commandBuffers.length
      - (k + 1) % c.commandBuffers.length)) % c.commandBuffers.length by omega,
      Nat.add_mod_mod]
    have hsum : k + 1 + (i + (c.commandBuffers.length - (k + 1) % c.commandBuffers.length))
        = i + c.commandBuffers.length * ((k + 1) / c.commandBuffers.length + 1) := by
      rw [Nat.mul_add, Nat.mul_one]
      omega
    rw [hsum, Nat.add_mul_mod_self_left, Nat.mod_eq_of_lt hi]
  · intro k1 k2 hlt he
    rw [(hidx _).1, (hidx _).1] at he
    have hz : (k2 - k1) % c.commandBuffers.length = 0 :=
      Nat.sub_mod_eq_zero_of_mod_eq he.symm
    have hd : c.commandBuffers.length ∣ k2 - k1 := Nat.dvd_of_mod_eq_zero hz
    exact Nat.le_of_dvd (by omega) hd
  · intro n
    simp [createQueuesAndPools, c_bufferingCount]
  · intro r surf h s m f cs w ht pm hmem
    unfold Renderer.createSwapchain at hmem
    simp only [Renderer.emit] at hmem
    split_ifs at hmem <;>
      simp [Run.state, List.drop_append_eq_append_drop, List.mem_map] at hmem
    all_goals exact hmem.2.2.1

/-- Witness for C12: the pool of `bootRenderer` (three units, cursor 0). -/
theorem getNextCmdBuffer_round_robin_witness :
    1 ≤ bootRenderer.cmdBuffer.commandBuffers.length ∧
    bootRenderer.cmdBuffer.commandBuffers.length < 2 ^ 32 ∧
    bootRenderer.cmdBuffer.m_bufferIndex = 0 ∧
    (bootRenderer.cmdBuffer.nthUnit 1, bootRenderer.cmdBuffer.nthUnit 2,
      bootRenderer.cmdBuffer.nthUnit 3, bootRenderer.cmdBuffer.nthUnit 4) =
      ({ commandBuffer := 12, fence := 22, submitSemaphore := 30 },
       { commandBuffer := 13, fence := 23, submitSemaphore := 30 },
       { commandBuffer := 11, fence := 21, submitSemaphore := 30 },
       { commandBuffer := 12, fence := 22, submitSemaphore := 30 }) ∧
    (∀ k, 1 ≤ k →
      bootRenderer.cmdBuffer.commandBuffers[k % bootRenderer.cmdBuffer.commandBuffers.length]?
        = some (bootRenderer.cmdBuffer.nthUnit k).commandBuffer ∧
      bootRenderer.cmdBuffer.commandBufferFences[
          k % bootRenderer.cmdBuffer.commandBuffers.length]?
        = some (bootRenderer.cmdBuffer.nthUnit k).fence ∧
      (bootRenderer.cmdBuffer.advance k).m_bufferIndex
        = k % bootRenderer.cmdBuffer.commandBuffers.length) :=
  ⟨by decide, by decide, rfl, by decide,
    (getNextCmdBuffer_round_robin bootRenderer.cmdBuffer (by decide) (by decide) rfl rfl).1⟩

/-! ## More on `render` -/

/-- A completed copy pass only appends to the log and clears the dirty
flags. -/
theorem renderCopyImages_done (r r1 : Renderer) (cmdBuffer : CmdBuffer)
    (h : r.renderCopyImages cmdBuffer = .done () r1) :
    ∃ added, r1 = { r with
      calls := r.calls ++ added
      m_imageSet := { r.m_imageSet with
        dirty := false, dirtyFlags := r.m_imageSet.dirtyFlags.map (fun _ => false) } } := by
  unfold Renderer.renderCopyImages at h
  cases hp : r.m_imageSet.dirtyPairs with
  | none => rw [hp] at h; cases h
  | some pairs =>
    rw [hp] at h
    simp only [Renderer.emit, Run.done.injEq, true_and] at h
    exact ⟨_, h.symm⟩

/-- C14. When the fence wait does not return success within the timeout
(`s_defaultTimeout`, one second in nanoseconds), `render` stops: it does not
complete, and the only calls it has made are the acquire and, if the
acquired index passed its assert, the fence wait. No command buffer is
reset or begun, nothing is recorded, submitted or presented, and the uniform
buffer is untouched. -/
theorem render_fence_timeout (r : Renderer) (env : FrameEnv)
    (hfail : env.fenceSignaled = false) :
    s_defaultTimeout = 10 ^ 9 ∧
    (r.render env).completed = false ∧
    (r.render env).state.calls = r.calls ++
      ([Call.acquireNextImage r.swapchain.swapchainImageSemaphore env.acquiredImageIndex] ++
        if env.acquiredImageIndex < r.swapchain.imageCount then
          [Call.waitForFences r.cmdBuffer.getNextCmdBuffer.1.fence]
        else []) ∧
    (r.render env).state.m_gpuBufferUniform = r.m_gpuBufferUniform := by
  refine ⟨by decide, ?_⟩
  unfold Renderer.render
  by_cases hacq : env.acquiredImageIndex < r.swapchain.imageCount
  · simp [hacq, hfail, Run.completed, Run.state, Renderer.emit]
  · simp [hacq, Run.completed, Run.state, Renderer.emit]

/-- Witness for C14: `bootRenderer` with a fence wait that times out. The
log holds the acquire and the wait on fence 22 and nothing else. -/
theorem render_fence_timeout_witness :
    timeoutEnv.fenceSignaled = false ∧
    (bootRenderer.render timeoutEnv).state.calls
      = [Call.acquireNextImage 40 0, Call.waitForFences 22] ∧
    s_defaultTimeout = 10 ^ 9 ∧
    (bootRenderer.render timeoutEnv).completed = false ∧
    (bootRenderer.render timeoutEnv).state.calls = bootRenderer.calls ++
      ([Call.acquireNextImage bootRenderer.swapchain.swapchainImageSemaphore
          timeoutEnv.acquiredImageIndex] ++
        if timeoutEnv.acquiredImageIndex < bootRenderer.swapchain.imageCount then
          [Call.waitForFences bootRenderer.cmdBuffer.getNextCmdBuffer.1.fence]
        else []) ∧
    (bootRenderer.render timeoutEnv).state.m_gpuBufferUniform
      = bootRenderer.m_gpuBufferUniform :=
  ⟨rfl, by decide, render_fence_timeout bootRenderer timeoutEnv rfl⟩

/-- The copy commands of the image pass begin no render pass. -/
theorem renderAreas_copies (cb : Nat) (pairs : List (Nat × Nat)) :
    renderAreas (pairs.map fun p => Call.cmdCopyBufferToImage cb p.2 p.1) = [] := by
  induction pairs with
  | nil => rfl
  | cons p pairs ih =>
    simp only [renderAreas, List.map_cons, List.filterMap_cons] at ih ⊢
    exact ih

/-- The render areas of a log in two parts. -/
theorem renderAreas_append (a b : List Call) :
    renderAreas (a ++ b) = renderAreas a ++ renderAreas b :=
  List.filterMap_append _ _ _

/-- A completed `render` stored the channel resolutions of the four slot
images in the payload and copied the payload into the uniform ring, left the
slot images as they were, and ended with the submit, which
signals the pool's single semaphore, and the present, which waits on it. The
acquired index passed its assert and is the new swapchain cursor; window,
framebuffers and the recorded sizes are untouched; the one render pass begun
has the window size as render area; and the dirty flags are all cleared when
the aggregate flag was set and untouched otherwise. -/
theorem render_completed (r : Renderer) (env : FrameEnv)
    (h : (r.render env).completed = true) :
    (∃ res uniform uniform1, r.channelResolutions = some res ∧
      r.m_gpuBufferUniform = some uniform ∧
      uniform.copyData (uniform.byteSize % 2 ^ 32) (env.shaderInputUniform res)
        = .done () uniform1 ∧
      (r.render env).state.m_gpuBufferUniform = some uniform1) ∧
    (r.render env).state.m_imageSet.images = r.m_imageSet.images ∧
    (r.render env).state.calls.reverse.take 2 =
      [Call.queuePresent r.cmdBuffer.cmdBufferSubmitSemaphore env.acquiredImageIndex,
       Call.queueSubmit r.cmdBuffer.getNextCmdBuffer.1.commandBuffer
         r.swapchain.swapchainImageSemaphore r.cmdBuffer.cmdBufferSubmitSemaphore
         r.cmdBuffer.getNextCmdBuffer.1.fence] ∧
    env.acquiredImageIndex < r.swapchain.imageCount ∧
    (r.render env).state.swapchain
      = { r.swapchain with imageIndex := env.acquiredImageIndex } ∧
    (r.render env).state.window = r.window ∧
    (r.render env).state.m_framebuffers = r.m_framebuffers ∧
    (r.render env).state.framebufferExtents = r.framebufferExtents ∧
    (r.render env).state.pipelineExtent = r.pipelineExtent ∧
    renderAreas ((r.render env).state.calls.drop r.calls.length)
      = [(r.window.width, r.window.height)] ∧
    (r.m_imageSet.dirty = true →
      (r.render env).state.m_imageSet.dirty = false ∧
      (r.render env).state.m_imageSet.dirtyFlags
        = r.m_imageSet.dirtyFlags.map (fun _ => false)) ∧
    (r.m_imageSet.dirty = false → (r.render env).state.m_imageSet = r.m_imageSet) := by
  by_cases hacq : env.acquiredImageIndex < r.swapchain.imageCount
  swap
  · simp [Renderer.render, Renderer.emit, hacq, Run.completed] at h
  by_cases hf : env.fenceSignaled = true
  swap
  · simp [Renderer.render, Renderer.emit, hacq, hf, Run.completed] at h
  have hsem : r.cmdBuffer.getNextCmdBuffer.1.submitSemaphore
      = r.cmdBuffer.cmdBufferSubmitSemaphore := rfl
  -- the copy pass, when it runs, must have completed
  have hpairs : r.m_imageSet.dirty = true → ∃ pairs, r.m_imageSet.dirtyPairs = some pairs := by
    intro hd
    cases hp : r.m_imageSet.dirtyPairs with
    | none =>
      simp [Renderer.render, hacq, hf, hd, hp, Run.completed, Run.andThen,
        Renderer.renderCopyImages, Renderer.emit] at h
    | some pairs => exact ⟨pairs, rfl⟩
  cases hu : r.m_descriptorSetUniform with
  | none =>
    by_cases hd : r.m_imageSet.dirty = true
    · obtain ⟨pairs, hp⟩ := hpairs hd
      simp [Renderer.render, hacq, hf, hd, hp, hu, Run.completed, Run.andThen,
        Renderer.renderCopyImages, Renderer.emit] at h
    · simp [Renderer.render, hacq, hf, hd, hu, Run.completed, Run.andThen,
        Renderer.emit] at h
  | some setUniform =>
  cases hi : r.m_descriptorSetImage with
  | none =>
    by_cases hd : r.m_imageSet.dirty = true
    · obtain ⟨pairs, hp⟩ := hpairs hd
      simp [Renderer.render, hacq, hf, hd, hp, hu, hi, Run.completed, Run.andThen,
        Renderer.renderCopyImages, Renderer.emit] at h
    · simp [Renderer.render, hacq, hf, hd, hu, hi, Run.completed, Run.andThen,
        Renderer.emit] at h
  | some setImage =>
  cases hg : r.m_gpuBufferUniform with
  | none =>
    by_cases hd : r.m_imageSet.dirty = true
    · obtain ⟨pairs, hp⟩ := hpairs hd
      simp [Renderer.render, hacq, hf, hd, hp, hu, hi, hg, Run.completed, Run.andThen,
        Renderer.renderCopyImages, Renderer.emit] at h
    · simp [Renderer.render, hacq, hf, hd, hu, hi, hg, Run.completed, Run.andThen,
        Renderer.emit] at h
  | some uniform =>
  cases hres : (List.range 4).mapM (fun idx =>
      (r.m_imageSet.images.getD idx none).map fun img =>
        (img.width, img.height, img.depth, 0)) with
  | none =>
    by_cases hd : r.m_imageSet.dirty = true
    · obtain ⟨pairs, hp⟩ := hpairs hd
      simp only [Renderer.render, hacq, hf, hd, hp, hu, hi, hg, Renderer.channelResolutions,
        hres, Run.completed, Run.andThen, Renderer.renderCopyImages, Renderer.emit, if_true,
        if_false, Bool.false_eq_true, reduceCtorEq] at h
    · simp only [Renderer.render, hacq, hf, hd, hu, hi, hg, Renderer.channelResolutions, hres,
        Run.completed, Run.andThen, Renderer.emit, if_true, if_false, Bool.false_eq_true,
        reduceCtorEq] at h
  | some res =>
  cases hc : uniform.copyData (uniform.byteSize % 2 ^ 32) (env.shaderInputUniform res) with
  | aborted s =>
    by_cases hd : r.m_imageSet.dirty = true
    · obtain ⟨pairs, hp⟩ := hpairs hd
      simp only [Renderer.render, hacq, hf, hd, hp, hu, hi, hg, Renderer.channelResolutions,
        hres, hc, Run.completed, Run.andThen, Renderer.renderCopyImages, Renderer.emit,
        if_true, if_false, Bool.false_eq_true, reduceCtorEq] at h
    · simp only [Renderer.render, hacq, hf, hd, hu, hi, hg, Renderer.channelResolutions, hres,
        hc, Run.completed, Run.andThen, Renderer.emit, if_true, if_false, Bool.false_eq_true,
        reduceCtorEq] at h
  | done v uniform1 =>
    have hres1 : r.channelResolutions = some res := hres
    have hstate : (r.render env).state.m_gpuBufferUniform = some uniform1 := by
      by_cases hd : r.m_imageSet.dirty = true
      · obtain ⟨pairs, hp⟩ := hpairs hd
        simp only [Renderer.render, hacq, hf, hd, hp, hu, hi, hg, Renderer.channelResolutions,
          hres, hc, Run.state, Run.andThen, Renderer.renderCopyImages, Renderer.emit, if_true,
          if_false]
      · simp only [Renderer.render, hacq, hf, hd, hu, hi, hg, Renderer.channelResolutions,
          hres, hc, Run.state, Run.andThen, Renderer.emit, if_true, if_false,
          Bool.false_eq_true]
    refine ⟨⟨res, uniform, uniform1, hres1, rfl, hc, hstate⟩, ?_⟩
    by_cases hd : r.m_imageSet.dirty = true
    · obtain ⟨pairs, hp⟩ := hpairs hd
      simp only [Renderer.render, hacq, hf, hd, hp, hu, hi, hg, Renderer.channelResolutions,
        hres, hc, Run.state, Run.andThen, Renderer.renderCopyImages, Renderer.emit, if_true,
        if_false, hsem]
      simp only [List.append_assoc, List.drop_left, renderAreas_append, renderAreas_copies]
      simp [renderAreas, hd]
    · simp only [Renderer.render, hacq, hf, hd, hu, hi, hg, Renderer.channelResolutions, hres,
        hc, Run.state, Run.andThen, Renderer.emit, if_true, if_false, Bool.false_eq_true, hsem]
      simp only [List.append_assoc, List.drop_left, renderAreas_append]
      simp [renderAreas, hd]

/-- The submit semaphore of the pool is the same after any number of
`getNextCmdBuffer` calls. -/
theorem advance_semaphore (c : GfxCmdBuffer) (k : Nat) :
    (c.advance k).cmdBufferSubmitSemaphore = c.cmdBufferSubmitSemaphore := by
  induction k with
  | zero => rfl
  | succ k ih => simpa [GfxCmdBuffer.advance, GfxCmdBuffer.getNextCmdBuffer] using ih

/-- C13 (the code departs from the claim). On the pool of `bootRenderer` the
units returned by the first and the second call of `getNextCmdBuffer` come
from different pool indices (command buffers 12 and 13, fences 22 and 23)
and carry the same `submitSemaphore` handle. -/
theorem getNextCmdBuffer_units_share_semaphore :
    (bootRenderer.cmdBuffer.nthUnit 1).commandBuffer = 12 ∧
    (bootRenderer.cmdBuffer.nthUnit 2).commandBuffer = 13 ∧
    (bootRenderer.cmdBuffer.nthUnit 1).fence ≠ (bootRenderer.cmdBuffer.nthUnit 2).fence ∧
    (bootRenderer.cmdBuffer.nthUnit 1).submitSemaphore
      = (bootRenderer.cmdBuffer.nthUnit 2).submitSemaphore := by
  decide

/-- C13 (amended). Every unit `getNextCmdBuffer` returns carries the pool's
single `cmdBufferSubmitSemaphore`, whatever the pool index;
`createQueuesAndPools` creates exactly one semaphore, the one stored there;
and a completed `render` ends with a submit that signals this semaphore
followed by a present that waits on it. -/
theorem getNextCmdBuffer_single_semaphore (r : Renderer) (env : FrameEnv)
    (h : (r.render env).completed = true) :
    (∀ k, (r.cmdBuffer.nthUnit k).submitSemaphore = r.cmdBuffer.cmdBufferSubmitSemaphore) ∧
    (∀ n, (createQueuesAndPools n).2.1.filter
        (fun c => match c with
          | .createSemaphore _ => true
          | _ => false)
      = [Call.createSemaphore (createQueuesAndPools n).1.cmdBufferSubmitSemaphore]) ∧
    (r.render env).state.calls.reverse.take 2 =
      [Call.queuePresent r.cmdBuffer.cmdBufferSubmitSemaphore env.acquiredImageIndex,
       Call.queueSubmit r.cmdBuffer.getNextCmdBuffer.1.commandBuffer
         r.swapchain.swapchainImageSemaphore r.cmdBuffer.cmdBufferSubmitSemaphore
         r.cmdBuffer.getNextCmdBuffer.1.fence] := by
  refine ⟨?_, ?_, (render_completed r env h).2.2.1⟩
  · intro k
    exact advance_semaphore r.cmdBuffer (k - 1)
  · intro n
    simp [createQueuesAndPools, c_bufferingCount, List.range_succ, List.filter]

/-- Witness for C13 (amended): the first frame of `bootRenderer`. Its submit
signals semaphore 30 and its present waits on semaphore 30. -/
theorem getNextCmdBuffer_single_semaphore_witness :
    (bootRenderer.render (frameEnv 0 7)).completed = true ∧
    (bootRenderer.render (frameEnv 0 7)).state.calls.reverse.take 2
      = [Call.queuePresent 30 0, Call.queueSubmit 12 40 30 22] ∧
    (∀ k, (bootRenderer.cmdBuffer.nthUnit k).submitSemaphore
      = bootRenderer.cmdBuffer.cmdBufferSubmitSemaphore) :=
  ⟨by decide, by decide,
    (getNextCmdBuffer_single_semaphore bootRenderer (frameEnv 0 7) (by decide)).1⟩

/-! ## The staging buffer and the image sizes -/

/-- C20 (the code departs from the claim). A 4-byte payload (one RGBA pixel)
on a device whose map alignment is 64: the constructor rounds `byteSize` up
to 64 and its `memcpy` copies 64 bytes from the 4-byte source, so it reads
the source indices 4 to 63 as well. `createImage` builds the staging buffer
of a 1x1 image exactly so. -/
theorem staging_constructor_copies_aligned_size :
    (GpuBufferStaging.create sampleDevice 300 4 (some [0, 0, 0, 255])).map
        (fun st => (st.byteSize, st.bytesCopied, st.payload.length)) = some (64, 64, 4) ∧
    (GpuBufferStaging.create sampleDevice 300 4 (some [0, 0, 0, 255])).map
        (fun st => st.sourceIndicesRead.filter (fun i => decide (4 ≤ i)))
      = some ((List.range 64).drop 4) ∧
    (ImageLoader.loadStbImage (sampleFiles "textures/channel0.png")).m_bytesize = 4 ∧
    (settledRenderer.createImage sampleFiles 0
        "textures/channel0.png").state.m_imageSet.stagingBuffers.getD 0 none
      = GpuBufferStaging.create sampleDevice 200 4 (some [0, 0, 0, 255]) := by
  decide

/-- Entry `i` of a completed `mapM` is the image of entry `i`. -/
theorem mapM_getElem {α β : Type} (f : α → Option β) (l : List α) (bs : List β)
    (h : l.mapM f = some bs) (i : Nat) (a : α) (ha : l[i]? = some a) :
    ∃ b, f a = some b ∧ bs[i]? = some b := by
  induction l generalizing bs i with
  | nil => simp at ha
  | cons x l ih =>
    rw [List.mapM_cons] at h
    cases hx : f x with
    | none =>
      rw [hx] at h
      cases h
    | some y =>
      cases hl : l.mapM f with
      | none =>
        rw [hx, hl] at h
        cases h
      | some ys =>
        rw [hx, hl] at h
        have hbs : y :: ys = bs := Option.some.inj h
        subst hbs
        cases i with
        | zero =>
          simp only [List.getElem?_cons_zero, Option.some.injEq] at ha
          subst ha
          exact ⟨y, hx, List.getElem?_cons_zero⟩
        | succ i =>
          simp only [List.getElem?_cons_succ] at ha ⊢
          exact ih ys hl i ha

/-- When the channel resolutions are defined, the entry of a slot is the size
of the image the slot holds, followed by zero. -/
theorem channelResolutions_entry (r : Renderer) (res : List (Nat × Nat × Nat × Nat))
    (hres : r.channelResolutions = some res) (idx : Nat) (img : GpuImage) (hidx : idx < 4)
    (himg : r.m_imageSet.images.getD idx none = some img) :
    res[idx]? = some (img.width, img.height, img.depth, 0) := by
  obtain ⟨b, hb, hbs⟩ := mapM_getElem _ _ _ hres idx idx
    (by rw [List.getElem?_range hidx])
  rw [himg] at hb
  rw [hbs, ← hb]
  rfl

/-- The bytes of a payload that `copyData` copied are found in the ring at
the offset `getByteOffset` reports afterwards. -/
theorem copyData_payload (b b1 : GpuBufferUniform) (n : Nat) (payload : Nat → Nat)
    (hn : n ≤ b.byteSize) (h : b.copyData n payload = .done () b1) :
    b1.byteSize = b.byteSize ∧
    ∀ a, a < n → b1.mp_data (b1.getByteOffset + a) = payload a := by
  rw [copyData_done b n payload hn] at h
  simp only [Run.done.injEq, true_and] at h
  subst h
  refine ⟨rfl, ?_⟩
  intro a ha
  have hmin : min b.byteSize n = n := Nat.min_eq_right hn
  simp only [GpuBufferUniform.getByteOffset, memcpy, hmin]
  rw [if_pos ⟨Nat.le_add_right _ _, Nat.add_lt_add_left ha _⟩, Nat.add_sub_cancel_left]

/-- C19. For a file that decodes to `W x H` (the loader reports a positive
byte size), `createImage` on slot `index`, whatever the slot held before,
completes and leaves in the slot a newly created image of size `(W, H, 1)`.
A following `render` that completes leaves the slot images alone; the
`iChannelResolution` entries it stores in the payload are the sizes of the
images the four slots hold now, each followed by zero, so the entry of slot
`index` is `(W, H, 1, 0)`; and the payload built from these entries is what
`copyData` has copied into the uniform ring: its bytes are found at the
offset `getByteOffset` reports after the frame. -/
theorem createImage_reports_decoded_size (r : Renderer) (fs : String → Option StbImage)
    (index : Nat) (filename : String) (p : StbImage)
    (hfile : fs filename = some p)
    (hsize : 0 < (ImageLoader.loadStbImage (fs filename)).m_bytesize)
    (hidx : index < 4) (hlen : r.m_imageSet.images.length = 4) :
    ∃ r1 img, r.createImage fs index filename = .done () r1 ∧
      r1.m_imageSet.images.getD index none = some img ∧
      (img.width, img.height, img.depth) = (p.x, p.y, 1) ∧
      img.image = r.nextHandle + 1 ∧
      ∀ env, (r1.render env).completed = true →
        (r1.render env).state.m_imageSet.images = r1.m_imageSet.images ∧
        ∃ res uniform1, r1.channelResolutions = some res ∧
          res[index]? = some (p.x, p.y, 1, 0) ∧
          (∀ idx slotImage, idx < 4 → r1.m_imageSet.images.getD idx none = some slotImage →
            res[idx]? = some (slotImage.width, slotImage.height, slotImage.depth, 0)) ∧
          (r1.render env).state.m_gpuBufferUniform = some uniform1 ∧
          ∀ a, a < uniform1.byteSize % 2 ^ 32 →
            uniform1.mp_data (uniform1.getByteOffset + a) = env.shaderInputUniform res a := by
  have hd := loadStbImage_pos (fs filename) hsize
  obtain ⟨r1, st, img, e1, _, himgs, _, _, himg, _⟩ :=
    createImage_loaded r fs index filename hsize
  have hslot : r1.m_imageSet.images.getD index none = some img := by
    rw [himgs, getD_set _ _ _ _ _ (by rw [hlen]; exact hidx)]
    simp
  have hdims : (img.width, img.height, img.depth) = (p.x, p.y, 1) := by
    have e2 := e1
    simp only [Renderer.createImage, hsize, hd, if_true, and_self, Renderer.emit,
      Run.done.injEq, true_and] at e2
    subst e2
    simp only [List.getD_eq_getElem?_getD, List.getElem?_set] at hslot
    have hlt : index < (r.m_imageSet.images).length := by rw [hlen]; exact hidx
    simp only [hlt, if_true, Option.getD_some, Option.some.injEq] at hslot
    subst hslot
    simp [ImageLoader.loadStbImage, hfile]
  refine ⟨r1, img, e1, hslot, hdims, himg, ?_⟩
  intro env hdone
  obtain ⟨⟨res, uniform, uniform1, hres, _, hcopy, hstate⟩, hkeep, _⟩ :=
    render_completed r1 env hdone
  obtain ⟨hsame, hbytes⟩ := copyData_payload uniform uniform1 _ _ (Nat.mod_le _ _) hcopy
  refine ⟨hkeep, res, uniform1, hres, ?_,
    fun idx slotImage h4 hs => channelResolutions_entry r1 res hres idx slotImage h4 hs,
    hstate, ?_⟩
  · rw [channelResolutions_entry r1 res hres index img hidx hslot]
    simp only [Prod.mk.injEq] at hdims
    rw [hdims.1, hdims.2.1, hdims.2.2]
  · intro a ha
    rw [hsame] at ha
    exact hbytes a ha

/-- Witness for C19: slot 0 of `settledRenderer` holds a 1x1 image; a reload
from a file that decodes to 2x3 leaves a 2x3x1 image there. In the next
frame, whose payload is laid out one value per address, the uniform ring
holds `2, 3, 1, 0` for slot 0 and `1, 1, 1, 0` for slot 1 at the start of the
slice written (offset 256). -/
theorem createImage_reports_decoded_size_witness :
    (settledRenderer.m_imageSet.images.getD 0 none).map
      (fun img => (img.width, img.height, img.depth)) = some (1, 1, 1) ∧
    ((settledRenderer.createImage widerFiles 0 "textures/channel0.png").state.render
      resolutionEnv).completed = true ∧
    ((settledRenderer.createImage widerFiles 0 "textures/channel0.png").state.render
      resolutionEnv).state.m_gpuBufferUniform.map
        (fun b => (b.getByteOffset, (List.range 8).map fun a => b.mp_data (256 + a)))
      = some (256, [2, 3, 1, 0, 1, 1, 1, 0]) ∧
    ((settledRenderer.render resolutionEnv).state.m_gpuBufferUniform.map
        (fun b => (List.range 8).map fun a => b.mp_data (256 + a)))
      = some [1, 1, 1, 0, 1, 1, 1, 0] ∧
    ∃ r1 img, settledRenderer.createImage widerFiles 0 "textures/channel0.png" = .done () r1 ∧
      r1.m_imageSet.images.getD 0 none = some img ∧
      (img.width, img.height, img.depth) = (2, 3, 1) ∧
      img.image = settledRenderer.nextHandle + 1 ∧
      ∀ env, (r1.render env).completed = true →
        (r1.render env).state.m_imageSet.images = r1.m_imageSet.images ∧
        ∃ res uniform1, r1.channelResolutions = some res ∧
          res[0]? = some (2, 3, 1, 0) ∧
          (∀ idx slotImage, idx < 4 → r1.m_imageSet.images.getD idx none = some slotImage →
            res[idx]? = some (slotImage.width, slotImage.height, slotImage.depth, 0)) ∧
          (r1.render env).state.m_gpuBufferUniform = some uniform1 ∧
          ∀ a, a < uniform1.byteSize % 2 ^ 32 →
            uniform1.mp_data (uniform1.getByteOffset + a) = env.shaderInputUniform res a :=
  ⟨by decide, by decide, by decide, by decide,
    createImage_reports_decoded_size settledRenderer widerFiles 0 "textures/channel0.png"
      { x := 2, y := 3, data := List.replicate 24 0 } rfl (by decide) (by decide) (by decide)⟩

/-! ## The rebuild paths -/

/-- Sequencing keeps the log growing from a common base. -/
theorem andThen_grows {α β : Type} (x : Run Renderer α) (f : α → Renderer → Run Renderer β)
    (base : List Call) (hx : ∃ a, x.state.calls = base ++ a)
    (hf : ∀ v s, ∃ a, (f v s).state.calls = s.calls ++ a) :
    ∃ a, (x.andThen f).state.calls = base ++ a := by
  cases x with
  | aborted s => exact hx
  | done v s =>
    obtain ⟨a, ha⟩ := hx
    obtain ⟨b, hb⟩ := hf v s
    refine ⟨a ++ b, ?_⟩
    have ha1 : s.calls = base ++ a := ha
    show (f v s).state.calls = base ++ (a ++ b)
    rw [hb, ha1, List.append_assoc]

/-- `createSwapchain` only appends to the log. -/
theorem createSwapchain_grows (r : Renderer) (surf : SurfaceEnv) :
    ∃ a, (r.createSwapchain surf).state.calls = r.calls ++ a := by
  unfold Renderer.createSwapchain
  split_ifs <;> simp only [Run.state, Renderer.emit, List.append_assoc] <;>
    first
      | exact ⟨_, rfl⟩
      | exact ⟨[], (List.append_nil _).symm⟩

/-- `createGraphicsPipeline` only appends to the log. -/
theorem createGraphicsPipeline_grows (r : Renderer) :
    ∃ a, r.createGraphicsPipeline.state.calls = r.calls ++ a := by
  unfold Renderer.createGraphicsPipeline
  split
  · exact ⟨_, rfl⟩
  · exact ⟨[], (List.append_nil _).symm⟩

/-- `createShaders` only appends to the log. -/
theorem createShaders_grows (r : Renderer) (fromGlsl vertOk fragOk : Bool) :
    ∃ a, (r.createShaders fromGlsl vertOk fragOk).state.calls = r.calls ++ a := by
  unfold Renderer.createShaders
  apply andThen_grows
  · unfold Renderer.newShader
    cases fromGlsl <;> cases vertOk <;> cases fragOk <;>
      simp only [Renderer.createShaderModuleFromGlsl, Renderer.createShaderModule, Run.andThen,
        Run.state, if_true, if_false, Bool.false_eq_true, List.append_assoc] <;>
      first
        | exact ⟨_, rfl⟩
        | exact ⟨[], (List.append_nil _).symm⟩
  · intro v s
    split_ifs <;> exact ⟨_, rfl⟩

/-- `createDescriptorsImage` only appends to the log. -/
theorem createDescriptorsImage_grows (r : Renderer) :
    ∃ a, r.createDescriptorsImage.state.calls = r.calls ++ a := by
  unfold Renderer.createDescriptorsImage
  simp only [Renderer.emit]
  split
  · simp only [Run.state, List.append_assoc]
    exact ⟨_, rfl⟩
  · exact ⟨_, rfl⟩

/-- Nothing has happened yet. -/
theorem reloadStep_refl (r : Renderer) : r.reloadStep r :=
  ⟨⟨[], (List.append_nil _).symm, fun _ h => absurd h (List.not_mem_nil _)⟩, rfl,
    rfl, rfl, rfl, rfl, rfl⟩

/-- Two stretches of the reload loops make one. -/
theorem reloadStep_trans (a b c : Renderer) (h1 : a.reloadStep b) (h2 : b.reloadStep c) :
    a.reloadStep c := by
  obtain ⟨⟨x, hx, hxp⟩, hxd, x1, x2, x3, x4, x5⟩ := h1
  obtain ⟨⟨y, hy, hyp⟩, hyd, y1, y2, y3, y4, y5⟩ := h2
  refine ⟨⟨x ++ y, by rw [hy, hx, List.append_assoc], ?_⟩, hyd.trans hxd,
    y1.trans x1, y2.trans x2, y3.trans x3, y4.trans x4, y5.trans x5⟩
  intro call hc
  rcases List.mem_append.mp hc with h | h
  · exact hxp call h
  · exact hyp call h

/-- `createImage`, whatever its outcome, only appends calls that neither
allocate nor free a descriptor set, and keeps the image descriptor set. -/
theorem createImage_reloadStep (r : Renderer) (fs : String → Option StbImage) (index : Nat)
    (filename : String) : r.reloadStep (r.createImage fs index filename).state := by
  have hst : ∀ o, ∀ c ∈ stagingDestroyCalls o, c.touchesDescriptorPool = false := by
    intro o c hc
    cases o with
    | none => exact absurd hc (List.not_mem_nil _)
    | some st =>
      simp only [stagingDestroyCalls, List.mem_singleton] at hc
      subst hc
      rfl
  have him : ∀ o, ∀ c ∈ imageDestroyCalls o, c.touchesDescriptorPool = false := by
    intro o c hc
    cases o with
    | none => exact absurd hc (List.not_mem_nil _)
    | some img =>
      simp only [imageDestroyCalls, List.mem_cons, List.mem_singleton, List.not_mem_nil,
        or_false] at hc
      rcases hc with h | h | h <;> subst h <;> rfl
  unfold Renderer.createImage
  simp only [Renderer.emit]
  split_ifs
  · refine ⟨⟨_, by simp only [Run.state, List.append_assoc]; rfl, ?_⟩, rfl,
      rfl, rfl, rfl, rfl, rfl⟩
    intro c hc
    simp only [List.mem_append, List.mem_cons, List.mem_singleton, List.not_mem_nil,
      or_false, or_assoc] at hc
    rcases hc with h | h | h | h | h | h
    · subst h; rfl
    · exact hst _ c h
    · subst h; rfl
    · subst h; rfl
    · subst h; rfl
    · exact him _ c h
  · refine ⟨⟨_, rfl, ?_⟩, rfl, rfl, rfl, rfl, rfl, rfl⟩
    intro c hc
    simp only [List.mem_append, List.mem_singleton] at hc
    rcases hc with h | h
    · subst h; rfl
    · exact hst _ c h
  · exact reloadStep_refl r

/-- The inner loop of `updateImages`, whatever its outcome. -/
theorem reloadMatching_reloadStep (fs : String → Option StbImage)
    (nameRef compareName : String) (l : List (Nat × String)) (r : Renderer) :
    r.reloadStep (r.reloadMatching fs nameRef compareName l).state := by
  induction l generalizing r with
  | nil => exact reloadStep_refl r
  | cons p l ih =>
    obtain ⟨idx, searchName⟩ := p
    simp only [Renderer.reloadMatching]
    split_ifs
    · have h1 := createImage_reloadStep r fs idx (imagePath ++ "/" ++ nameRef)
      cases hc : r.createImage fs idx (imagePath ++ "/" ++ nameRef) with
      | aborted s =>
        rw [hc] at h1
        exact h1
      | done v s =>
        rw [hc] at h1
        have h2 := ih { s with m_imageSet := { s.m_imageSet with dirty := true } }
        exact reloadStep_trans r s _ h1 h2
    · exact ih r

/-- The outer loop of `updateImages`, whatever its outcome. -/
theorem reloadNames_reloadStep (fs : String → Option StbImage) (names : List String)
    (r : Renderer) : r.reloadStep (r.reloadNames fs names).state := by
  induction names generalizing r with
  | nil => exact reloadStep_refl r
  | cons n names ih =>
    simp only [Renderer.reloadNames]
    have h1 := reloadMatching_reloadStep fs n (compareNameOf n) imageFilesForSearch.enum r
    cases hc : r.reloadMatching fs n (compareNameOf n) imageFilesForSearch.enum with
    | aborted s =>
      rw [hc] at h1
      exact h1
    | done v s =>
      rw [hc] at h1
      exact reloadStep_trans r _ _ h1 (ih s)

/-- C16. Each of the four rebuild paths, whatever its outcome, makes the
device-idle wait as its first call: the calls that `resizeWindow`,
`resizeFramebuffer`, `updateImages` and `updateShaders` add to the log begin
with `vkDeviceWaitIdle`, so every destroy, free, create or allocate call of
the same invocation comes after it. -/
theorem rebuild_paths_wait_for_idle_first (r : Renderer) :
    (∀ surf, ∃ rest,
      (r.resizeWindow surf).state.calls = r.calls ++ Call.deviceWaitIdle :: rest) ∧
    (∃ rest, r.resizeFramebuffer.state.calls = r.calls ++ Call.deviceWaitIdle :: rest) ∧
    (∀ fs imageNames, ∃ rest,
      (r.updateImages fs imageNames).state.calls = r.calls ++ Call.deviceWaitIdle :: rest) ∧
    (∀ shaderNames vertOk fragOk, ∃ rest,
      (r.updateShaders shaderNames vertOk fragOk).state.calls
        = r.calls ++ Call.deviceWaitIdle :: rest) := by
  refine ⟨?_, ?_, ?_, ?_⟩
  · intro surf
    obtain ⟨a, ha⟩ := createSwapchain_grows (r.emit [Call.deviceWaitIdle]).destroySwapchain surf
    refine ⟨[Call.destroySemaphore r.swapchain.swapchainImageSemaphore] ++
      r.swapchain.imageViews.map Call.destroyImageView ++
      [Call.destroySwapchain r.swapchain.swapchain, Call.destroySurface r.swapchain.surface]
      ++ a, ?_⟩
    unfold Renderer.resizeWindow
    rw [ha]
    simp [Renderer.destroySwapchain, Renderer.emit]
  · have h := andThen_grows
      (r.emit ([Call.deviceWaitIdle] ++ r.m_framebuffers.map Call.destroyFramebuffer ++
        [Call.destroyPipelineLayout r.m_pipelineLayout,
         Call.destroyPipeline r.m_graphicsPipeline])).createGraphicsPipeline
      (fun _ r1 => Run.done () r1.createFramebuffers) (r.calls ++ [Call.deviceWaitIdle])
      (by
        obtain ⟨a, ha⟩ := createGraphicsPipeline_grows
          (r.emit ([Call.deviceWaitIdle] ++ r.m_framebuffers.map Call.destroyFramebuffer ++
            [Call.destroyPipelineLayout r.m_pipelineLayout,
             Call.destroyPipeline r.m_graphicsPipeline]))
        refine ⟨r.m_framebuffers.map Call.destroyFramebuffer ++
          [Call.destroyPipelineLayout r.m_pipelineLayout,
           Call.destroyPipeline r.m_graphicsPipeline] ++ a, ?_⟩
        rw [ha]
        simp [Renderer.emit])
      (fun _ s => ⟨_, rfl⟩)
    obtain ⟨a, ha⟩ := h
    refine ⟨a, ?_⟩
    unfold Renderer.resizeFramebuffer
    rw [ha, List.append_assoc, List.singleton_append]
  · intro fs imageNames
    have h := andThen_grows ((r.emit [Call.deviceWaitIdle]).reloadNames fs imageNames)
      (fun _ r1 => r1.createDescriptorsImage) (r.calls ++ [Call.deviceWaitIdle])
      (by
        obtain ⟨⟨a, ha, _⟩, _, _⟩ :=
          reloadNames_reloadStep fs imageNames (r.emit [Call.deviceWaitIdle])
        exact ⟨a, ha⟩)
      (fun _ s => createDescriptorsImage_grows s)
    obtain ⟨a, ha⟩ := h
    refine ⟨a, ?_⟩
    unfold Renderer.updateImages
    rw [ha, List.append_assoc, List.singleton_append]
  · intro shaderNames vertOk fragOk
    have h := andThen_grows ((r.emit [Call.deviceWaitIdle]).createShaders true vertOk fragOk)
      (fun valid r1 =>
        if valid = true then
          (r1.emit [Call.destroyPipelineLayout r1.m_pipelineLayout,
                    Call.destroyPipeline r1.m_graphicsPipeline]).createGraphicsPipeline
        else Run.done () r1) (r.calls ++ [Call.deviceWaitIdle])
      (createShaders_grows _ _ _ _)
      (by
        intro v s
        beta_reduce
        split_ifs
        · obtain ⟨a, ha⟩ := createGraphicsPipeline_grows
            (s.emit [Call.destroyPipelineLayout s.m_pipelineLayout,
                    Call.destroyPipeline s.m_graphicsPipeline])
          refine ⟨[Call.destroyPipelineLayout s.m_pipelineLayout,
            Call.destroyPipeline s.m_graphicsPipeline] ++ a, ?_⟩
          rw [ha]
          simp [Renderer.emit]
        · exact ⟨[], (List.append_nil _).symm⟩)
    obtain ⟨a, ha⟩ := h
    refine ⟨a, ?_⟩
    unfold Renderer.updateShaders
    rw [ha, List.append_assoc, List.singleton_append]

/-- A completed `mapM` has as many results as inputs. -/
theorem mapM_length {α β : Type} (f : α → Option β) (l : List α) (bs : List β)
    (h : l.mapM f = some bs) : bs.length = l.length := by
  induction l generalizing bs with
  | nil =>
    rw [List.mapM_nil] at h
    have hbs : [] = bs := Option.some.inj h
    subst hbs
    rfl
  | cons x l ih =>
    rw [List.mapM_cons] at h
    cases hx : f x with
    | none =>
      rw [hx] at h
      cases h
    | some y =>
      cases hl : l.mapM f with
      | none =>
        rw [hx, hl] at h
        cases h
      | some ys =>
        rw [hx, hl] at h
        have hbs : y :: ys = bs := Option.some.inj h
        subst hbs
        simp only [List.length_cons, ih ys hl]

/-- The peak is at least the number of sets held at the start. -/
theorem peakLiveSets_ge (live : List Nat) (cs : List Call) :
    live.length ≤ peakLiveSets live cs := by
  cases cs with
  | nil => exact Nat.le_refl _
  | cons c cs => exact Nat.le_max_left _ _

/-- Calls that neither allocate nor free a set do not change the peak. -/
theorem peakLiveSets_skip (live : List Nat) (cs rest : List Call)
    (h : ∀ c ∈ cs, c.touchesDescriptorPool = false) :
    peakLiveSets live (cs ++ rest) = peakLiveSets live rest := by
  induction cs with
  | nil => rfl
  | cons c cs ih =>
    have hc := h c (List.mem_cons_self _ _)
    have hstep : liveSetsStep live c = live := by
      cases c <;> first | rfl | exact absurd hc (by simp [Call.touchesDescriptorPool])
    rw [List.cons_append]
    show max live.length (peakLiveSets (liveSetsStep live c) (cs ++ rest)) = _
    rw [hstep, ih (fun x hx => h x (List.mem_cons_of_mem _ hx))]
    exact Nat.max_eq_right (peakLiveSets_ge live rest)

/-- C18. When `updateImages` completes on a renderer whose image descriptor
set is `old`, the calls it added are: the idle wait, the reload calls (none
of which allocates or frees a descriptor set), the destructor calls of `old`
(layout destroyed, set freed), then the creation of a new layout, the
allocation of a new set, and one `vkUpdateDescriptorSets` on the new set with
one (sampler, image view) entry per slot, entry `i` being that of the image
slot `i` holds on return. The new set is the renderer's image descriptor
set, and the image pool never holds more than `c_maxSetsImage = 1` set. -/
theorem updateImages_rebuilds_descriptors (r r1 : Renderer) (fs : String → Option StbImage)
    (imageNames : List String) (old : DescriptorSet)
    (hold : r.m_descriptorSetImage = some old)
    (hdone : r.updateImages fs imageNames = .done () r1) :
    ∃ reloads newSet infos,
      r1.calls = r.calls ++ (Call.deviceWaitIdle :: reloads) ++ old.destroyCalls ++
        [Call.createDescriptorSetLayout newSet.descriptorSetLayout,
         Call.allocateDescriptorSets newSet.descriptorSet,
         Call.updateDescriptorSets newSet.descriptorSet infos] ∧
      (∀ c ∈ reloads, c.touchesDescriptorPool = false) ∧
      r1.m_descriptorSetImage = some newSet ∧
      infos.length = r1.m_imageSet.images.length ∧
      (∀ i, i < r1.m_imageSet.images.length → ∃ img,
        r1.m_imageSet.images[i]? = some (some img) ∧
        infos[i]? = some (img.sampler, img.imageView)) ∧
      c_maxSetsImage = 1 ∧
      peakLiveSets (if old.descriptorSet ≠ 0 then [old.descriptorSet] else [])
        (r1.calls.drop r.calls.length) ≤ c_maxSetsImage := by
  unfold Renderer.updateImages at hdone
  have hstep := reloadNames_reloadStep fs imageNames (r.emit [Call.deviceWaitIdle])
  cases hrun : (r.emit [Call.deviceWaitIdle]).reloadNames fs imageNames with
  | aborted s =>
    rw [hrun] at hdone
    cases hdone
  | done v rm =>
    rw [hrun] at hdone hstep
    obtain ⟨⟨reloads, hcalls, hpool⟩, hset, _⟩ := hstep
    have hcalls1 : rm.calls = r.calls ++ [Call.deviceWaitIdle] ++ reloads := hcalls
    have hset1 : rm.m_descriptorSetImage = some old := hset.trans hold
    simp only [Run.andThen, Renderer.createDescriptorsImage, Renderer.emit, hset1] at hdone
    cases hm : rm.m_imageSet.images.mapM
        (fun o => o.map (fun img : GpuImage => (img.sampler, img.imageView))) with
    | none =>
      rw [hm] at hdone
      cases hdone
    | some infos =>
      rw [hm] at hdone
      simp only [Run.done.injEq, true_and] at hdone
      subst hdone
      have hlog : rm.calls ++
          (old.destroyCalls ++
            [Call.createDescriptorSetLayout rm.nextHandle,
             Call.allocateDescriptorSets (rm.nextHandle + 1)]) ++
          [Call.updateDescriptorSets (rm.nextHandle + 1) infos]
          = r.calls ++ (Call.deviceWaitIdle :: reloads) ++ old.destroyCalls ++
            [Call.createDescriptorSetLayout rm.nextHandle,
             Call.allocateDescriptorSets (rm.nextHandle + 1),
             Call.updateDescriptorSets (rm.nextHandle + 1) infos] := by
        rw [hcalls1]
        simp
      refine ⟨reloads,
        { descriptorSetLayout := rm.nextHandle, descriptorSet := rm.nextHandle + 1 }, infos,
        hlog, hpool, rfl, mapM_length _ _ _ hm, ?_, rfl, ?_⟩
      · intro i hi
        have hget : rm.m_imageSet.images[i]? = some (rm.m_imageSet.images.get ⟨i, hi⟩) :=
          List.getElem?_eq_getElem hi
        obtain ⟨b, hb, hbs⟩ := mapM_getElem _ _ _ hm i _ hget
        cases hslot : rm.m_imageSet.images.get ⟨i, hi⟩ with
        | none =>
          rw [hslot] at hb
          cases hb
        | some img =>
          rw [hslot] at hb hget
          refine ⟨img, hget, ?_⟩
          rw [hbs, ← hb]
          rfl
      · show peakLiveSets _ ((rm.calls ++
          (old.destroyCalls ++
            [Call.createDescriptorSetLayout rm.nextHandle,
             Call.allocateDescriptorSets (rm.nextHandle + 1)]) ++
          [Call.updateDescriptorSets (rm.nextHandle + 1) infos]).drop r.calls.length) ≤ _
        have hpool1 : ∀ c ∈ Call.deviceWaitIdle :: reloads, c.touchesDescriptorPool = false := by
          intro c hc
          rcases List.mem_cons.mp hc with h | h
          · subst h
            rfl
          · exact hpool c h
        rw [hlog, List.append_assoc, List.append_assoc, List.drop_left,
          peakLiveSets_skip _ _ _ hpool1]
        by_cases h0 : old.descriptorSet = 0
        · simp [h0, DescriptorSet.destroyCalls, peakLiveSets, liveSetsStep, c_maxSetsImage]
        · simp [h0, DescriptorSet.destroyCalls, peakLiveSets, liveSetsStep, c_maxSetsImage]

/-- Witness for C18: the change set `["channel0.png"]` on `settledRenderer`,
whose image descriptor set is 62 with layout 63. The log shows the reload of
slot 0, the release of set 62, and the new set 205 written with the handles
of the new image of slot 0 and of the three images kept. -/
theorem updateImages_rebuilds_descriptors_witness :
    settledRenderer.m_descriptorSetImage
      = some { descriptorSet := 62, descriptorSetLayout := 63 } ∧
    (settledRenderer.updateImages sampleFiles ["channel0.png"]).state.calls
      = [Call.deviceWaitIdle, Call.createBuffer 200, Call.destroyBuffer 100,
         Call.createImage 201, Call.createImageView 202, Call.createSampler 203,
         Call.destroyImage 101, Call.destroyImageView 102, Call.destroySampler 103,
         Call.destroyDescriptorSetLayout 63, Call.freeDescriptorSets 62,
         Call.createDescriptorSetLayout 204, Call.allocateDescriptorSets 205,
         Call.updateDescriptorSets 205 [(203, 202), (113, 112), (123, 122), (133, 132)]] ∧
    ∃ reloads newSet infos,
      (settledRenderer.updateImages sampleFiles ["channel0.png"]).state.calls
        = settledRenderer.calls ++ (Call.deviceWaitIdle :: reloads) ++
          DescriptorSet.destroyCalls { descriptorSet := 62, descriptorSetLayout := 63 } ++
          [Call.createDescriptorSetLayout newSet.descriptorSetLayout,
           Call.allocateDescriptorSets newSet.descriptorSet,
           Call.updateDescriptorSets newSet.descriptorSet infos] ∧
      (∀ c ∈ reloads, c.touchesDescriptorPool = false) ∧
      (settledRenderer.updateImages sampleFiles ["channel0.png"]).state.m_descriptorSetImage
        = some newSet ∧
      infos.length
        = (settledRenderer.updateImages sampleFiles
            ["channel0.png"]).state.m_imageSet.images.length ∧
      (∀ i, i < (settledRenderer.updateImages sampleFiles
            ["channel0.png"]).state.m_imageSet.images.length → ∃ img,
        (settledRenderer.updateImages sampleFiles
            ["channel0.png"]).state.m_imageSet.images[i]? = some (some img) ∧
        infos[i]? = some (img.sampler, img.imageView)) ∧
      c_maxSetsImage = 1 ∧
      peakLiveSets
        (if (62 : Nat) ≠ 0 then [62] else [])
        ((settledRenderer.updateImages sampleFiles ["channel0.png"]).state.calls.drop
          settledRenderer.calls.length) ≤ c_maxSetsImage :=
  ⟨rfl, by decide,
    updateImages_rebuilds_descriptors settledRenderer
      (settledRenderer.updateImages sampleFiles ["channel0.png"]).state sampleFiles
      ["channel0.png"] { descriptorSet := 62, descriptorSetLayout := 63 } rfl rfl⟩

/-! ## The swapchain cursor -/

/-- `createSwapchain` never assigns `imageIndex`; when it completes, the
image count and the number of views are what the driver reported, the extent
is the window size, and only the swapchain, the handle counter and the log
have changed. -/
theorem createSwapchain_state (r : Renderer) (surf : SurfaceEnv) :
    (r.createSwapchain surf).state.swapchain.imageIndex = r.swapchain.imageIndex ∧
    ((r.createSwapchain surf).completed = true →
      (r.createSwapchain surf).state.swapchain.imageCount = surf.swapchainImageCount ∧
      (r.createSwapchain surf).state.swapchain.imageViews.length = surf.swapchainImageCount ∧
      (r.createSwapchain surf).state.swapchain.imageExtent = (r.window.width, r.window.height) ∧
      (r.createSwapchain surf).state =
        { r with swapchain := (r.createSwapchain surf).state.swapchain
                 nextHandle := (r.createSwapchain surf).state.nextHandle
                 calls := (r.createSwapchain surf).state.calls }) := by
  unfold Renderer.createSwapchain
  split_ifs <;> simp [Run.state, Run.completed, Renderer.emit]

/-- C17 (the claim does not hold as stated). On a swapchain of four images a
frame acquires image 3, so the cursor is 3; `resizeWindow` then rebuilds the
swapchain, the driver reports three images, and the cursor is still 3: it is
not less than the number of images. -/
theorem resizeWindow_keeps_stale_imageIndex :
    (fourImageRenderer.render (frameEnv 3 7)).completed = true ∧
    (fourImageRenderer.render (frameEnv 3 7)).state.swapchain.imageIndex = 3 ∧
    (fourImageRenderer.render (frameEnv 3 7)).state.swapchain.imageCount = 4 ∧
    ((fourImageRenderer.render (frameEnv 3 7)).state.resizeWindow sampleSurface).completed
      = true ∧
    ((fourImageRenderer.render (frameEnv 3 7)).state.resizeWindow
      sampleSurface).state.swapchain.imageCount = 3 ∧
    ((fourImageRenderer.render (frameEnv 3 7)).state.resizeWindow
      sampleSurface).state.swapchain.imageViews.length = 3 ∧
    ((fourImageRenderer.render (frameEnv 3 7)).state.resizeWindow
      sampleSurface).state.swapchain.imageIndex = 3 := by
  decide

/-- C17 (amended). After a `render` that completes, the cursor `imageIndex`
is the index the acquire returned and is less than the number of swapchain
images, which `render` does not change. `resizeWindow`, whatever its
outcome, leaves the cursor as it was; when it completes, the number of
images and of image views is the one the driver reported for the new
swapchain. -/
theorem render_bounds_imageIndex (r : Renderer) (env : FrameEnv) (surf : SurfaceEnv)
    (h : (r.render env).completed = true) :
    (r.render env).state.swapchain.imageIndex = env.acquiredImageIndex ∧
    (r.render env).state.swapchain.imageIndex < (r.render env).state.swapchain.imageCount ∧
    (r.render env).state.swapchain.imageCount = r.swapchain.imageCount ∧
    ((r.render env).state.resizeWindow surf).state.swapchain.imageIndex
      = (r.render env).state.swapchain.imageIndex ∧
    (((r.render env).state.resizeWindow surf).completed = true →
      ((r.render env).state.resizeWindow surf).state.swapchain.imageCount
        = surf.swapchainImageCount ∧
      ((r.render env).state.resizeWindow surf).state.swapchain.imageViews.length
        = surf.swapchainImageCount) := by
  obtain ⟨_, _, _, hacq, hsw, _⟩ := render_completed r env h
  have hcs := createSwapchain_state
    ((r.render env).state.emit [Call.deviceWaitIdle]).destroySwapchain surf
  refine ⟨by rw [hsw], by rw [hsw]; exact hacq, by rw [hsw], hcs.1, ?_⟩
  intro hdone
  exact ⟨(hcs.2 hdone).1, (hcs.2 hdone).2.1⟩

/-- Witness for C17 (amended): the first frame of `bootRenderer` acquires
image 1 of 3; a resize afterwards keeps the cursor at 1. -/
theorem render_bounds_imageIndex_witness :
    (bootRenderer.render (frameEnv 1 7)).completed = true ∧
    (bootRenderer.render (frameEnv 1 7)).state.swapchain.imageIndex = 1 ∧
    (bootRenderer.render (frameEnv 1 7)).state.swapchain.imageIndex
      < (bootRenderer.render (frameEnv 1 7)).state.swapchain.imageCount ∧
    ((bootRenderer.render (frameEnv 1 7)).state.resizeWindow
      sampleSurface).state.swapchain.imageIndex = 1 :=
  ⟨by decide,
    (render_bounds_imageIndex bootRenderer (frameEnv 1 7) sampleSurface (by decide)).1,
    (render_bounds_imageIndex bootRenderer (frameEnv 1 7) sampleSurface (by decide)).2.1,
    by decide⟩

/-! ## Sizes at each frame -/

/-- When `Window::update` leaves `m_resized` clear, the stored size is the
one from before the call. -/
theorem update_unresized (w : Window) (message : Option (Option (Nat × Nat)))
    (h : (w.update message).m_resized = false) :
    (w.update message).width = w.width ∧ (w.update message).height = w.height := by
  cases message with
  | none => exact ⟨rfl, rfl⟩
  | some clientRect =>
    cases clientRect with
    | none => exact ⟨rfl, rfl⟩
    | some size =>
      obtain ⟨width, height⟩ := size
      by_cases hne : w.width ≠ width ∨ w.height ≠ height
      · simp [Window.update, Window.checkForResize, hne] at h
      · simp [Window.update, Window.checkForResize, hne]

/-- A completed `resizeWindow` leaves a swapchain whose extent is the window
size and changes nothing but the swapchain, the handle counter and the
log. -/
theorem resizeWindow_done (r r1 : Renderer) (surf : SurfaceEnv)
    (h : r.resizeWindow surf = .done () r1) :
    r1.swapchain.imageExtent = (r.window.width, r.window.height) ∧
    r1 = { r with swapchain := r1.swapchain, nextHandle := r1.nextHandle, calls := r1.calls } := by
  have hcs := createSwapchain_state (r.emit [Call.deviceWaitIdle]).destroySwapchain surf
  unfold Renderer.resizeWindow at h
  rw [h] at hcs
  obtain ⟨_, _, hext, hst⟩ := hcs.2 rfl
  exact ⟨hext, hst⟩

/-- A completed `resizeFramebuffer` leaves one framebuffer per swapchain
image view, each of the window size, and a pipeline whose viewport and
scissor are the window size; window and swapchain are untouched. -/
theorem resizeFramebuffer_done (r r1 : Renderer) (h : r.resizeFramebuffer = .done () r1) :
    r1.window = r.window ∧ r1.swapchain = r.swapchain ∧
    r1.framebufferExtents.length = r1.m_framebuffers.length ∧
    (∀ e ∈ r1.framebufferExtents, e = (r.window.width, r.window.height)) ∧
    r1.pipelineExtent = (r.window.width, r.window.height) := by
  unfold Renderer.resizeFramebuffer Renderer.createGraphicsPipeline at h
  simp only [Renderer.emit] at h
  split at h
  · simp only [Run.andThen, Renderer.createFramebuffers, Renderer.emit, Run.done.injEq,
      true_and] at h
    subst h
    refine ⟨rfl, rfl, by simp, ?_, rfl⟩
    intro e he
    simp only [List.mem_map] at he
    obtain ⟨_, _, he⟩ := he
    exact he.symm
  · cases h

/-- A completed `createDescriptorsImage` keeps window, swapchain,
framebuffers and recorded sizes. -/
theorem createDescriptorsImage_sameFrame (r r1 : Renderer)
    (h : r.createDescriptorsImage = .done () r1) : r.sameFrame r1 := by
  unfold Renderer.createDescriptorsImage at h
  simp only [Renderer.emit] at h
  split at h
  · simp only [Run.done.injEq, true_and] at h
    subst h
    exact ⟨rfl, rfl, rfl, rfl, rfl⟩
  · cases h

/-- A completed `updateImages` keeps window, swapchain, framebuffers and
recorded sizes. -/
theorem updateImages_sameFrame (r r1 : Renderer) (fs : String → Option StbImage)
    (imageNames : List String) (h : r.updateImages fs imageNames = .done () r1) :
    r.sameFrame r1 := by
  unfold Renderer.updateImages at h
  have hstep := reloadNames_reloadStep fs imageNames (r.emit [Call.deviceWaitIdle])
  cases hrun : (r.emit [Call.deviceWaitIdle]).reloadNames fs imageNames with
  | aborted s =>
    rw [hrun] at h
    cases h
  | done v rm =>
    rw [hrun] at h hstep
    obtain ⟨_, _, a1, a2, a3, a4, a5⟩ := hstep
    obtain ⟨b1, b2, b3, b4, b5⟩ := createDescriptorsImage_sameFrame rm r1 h
    exact ⟨b1.trans a1, b2.trans a2, b3.trans a3, b4.trans a4, b5.trans a5⟩

/-- A completed `createShaders(true)` keeps window, swapchain, framebuffers
and recorded sizes. -/
theorem createShaders_sameFrame (r r1 : Renderer) (vertOk fragOk valid : Bool)
    (h : r.createShaders true vertOk fragOk = .done valid r1) : r.sameFrame r1 := by
  unfold Renderer.createShaders Renderer.newShader at h
  simp only [if_true, Run.andThen] at h
  cases vertOk <;> cases fragOk <;>
    simp only [Renderer.createShaderModuleFromGlsl, Renderer.emit, if_true, if_false,
      Bool.false_eq_true] at h <;>
    split_ifs at h <;>
    (injection h with _ hs
     subst hs
     exact ⟨rfl, rfl, rfl, rfl, rfl⟩)

/-- A completed `updateShaders` keeps window, swapchain and framebuffers; the
pipeline's viewport and scissor are the old ones or, when the pipeline was
rebuilt, the window size. -/
theorem updateShaders_frame (r r1 : Renderer) (shaderNames : List String)
    (vertOk fragOk : Bool) (h : r.updateShaders shaderNames vertOk fragOk = .done () r1) :
    r1.window = r.window ∧ r1.swapchain = r.swapchain ∧
    r1.m_framebuffers = r.m_framebuffers ∧ r1.framebufferExtents = r.framebufferExtents ∧
    (r1.pipelineExtent = r.pipelineExtent ∨
      r1.pipelineExtent = (r.window.width, r.window.height)) := by
  unfold Renderer.updateShaders at h
  cases hc : (r.emit [Call.deviceWaitIdle]).createShaders true vertOk fragOk with
  | aborted s =>
    rw [hc] at h
    cases h
  | done valid rm =>
    rw [hc] at h
    obtain ⟨a1, a2, a3, a4, a5⟩ := createShaders_sameFrame _ rm vertOk fragOk valid hc
    have a1r : rm.window = r.window := a1
    have a2r : rm.swapchain = r.swapchain := a2
    have a3r : rm.m_framebuffers = r.m_framebuffers := a3
    have a4r : rm.framebufferExtents = r.framebufferExtents := a4
    have a5r : rm.pipelineExtent = r.pipelineExtent := a5
    cases valid with
    | false =>
      simp only [Run.andThen, Bool.false_eq_true, if_false, Run.done.injEq, true_and] at h
      subst h
      exact ⟨a1r, a2r, a3r, a4r, Or.inl a5r⟩
    | true =>
      simp only [Run.andThen, if_true, Renderer.createGraphicsPipeline, Renderer.emit] at h
      split at h
      · simp only [Run.done.injEq, true_and] at h
        subst h
        refine ⟨a1r, a2r, a3r, a4r, Or.inr ?_⟩
        show (rm.window.width, rm.window.height) = _
        rw [a1r]
      · cases h

/-- A sequence that completed went through both of its parts. -/
theorem andThen_done {σ α β : Type} (x : Run σ α) (f : α → σ → Run σ β) (b : β) (s : σ)
    (h : x.andThen f = .done b s) : ∃ a s1, x = .done a s1 ∧ f a s1 = .done b s := by
  cases x with
  | aborted s0 => cases h
  | done a s1 => exact ⟨a, s1, rfl, h⟩

/-- Sizes that match keep matching when window, swapchain, framebuffers and
recorded sizes are kept. -/
theorem sizesMatch_of_sameFrame (r s : Renderer) (h : r.sameFrame s) (hm : r.sizesMatch) :
    s.sizesMatch := by
  obtain ⟨a1, a2, a3, a4, a5⟩ := h
  obtain ⟨m1, m2, m3, m4⟩ := hm
  unfold Renderer.sizesMatch
  rw [a1, a2, a3, a4, a5]
  exact ⟨m1, m2, m3, m4⟩

/-- The resize cascade of `Engine::run` (`resizeWindow`, `resizeFramebuffer`,
`resizeHandled`), when it completes, leaves every size equal to the window
size, which it does not change. -/
theorem resizeCascade_sizes (r1 r4 : Renderer) (surf : SurfaceEnv)
    (h : ((r1.resizeWindow surf).andThen fun _ r2 =>
        r2.resizeFramebuffer.andThen fun _ r3 =>
          Run.done () { r3 with window := r3.window.resizeHandled }) = .done () r4) :
    r4.sizesMatch ∧ r4.window.width = r1.window.width ∧
    r4.window.height = r1.window.height := by
  cases hrw : r1.resizeWindow surf with
  | aborted s =>
    rw [hrw] at h
    cases h
  | done v r2 =>
    rw [hrw] at h
    obtain ⟨hext, hst⟩ := resizeWindow_done r1 r2 surf hrw
    have hwin : r2.window = r1.window := by rw [hst]
    cases hrf : r2.resizeFramebuffer with
    | aborted s =>
      simp only [Run.andThen, hrf] at h
      cases h
    | done v3 r3 =>
      simp only [Run.andThen, hrf, Run.done.injEq, true_and] at h
      obtain ⟨b1, b2, b3, b4, b5⟩ := resizeFramebuffer_done r2 r3 hrf
      subst h
      rw [hwin] at b4 b5
      have hw : r3.window.width = r1.window.width := by rw [b1, hwin]
      have hh : r3.window.height = r1.window.height := by rw [b1, hwin]
      refine ⟨⟨?_, ?_, b3, ?_⟩, hw, hh⟩
      · show r3.swapchain.imageExtent = (r3.window.width, r3.window.height)
        rw [hw, hh, b2]
        exact hext
      · show ∀ e ∈ r3.framebufferExtents, e = (r3.window.width, r3.window.height)
        rw [hw, hh]
        exact b4
      · show r3.pipelineExtent = (r3.window.width, r3.window.height)
        rw [hw, hh]
        exact b5

/-- From a state whose sizes match, the part of the loop body that precedes
`render`, when it completes, leaves a state whose sizes match, and the window
size is the one `Window::update` stored. -/
theorem prepareFrame_sizes (r r2 : Renderer) (env : LoopEnv) (h0 : r.sizesMatch)
    (h : Engine.prepareFrame r env = .done () r2) :
    r2.sizesMatch ∧ r2.window.width = (r.window.update env.message).width ∧
    r2.window.height = (r.window.update env.message).height := by
  unfold Engine.prepareFrame at h
  -- the resize cascade, or nothing
  have hA : ∀ r4 : Renderer,
      (if ({ r with window := r.window.update env.message } : Renderer).window.m_resized = true
        then
          (({ r with window := r.window.update env.message } : Renderer).resizeWindow
            env.surface).andThen fun _ r2 =>
            r2.resizeFramebuffer.andThen fun _ r3 =>
              Run.done () { r3 with window := r3.window.resizeHandled }
        else Run.done () { r with window := r.window.update env.message }) = .done () r4 →
      r4.sizesMatch ∧ r4.window.width = (r.window.update env.message).width ∧
      r4.window.height = (r.window.update env.message).height := by
    intro r4 h4
    split_ifs at h4 with hres
    · exact resizeCascade_sizes _ r4 env.surface h4
    · simp only [Run.done.injEq, true_and] at h4
      subst h4
      have hu := update_unresized r.window env.message (by simpa using hres)
      obtain ⟨m1, m2, m3, m4⟩ := h0
      refine ⟨⟨?_, ?_, m3, ?_⟩, rfl, rfl⟩
      · show r.swapchain.imageExtent = ((r.window.update env.message).width,
          (r.window.update env.message).height)
        rw [hu.1, hu.2]
        exact m1
      · show ∀ e ∈ r.framebufferExtents, e = ((r.window.update env.message).width,
          (r.window.update env.message).height)
        rw [hu.1, hu.2]
        exact m2
      · show r.pipelineExtent = ((r.window.update env.message).width,
          (r.window.update env.message).height)
        rw [hu.1, hu.2]
        exact m4
  -- the image reload, or nothing
  have hB : ∀ r4 r5 : Renderer,
      (if env.changedImages ≠ [] then r4.updateImages env.files env.changedImages
        else Run.done () r4) = .done () r5 → r4.sameFrame r5 := by
    intro r4 r5 h5
    split_ifs at h5
    · exact updateImages_sameFrame r4 r5 _ _ h5
    · simp only [Run.done.injEq, true_and] at h5
      subst h5
      exact ⟨rfl, rfl, rfl, rfl, rfl⟩
  -- the shader reload, or nothing
  have hC : ∀ r5 r6 : Renderer, r5.sizesMatch →
      (if env.changedShaders ≠ [] then
          r5.updateShaders env.changedShaders env.vertOk env.fragOk
        else Run.done () r5) = .done () r6 →
      r6.sizesMatch ∧ r6.window = r5.window := by
    intro r5 r6 hm h6
    split_ifs at h6
    · obtain ⟨c1, c2, c3, c4, c5⟩ := updateShaders_frame r5 r6 _ _ _ h6
      obtain ⟨m1, m2, m3, m4⟩ := hm
      refine ⟨?_, c1⟩
      unfold Renderer.sizesMatch
      rw [c1, c2, c3, c4]
      refine ⟨m1, m2, m3, ?_⟩
      rcases c5 with c5 | c5
      · rw [c5]
        exact m4
      · exact c5
    · simp only [Run.done.injEq, true_and] at h6
      subst h6
      exact ⟨hm, rfl⟩
  obtain ⟨_, r4, hX, h1⟩ := andThen_done _ _ _ _ h
  obtain ⟨_, r5, hY, h2⟩ := andThen_done _ _ _ _ h1
  obtain ⟨s4, w4, h4⟩ := hA r4 hX
  have hf5 := hB r4 r5 hY
  have s5 := sizesMatch_of_sameFrame r4 r5 hf5 s4
  obtain ⟨s6, w6⟩ := hC r5 r2 s5 h2
  refine ⟨s6, ?_, ?_⟩
  · rw [w6, hf5.1]
    exact w4
  · rw [w6, hf5.1]
    exact h4

/-- A `render` that completed, in terms of its final state. -/
theorem render_done_sizes (r r1 : Renderer) (env : FrameEnv) (h : r.render env = .done () r1)
    (hm : r.sizesMatch) : r1.sizesMatch := by
  have hc : (r.render env).completed = true := by rw [h]; rfl
  obtain ⟨_, _, _, _, hsw, hwin, hfb, hfe, hpe, _⟩ := render_completed r env hc
  rw [h] at hsw hwin hfb hfe hpe
  have hsw1 : r1.swapchain = { r.swapchain with imageIndex := env.acquiredImageIndex } := hsw
  have hwin1 : r1.window = r.window := hwin
  have hfb1 : r1.m_framebuffers = r.m_framebuffers := hfb
  have hfe1 : r1.framebufferExtents = r.framebufferExtents := hfe
  have hpe1 : r1.pipelineExtent = r.pipelineExtent := hpe
  obtain ⟨m1, m2, m3, m4⟩ := hm
  unfold Renderer.sizesMatch
  rw [hsw1, hwin1, hfb1, hfe1, hpe1]
  exact ⟨m1, m2, m3, m4⟩

/-- Every state that the loop of `Engine::run` reaches after a completed
iteration has matching sizes, when the state it started from has. -/
theorem run_sizes (envs : List LoopEnv) (r r1 : Renderer) (h0 : r.sizesMatch)
    (h : Engine.run r envs = .done () r1) : r1.sizesMatch := by
  induction envs generalizing r with
  | nil =>
    simp only [Engine.run, Run.done.injEq, true_and] at h
    subst h
    exact h0
  | cons env envs ih =>
    simp only [Engine.run] at h
    obtain ⟨_, s1, hit, hrest⟩ := andThen_done _ _ _ _ h
    unfold Engine.runIteration at hit
    obtain ⟨_, r2, hprep, hrender⟩ := andThen_done _ _ _ _ hit
    have h2 := (prepareFrame_sizes r r2 env h0 hprep).1
    exact ih s1 (render_done_sizes r2 s1 env.frame hrender h2) hrest

/-- C15. Start `Engine::run` in a state whose sizes match (as the
constructors leave it). After any number of completed iterations, at the
`render` call of the next iteration (state `r2`, reached when the part of
the loop body before `render` completes): the window size is the one
`Window::update` stored in this iteration; the swapchain extent, the size of
every framebuffer and the pipeline's viewport and scissor equal it; and when
this `render` completes, the one render pass it begins has it as render
area. -/
theorem run_renders_at_window_size (r r1 r2 : Renderer) (envs : List LoopEnv) (env : LoopEnv)
    (h0 : r.sizesMatch) (hrun : Engine.run r envs = .done () r1)
    (hprep : Engine.prepareFrame r1 env = .done () r2) :
    r2.window.width = (r1.window.update env.message).width ∧
    r2.window.height = (r1.window.update env.message).height ∧
    r2.swapchain.imageExtent = (r2.window.width, r2.window.height) ∧
    (∀ e ∈ r2.framebufferExtents, e = (r2.window.width, r2.window.height)) ∧
    r2.framebufferExtents.length = r2.m_framebuffers.length ∧
    r2.pipelineExtent = (r2.window.width, r2.window.height) ∧
    ((r2.render env.frame).completed = true →
      renderAreas ((r2.render env.frame).state.calls.drop r2.calls.length)
        = [(r2.window.width, r2.window.height)]) := by
  have h1 := run_sizes envs r r1 h0 hrun
  obtain ⟨⟨m1, m2, m3, m4⟩, hw, hh⟩ := prepareFrame_sizes r1 r2 env h1 hprep
  refine ⟨hw, hh, m1, m2, m3, m4, ?_⟩
  intro hc
  exact (render_completed r2 env.frame hc).2.2.2.2.2.2.2.2.2.1

/-- Witness for C15: `bootRenderer` (1280x720) renders one frame, then the
window reports 1920x1080. At the `render` call of that iteration the
swapchain extent, the three framebuffers and the pipeline are 1920x1080, no
present has been issued since the resize was seen, and the frame's render
area is 1920x1080. -/
theorem run_renders_at_window_size_witness :
    bootRenderer.sizesMatch ∧
    (Engine.run bootRenderer [quietEnv 0]).completed = true ∧
    (Engine.prepareFrame (Engine.run bootRenderer [quietEnv 0]).state resizeEnv).completed
      = true ∧
    (Engine.run bootRenderer [quietEnv 0]).state.swapchain.imageExtent = (1280, 720) ∧
    (Engine.prepareFrame (Engine.run bootRenderer [quietEnv 0]).state
      resizeEnv).state.swapchain.imageExtent = (1920, 1080) ∧
    (Engine.prepareFrame (Engine.run bootRenderer [quietEnv 0]).state
      resizeEnv).state.framebufferExtents = [(1920, 1080), (1920, 1080), (1920, 1080)] ∧
    (Engine.prepareFrame (Engine.run bootRenderer [quietEnv 0]).state
      resizeEnv).state.pipelineExtent = (1920, 1080) ∧
    ((Engine.prepareFrame (Engine.run bootRenderer [quietEnv 0]).state
      resizeEnv).state.calls.drop
        (Engine.run bootRenderer [quietEnv 0]).state.calls.length).all
      (fun c => match c with
        | .queuePresent _ _ => false
        | _ => true) = true ∧
    renderAreas ((Engine.runIteration (Engine.run bootRenderer [quietEnv 0]).state
      resizeEnv).state.calls.drop
        (Engine.run bootRenderer [quietEnv 0]).state.calls.length) = [(1920, 1080)] ∧
    (Engine.prepareFrame (Engine.run bootRenderer [quietEnv 0]).state
      resizeEnv).state.window.width
      = ((Engine.run bootRenderer [quietEnv 0]).state.window.update resizeEnv.message).width :=
  ⟨by decide, by decide, by decide, by decide, by decide, by decide, by decide, by decide,
    by decide,
    (run_renders_at_window_size bootRenderer (Engine.run bootRenderer [quietEnv 0]).state
      (Engine.prepareFrame (Engine.run bootRenderer [quietEnv 0]).state resizeEnv).state
      [quietEnv 0] resizeEnv (by decide) rfl rfl).1⟩

/-! ## Present mode and surface format -/

/-- The inner loop of `getPresentMode`: the first available mode equal to the
preferred one is that mode, and there is one exactly when the preferred mode
is available. -/
theorem find_equal_mode (p : Nat) (available : List Nat) :
    available.find? (fun a => p == a) = if p ∈ available then some p else none := by
  induction available with
  | nil => rfl
  | cons a available ih =>
    by_cases h : p = a
    · subst h
      simp
    · have h1 : (p == a) = false := by simpa using h
      rw [List.find?_cons, h1, ih]
      simp [h]

/-- `getPresentMode` returns the first preferred mode that is available, and
the default when there is none. -/
theorem getPresentMode_eq (preferred available : List Nat) (defaultVal : Nat) :
    getPresentMode preferred available defaultVal
      = (preferred.find? (fun p => decide (p ∈ available))).getD defaultVal := by
  induction preferred with
  | nil => rfl
  | cons p preferred ih =>
    simp only [getPresentMode, find_equal_mode, List.find?_cons]
    by_cases h : p ∈ available
    · simp [h]
    · simp [h, ih]

/-- C21. `getPresentMode` returns the first mode of the preferred list that
occurs in the available list, and the default when none occurs. With the
configured preferences and the default FIFO the result is FIFO if available,
else FIFO-relaxed if available, else mailbox if available, else FIFO; and
this is the present mode of every swapchain `createSwapchain` creates. -/
theorem getPresentMode_spec (preferred available : List Nat) (defaultVal : Nat) :
    getPresentMode preferred available defaultVal
      = (preferred.find? (fun p => decide (p ∈ available))).getD defaultVal ∧
    preferredPresentation = [VK_PRESENT_MODE_FIFO_KHR, VK_PRESENT_MODE_FIFO_RELAXED_KHR,
      VK_PRESENT_MODE_MAILBOX_KHR] ∧
    getPresentMode preferredPresentation available VK_PRESENT_MODE_FIFO_KHR
      = (if VK_PRESENT_MODE_FIFO_KHR ∈ available then VK_PRESENT_MODE_FIFO_KHR
         else if VK_PRESENT_MODE_FIFO_RELAXED_KHR ∈ available then
           VK_PRESENT_MODE_FIFO_RELAXED_KHR
         else if VK_PRESENT_MODE_MAILBOX_KHR ∈ available then VK_PRESENT_MODE_MAILBOX_KHR
         else VK_PRESENT_MODE_FIFO_KHR) ∧
    (∀ (r : Renderer) (surf : SurfaceEnv) h s m f cs w ht pm,
      Call.createSwapchain h s m f cs w ht pm ∈
        (r.createSwapchain surf).state.calls.drop r.calls.length →
      pm = getPresentMode preferredPresentation surf.presentModes VK_PRESENT_MODE_FIFO_KHR) := by
  refine ⟨getPresentMode_eq _ _ _, rfl, ?_, ?_⟩
  · rw [getPresentMode_eq]
    simp only [preferredPresentation, List.find?_cons, List.find?_nil]
    by_cases h1 : VK_PRESENT_MODE_FIFO_KHR ∈ available
    · simp [h1]
    · by_cases h2 : VK_PRESENT_MODE_FIFO_RELAXED_KHR ∈ available
      · simp [h1, h2]
      · by_cases h3 : VK_PRESENT_MODE_MAILBOX_KHR ∈ available
        · simp [h1, h2, h3]
        · simp [h1, h2, h3]
  · intro r surf h s m f cs w ht pm hmem
    unfold Renderer.createSwapchain at hmem
    simp only [Renderer.emit] at hmem
    split_ifs at hmem <;>
      simp [Run.state, List.drop_append_eq_append_drop, List.mem_map] at hmem
    all_goals exact hmem.2.2.2.2.2.2.2

/-- The inner loop of `getSurfaceFormat`: the first available entry with the
preferred format, if some entry has it. -/
theorem find_equal_format (p : Nat) (available : List (Nat × Nat)) :
    (available.find? (fun a => p == a.1)).map Prod.fst
      = if p ∈ available.map Prod.fst then some p else none := by
  induction available with
  | nil => rfl
  | cons a available ih =>
    by_cases h : p = a.1
    · simp [List.find?_cons, h]
    · have h1 : (p == a.1) = false := by simpa using h
      have hmem : p ∈ (a :: available).map Prod.fst ↔ p ∈ available.map Prod.fst := by
        rw [List.map_cons, List.mem_cons]
        exact ⟨fun hx => hx.resolve_left h, Or.inr⟩
      rw [List.find?_cons, h1, ih]
      by_cases hm : p ∈ available.map Prod.fst
      · rw [if_pos hm, if_pos (hmem.mpr hm)]
      · rw [if_neg hm, if_neg (fun hx => hm (hmem.mp hx))]

/-- `getSurfaceFormat` returns the first preferred format that some available
entry has, and the default when there is none. -/
theorem getSurfaceFormat_eq (preferred : List Nat) (available : List (Nat × Nat))
    (defaultVal : Nat) :
    getSurfaceFormat preferred available defaultVal
      = (preferred.find? (fun p => decide (p ∈ available.map Prod.fst))).getD defaultVal := by
  induction preferred with
  | nil => rfl
  | cons p preferred ih =>
    have hf := find_equal_format p available
    simp only [getSurfaceFormat, List.find?_cons]
    cases hfind : available.find? (fun a => p == a.1) with
    | none =>
      rw [hfind] at hf
      by_cases h : p ∈ available.map Prod.fst
      · rw [if_pos h] at hf
        cases hf
      · simp only [h, decide_False]
        exact ih
    | some a =>
      rw [hfind] at hf
      by_cases h : p ∈ available.map Prod.fst
      · rw [if_pos h] at hf
        simp only [h, decide_True, Option.getD_some]
        exact Option.some.inj hf
      · rw [if_neg h] at hf
        cases hf

/-- C22. When the presentation-support assert passes and the list of
available surface formats is not empty, the image format `createSwapchain`
stores is B8G8R8A8_SRGB if some available entry has that format, else
R8G8B8A8_SRGB if some available entry has that format, else the format of
the first available entry; and it is the format of the swapchain created. -/
theorem createSwapchain_selects_format (r : Renderer) (surf : SurfaceEnv)
    (hp : surf.hasPresentationSupport = true) (hf : 0 < surf.surfaceFormats.length) :
    (r.createSwapchain surf).state.swapchain.imageFormat
      = (if VK_FORMAT_B8G8R8A8_SRGB ∈ surf.surfaceFormats.map Prod.fst then
           VK_FORMAT_B8G8R8A8_SRGB
         else if VK_FORMAT_R8G8B8A8_SRGB ∈ surf.surfaceFormats.map Prod.fst then
           VK_FORMAT_R8G8B8A8_SRGB
         else (surf.surfaceFormats.getD 0 (0, 0)).1) ∧
    (∀ h s m f cs w ht pm,
      Call.createSwapchain h s m f cs w ht pm ∈
        (r.createSwapchain surf).state.calls.drop r.calls.length →
      f = (r.createSwapchain surf).state.swapchain.imageFormat) := by
  have hsel : (if getSurfaceFormat preferredSurfaceFormats surf.surfaceFormats
        VK_FORMAT_UNDEFINED = VK_FORMAT_UNDEFINED then (surf.surfaceFormats.getD 0 (0, 0)).1
      else getSurfaceFormat preferredSurfaceFormats surf.surfaceFormats VK_FORMAT_UNDEFINED)
      = (if VK_FORMAT_B8G8R8A8_SRGB ∈ surf.surfaceFormats.map Prod.fst then
           VK_FORMAT_B8G8R8A8_SRGB
         else if VK_FORMAT_R8G8B8A8_SRGB ∈ surf.surfaceFormats.map Prod.fst then
           VK_FORMAT_R8G8B8A8_SRGB
         else (surf.surfaceFormats.getD 0 (0, 0)).1) := by
    rw [getSurfaceFormat_eq]
    simp only [preferredSurfaceFormats, List.find?_cons, List.find?_nil]
    have hB : ¬ VK_FORMAT_B8G8R8A8_SRGB = VK_FORMAT_UNDEFINED := by decide
    have hR : ¬ VK_FORMAT_R8G8B8A8_SRGB = VK_FORMAT_UNDEFINED := by decide
    by_cases h1 : VK_FORMAT_B8G8R8A8_SRGB ∈ surf.surfaceFormats.map Prod.fst
    · simp only [h1, decide_True, Option.getD_some, hB, if_false, if_true]
    · by_cases h2 : VK_FORMAT_R8G8B8A8_SRGB ∈ surf.surfaceFormats.map Prod.fst
      · simp only [h1, h2, decide_True, decide_False, Option.getD_some, hR, if_false, if_true]
      · simp only [h1, h2, decide_False, Option.getD_none, if_false, if_true]
  constructor
  · rw [← hsel]
    unfold Renderer.createSwapchain
    simp only [hp, hf, if_true, Renderer.emit]
    split_ifs <;> rfl
  · intro h s m f cs w ht pm hmem
    unfold Renderer.createSwapchain at hmem ⊢
    simp only [hp, hf, if_true, Renderer.emit] at hmem ⊢
    split_ifs at hmem ⊢ <;>
      simp [Run.state, List.drop_append_eq_append_drop, List.mem_map] at hmem ⊢
    all_goals exact hmem.2.2.2.1

/-- Witness for C22: the available formats are 44 and R8G8B8A8_SRGB (43), in
this order; the second is chosen. With only format 44 available, the first
entry is chosen. -/
theorem createSwapchain_selects_format_witness :
    (bootRenderer.createSwapchain
      { sampleSurface with surfaceFormats := [(44, 0), (43, 0)] }).state.swapchain.imageFormat
      = 43 ∧
    (bootRenderer.createSwapchain
      { sampleSurface with surfaceFormats := [(44, 7)] }).state.swapchain.imageFormat = 44 ∧
    (bootRenderer.createSwapchain
      { sampleSurface with surfaceFormats := [(44, 0), (43, 0)] }).state.swapchain.imageFormat
      = (if VK_FORMAT_B8G8R8A8_SRGB ∈ [(44, 0), (43, 0)].map Prod.fst then
           VK_FORMAT_B8G8R8A8_SRGB
         else if VK_FORMAT_R8G8B8A8_SRGB ∈ [(44, 0), (43, 0)].map Prod.fst then
           VK_FORMAT_R8G8B8A8_SRGB
         else ([(44, 0), (43, 0)].getD 0 (0, 0)).1) :=
  ⟨by decide, by decide,
    (createSwapchain_selects_format bootRenderer
      { sampleSurface with surfaceFormats := [(44, 0), (43, 0)] } rfl (by decide)).1⟩

/-- Whether `createSwapchain` completes depends on the surface answers
only. -/
theorem createSwapchain_completed (r : Renderer) (surf : SurfaceEnv) :
    (r.createSwapchain surf).completed
      = (surf.hasPresentationSupport && decide (0 < surf.surfaceFormats.length) &&
          decide (0 < surf.presentModes.length) && surf.surfaceSupported) := by
  unfold Renderer.createSwapchain
  split_ifs <;> simp_all [Run.completed]

/-- A completed `resizeFramebuffer` keeps the shader and both descriptor
sets, which is all that its completion depends on. -/
theorem resizeFramebuffer_completes (r : Renderer) :
    r.resizeFramebuffer.completed
      = (r.m_shader.isSome && r.m_descriptorSetUniform.isSome &&
          r.m_descriptorSetImage.isSome) ∧
    (r.resizeFramebuffer.completed = true →
      r.resizeFramebuffer.state.m_shader = r.m_shader ∧
      r.resizeFramebuffer.state.m_descriptorSetUniform = r.m_descriptorSetUniform ∧
      r.resizeFramebuffer.state.m_descriptorSetImage = r.m_descriptorSetImage ∧
      r.resizeFramebuffer.state.swapchain = r.swapchain ∧
      r.resizeFramebuffer.state.window = r.window) := by
  unfold Renderer.resizeFramebuffer Renderer.createGraphicsPipeline
  simp only [Renderer.emit]
  cases hs : r.m_shader <;> cases hu : r.m_descriptorSetUniform <;>
    cases hi : r.m_descriptorSetImage <;>
    simp [Run.andThen, Run.completed, Run.state, Renderer.createFramebuffers, Renderer.emit]

/-- C23. When the resize path (`resizeWindow`, then `resizeFramebuffer`)
completes, running it again with the same surface answers and the window
unchanged completes as well, and the swapchain has the same image count, the
same number of image views, the same image format and the same extent after
the second run as after the first. -/
theorem resize_path_idempotent (r r1 r2 : Renderer) (surf : SurfaceEnv)
    (h1 : r.resizeWindow surf = .done () r1) (h2 : r1.resizeFramebuffer = .done () r2) :
    ∃ r3 r4, r2.resizeWindow surf = .done () r3 ∧ r3.resizeFramebuffer = .done () r4 ∧
      r4.window = r2.window ∧
      r4.swapchain.imageCount = r2.swapchain.imageCount ∧
      r4.swapchain.imageViews.length = r2.swapchain.imageViews.length ∧
      r4.swapchain.imageFormat = r2.swapchain.imageFormat ∧
      r4.swapchain.imageExtent = r2.swapchain.imageExtent := by
  -- the first run
  have hc1 : (r.resizeWindow surf).completed = true := by rw [h1]; rfl
  have hsurf := createSwapchain_completed (r.emit [Call.deviceWaitIdle]).destroySwapchain surf
  have hcond : (surf.hasPresentationSupport && decide (0 < surf.surfaceFormats.length) &&
      decide (0 < surf.presentModes.length) && surf.surfaceSupported) = true := by
    rw [← hsurf]
    exact hc1
  have hp : surf.hasPresentationSupport = true := by
    simp only [Bool.and_eq_true] at hcond
    exact hcond.1.1.1
  have hf : 0 < surf.surfaceFormats.length := by
    simp only [Bool.and_eq_true, decide_eq_true_eq] at hcond
    exact hcond.1.1.2
  have hA := createSwapchain_state (r.emit [Call.deviceWaitIdle]).destroySwapchain surf
  have hAf := (createSwapchain_selects_format
    (r.emit [Call.deviceWaitIdle]).destroySwapchain surf hp hf).1
  have hr1 : (r.emit [Call.deviceWaitIdle]).destroySwapchain.createSwapchain surf
      = .done () r1 := h1
  rw [hr1] at hA hAf
  obtain ⟨hA1, hA2, hA3, hA4⟩ := hA.2 rfl
  have hB := resizeFramebuffer_completes r1
  rw [h2] at hB
  obtain ⟨hBc, hBk⟩ := hB
  obtain ⟨k1, k2, k3, k4, k5⟩ := hBk rfl
  -- the second run
  have hC := createSwapchain_state (r2.emit [Call.deviceWaitIdle]).destroySwapchain surf
  have hCf := (createSwapchain_selects_format
    (r2.emit [Call.deviceWaitIdle]).destroySwapchain surf hp hf).1
  have hCc := createSwapchain_completed (r2.emit [Call.deviceWaitIdle]).destroySwapchain surf
  rw [hcond] at hCc
  cases hrun : (r2.emit [Call.deviceWaitIdle]).destroySwapchain.createSwapchain surf with
  | aborted s =>
    rw [hrun] at hCc
    cases hCc
  | done v r3 =>
    rw [hrun] at hC hCf
    obtain ⟨hC1, hC2, hC3, hC4⟩ := hC.2 rfl
    have hC1r : r3.swapchain.imageCount = surf.swapchainImageCount := hC1
    have hC2r : r3.swapchain.imageViews.length = surf.swapchainImageCount := hC2
    have hC3r : r3.swapchain.imageExtent = (r2.window.width, r2.window.height) := hC3
    have hC4r : r3 = { (r2.emit [Call.deviceWaitIdle]).destroySwapchain with
        swapchain := r3.swapchain, nextHandle := r3.nextHandle, calls := r3.calls } := hC4
    have hD := resizeFramebuffer_completes r3
    have hs3 : r3.m_shader = r2.m_shader := by rw [hC4r]; rfl
    have hu3 : r3.m_descriptorSetUniform = r2.m_descriptorSetUniform := by rw [hC4r]; rfl
    have hi3 : r3.m_descriptorSetImage = r2.m_descriptorSetImage := by rw [hC4r]; rfl
    have hw3 : r3.window = r2.window := by rw [hC4r]; rfl
    have hk1 : r2.m_shader = r1.m_shader := k1
    have hk2 : r2.m_descriptorSetUniform = r1.m_descriptorSetUniform := k2
    have hk3 : r2.m_descriptorSetImage = r1.m_descriptorSetImage := k3
    have hk4 : r2.swapchain = r1.swapchain := k4
    have hk5 : r2.window = r1.window := k5
    have hBc1 : true = (r1.m_shader.isSome && r1.m_descriptorSetUniform.isSome &&
        r1.m_descriptorSetImage.isSome) := hBc
    rw [hs3, hu3, hi3, hk1, hk2, hk3, ← hBc1] at hD
    obtain ⟨hDc, hDk⟩ := hD
    cases hrun2 : r3.resizeFramebuffer with
    | aborted s =>
      rw [hrun2] at hDc
      cases hDc
    | done v4 r4 =>
      rw [hrun2] at hDk
      obtain ⟨_, _, _, d4, d5⟩ := hDk rfl
      have hd4 : r4.swapchain = r3.swapchain := d4
      have hd5 : r4.window = r3.window := d5
      have hw1 : r1.window = r.window := by
        have hst := (resizeWindow_done r r1 surf h1).2
        rw [hst]
      refine ⟨r3, r4, hrun, hrun2, by rw [hd5, hw3], ?_, ?_, ?_, ?_⟩
      · rw [hd4, hk4, hC1r]
        exact hA1.symm
      · rw [hd4, hk4, hC2r]
        exact hA2.symm
      · rw [hd4, hk4]
        exact hCf.trans hAf.symm
      · rw [hd4, hk4, hC3r, hk5, hw1]
        exact hA3.symm

/-- Witness for C23: the resize path run twice on `bootRenderer` with
`sampleSurface`; both runs leave three images of format 50. -/
theorem resize_path_idempotent_witness :
    ((bootRenderer.resizeWindow sampleSurface).state.resizeFramebuffer.state.swapchain.imageCount,
      (bootRenderer.resizeWindow
        sampleSurface).state.resizeFramebuffer.state.swapchain.imageFormat) = (3, 50) ∧
    ∃ r3 r4,
      (bootRenderer.resizeWindow sampleSurface).state.resizeFramebuffer.state.resizeWindow
        sampleSurface = .done () r3 ∧
      r3.resizeFramebuffer = .done () r4 ∧
      r4.window = (bootRenderer.resizeWindow sampleSurface).state.resizeFramebuffer.state.window ∧
      r4.swapchain.imageCount
        = (bootRenderer.resizeWindow
            sampleSurface).state.resizeFramebuffer.state.swapchain.imageCount ∧
      r4.swapchain.imageViews.length
        = (bootRenderer.resizeWindow
            sampleSurface).state.resizeFramebuffer.state.swapchain.imageViews.length ∧
      r4.swapchain.imageFormat
        = (bootRenderer.resizeWindow
            sampleSurface).state.resizeFramebuffer.state.swapchain.imageFormat ∧
      r4.swapchain.imageExtent
        = (bootRenderer.resizeWindow
            sampleSurface).state.resizeFramebuffer.state.swapchain.imageExtent :=
  ⟨by decide,
    resize_path_idempotent bootRenderer (bootRenderer.resizeWindow sampleSurface).state
      (bootRenderer.resizeWindow sampleSurface).state.resizeFramebuffer.state sampleSurface
      rfl rfl⟩

/-! ## The copy pass -/

/-- A `mapM` over a list on which the function is defined everywhere
completes. -/
theorem mapM_defined {α β : Type} (f : α → Option β) (l : List α)
    (h : ∀ a ∈ l, (f a).isSome = true) : ∃ bs, l.mapM f = some bs := by
  induction l with
  | nil => exact ⟨[], rfl⟩
  | cons a l ih =>
    obtain ⟨bs, hbs⟩ := ih (fun x hx => h x (List.mem_cons_of_mem _ hx))
    obtain ⟨b, hb⟩ := Option.isSome_iff_exists.mp (h a (List.mem_cons_self _ _))
    refine ⟨b :: bs, ?_⟩
    rw [List.mapM_cons, hb, hbs]
    rfl

/-- C25. When every slot whose dirty flag is set holds an image and a
staging buffer, `renderCopyImages` completes, and the calls it records are:
one pipeline barrier whose image barriers name the images of the dirty
slots, in slot order; one buffer-to-image copy per dirty slot, in slot order,
from the slot's staging buffer to the slot's image; and one pipeline barrier
naming the same images again. Afterwards the aggregate flag and every
per-slot flag are false, and the slots hold what they held. -/
theorem renderCopyImages_records (r : Renderer) (cmdBuffer : CmdBuffer)
    (hlive : ∀ i, i < r.m_imageSet.dirtyFlags.length →
      r.m_imageSet.dirtyFlags.getD i false = true →
      (r.m_imageSet.images.getD i none).isSome = true ∧
      (r.m_imageSet.stagingBuffers.getD i none).isSome = true) :
    ∃ (r1 : Renderer) (pairs : List (Nat × Nat)), r.renderCopyImages cmdBuffer = .done () r1 ∧
      r1.calls = r.calls ++
        ([Call.cmdImageBarriers cmdBuffer.commandBuffer false (pairs.map Prod.fst)] ++
          pairs.map (fun p => Call.cmdCopyBufferToImage cmdBuffer.commandBuffer p.2 p.1) ++
          [Call.cmdImageBarriers cmdBuffer.commandBuffer true (pairs.map Prod.fst)]) ∧
      pairs.length = ((List.range r.m_imageSet.dirtyFlags.length).filter
        (fun i => r.m_imageSet.dirtyFlags.getD i false)).length ∧
      (∀ (k i : Nat), ((List.range r.m_imageSet.dirtyFlags.length).filter
          (fun i => r.m_imageSet.dirtyFlags.getD i false))[k]? = some i →
        ∃ img st, r.m_imageSet.images.getD i none = some img ∧
          r.m_imageSet.stagingBuffers.getD i none = some st ∧
          pairs[k]? = some (img.image, st.buffer)) ∧
      r1.m_imageSet.dirty = false ∧
      (∀ f ∈ r1.m_imageSet.dirtyFlags, f = false) ∧
      r1.m_imageSet.dirtyFlags.length = r.m_imageSet.dirtyFlags.length ∧
      r1.m_imageSet.images = r.m_imageSet.images ∧
      r1.m_imageSet.stagingBuffers = r.m_imageSet.stagingBuffers := by
  have hdef : ∀ i ∈ (List.range r.m_imageSet.dirtyFlags.length).filter
      (fun i => r.m_imageSet.dirtyFlags.getD i false),
      (match r.m_imageSet.images.getD i none, r.m_imageSet.stagingBuffers.getD i none with
        | some img, some st => some (img.image, st.buffer)
        | _, _ => none).isSome = true := by
    intro i hi
    obtain ⟨hr, hflag⟩ := List.mem_filter.mp hi
    obtain ⟨h1, h2⟩ := hlive i (List.mem_range.mp hr) hflag
    obtain ⟨img, himg⟩ := Option.isSome_iff_exists.mp h1
    obtain ⟨st, hst⟩ := Option.isSome_iff_exists.mp h2
    rw [himg, hst]
    rfl
  obtain ⟨pairs, hpairs⟩ := mapM_defined _ _ hdef
  have hp : r.m_imageSet.dirtyPairs = some pairs := hpairs
  cases hrun : r.renderCopyImages cmdBuffer with
  | aborted s =>
    simp only [Renderer.renderCopyImages, hp, reduceCtorEq] at hrun
  | done v r1 =>
  simp only [Renderer.renderCopyImages, hp, Run.done.injEq, true_and] at hrun
  subst hrun
  refine ⟨_, pairs, rfl, rfl,
    mapM_length _ _ _ hpairs, ?_, rfl, ?_, by simp [Renderer.emit], rfl, rfl⟩
  · intro k i hk
    obtain ⟨b, hb, hbs⟩ := mapM_getElem _ _ _ hpairs k i hk
    cases himg : r.m_imageSet.images.getD i none with
    | none =>
      rw [himg] at hb
      cases hb
    | some img =>
      cases hst : r.m_imageSet.stagingBuffers.getD i none with
      | none =>
        rw [himg, hst] at hb
        cases hb
      | some st =>
        rw [himg, hst] at hb
        refine ⟨img, st, rfl, rfl, ?_⟩
        rw [hbs, ← hb]
  · intro f hf
    simp only [Renderer.emit, List.mem_map] at hf
    obtain ⟨_, _, hf⟩ := hf
    exact hf.symm

/-- Witness for C25: the copy pass on `bootRenderer`, whose four slots are
dirty, and on a renderer on which only slots 1 and 3 are dirty. -/
theorem renderCopyImages_records_witness :
    (Renderer.renderCopyImages
        { bootRenderer with m_imageSet :=
            { bootRenderer.m_imageSet with dirtyFlags := [false, true, false, true] } }
        { commandBuffer := 12, fence := 22, submitSemaphore := 30 }).state.calls
      = [Call.cmdImageBarriers 12 false [111, 131], Call.cmdCopyBufferToImage 12 110 111,
         Call.cmdCopyBufferToImage 12 130 131, Call.cmdImageBarriers 12 true [111, 131]] ∧
    ∃ (r1 : Renderer) (pairs : List (Nat × Nat)),
      bootRenderer.renderCopyImages { commandBuffer := 12, fence := 22, submitSemaphore := 30 }
        = .done () r1 ∧
      r1.calls = bootRenderer.calls ++
        ([Call.cmdImageBarriers 12 false (pairs.map Prod.fst)] ++
          pairs.map (fun p => Call.cmdCopyBufferToImage 12 p.2 p.1) ++
          [Call.cmdImageBarriers 12 true (pairs.map Prod.fst)]) ∧
      pairs.length = ((List.range bootRenderer.m_imageSet.dirtyFlags.length).filter
        (fun i => bootRenderer.m_imageSet.dirtyFlags.getD i false)).length ∧
      (∀ (k i : Nat), ((List.range bootRenderer.m_imageSet.dirtyFlags.length).filter
          (fun i => bootRenderer.m_imageSet.dirtyFlags.getD i false))[k]? = some i →
        ∃ img st, bootRenderer.m_imageSet.images.getD i none = some img ∧
          bootRenderer.m_imageSet.stagingBuffers.getD i none = some st ∧
          pairs[k]? = some (img.image, st.buffer)) ∧
      r1.m_imageSet.dirty = false ∧
      (∀ f ∈ r1.m_imageSet.dirtyFlags, f = false) ∧
      r1.m_imageSet.dirtyFlags.length = bootRenderer.m_imageSet.dirtyFlags.length ∧
      r1.m_imageSet.images = bootRenderer.m_imageSet.images ∧
      r1.m_imageSet.stagingBuffers = bootRenderer.m_imageSet.stagingBuffers :=
  ⟨by decide,
    renderCopyImages_records bootRenderer
      { commandBuffer := 12, fence := 22, submitSemaphore := 30 } (by decide)⟩

/-- C26 (the code departs from the claim). A reload of slot 0 on
`settledRenderer` followed by a frame: `createImage` constructs the image
with `VK_IMAGE_LAYOUT_UNDEFINED` (0), which is the `imageLayout` that
`createDescriptorsImage` writes into every slot's descriptor, while the copy
pass of the frame leaves the reloaded image (handle 201) in
`VK_IMAGE_LAYOUT_SHADER_READ_ONLY_OPTIMAL` (5). The same holds for the four
images of `bootRenderer` in its first frame. -/
theorem descriptor_layout_differs_from_copy_pass :
    (settledRenderer.updateImages sampleFiles ["channel0.png"]).completed = true ∧
    (settledRenderer.updateImages sampleFiles ["channel0.png"]).state.descriptorImageLayouts
      = some [VK_IMAGE_LAYOUT_UNDEFINED, VK_IMAGE_LAYOUT_UNDEFINED, VK_IMAGE_LAYOUT_UNDEFINED,
          VK_IMAGE_LAYOUT_UNDEFINED] ∧
    ((settledRenderer.updateImages sampleFiles ["channel0.png"]).state.render
      (frameEnv 0 7)).completed = true ∧
    imageLayoutAfter 201
      ((settledRenderer.updateImages sampleFiles ["channel0.png"]).state.render
        (frameEnv 0 7)).state.calls = some VK_IMAGE_LAYOUT_SHADER_READ_ONLY_OPTIMAL ∧
    ((settledRenderer.updateImages sampleFiles ["channel0.png"]).state.render
      (frameEnv 0 7)).state.descriptorImageLayouts
      = some [VK_IMAGE_LAYOUT_UNDEFINED, VK_IMAGE_LAYOUT_UNDEFINED, VK_IMAGE_LAYOUT_UNDEFINED,
          VK_IMAGE_LAYOUT_UNDEFINED] ∧
    [101, 111, 121, 131].map
        (fun image => imageLayoutAfter image (bootRenderer.render (frameEnv 0 7)).state.calls)
      = [some 5, some 5, some 5, some 5] ∧
    bootRenderer.descriptorImageLayouts = some [0, 0, 0, 0] ∧
    VK_IMAGE_LAYOUT_UNDEFINED ≠ VK_IMAGE_LAYOUT_SHADER_READ_ONLY_OPTIMAL := by
  decide

/-- C27 (the code departs from the claim). On a device whose larger
alignment limit is 256 the uniform buffer built for the 144-byte
`ShaderInputUniform` has a slice size of 256; `render` passes that slice
size to `copyData`, which copies 256 bytes from the 144-byte payload. -/
theorem render_copies_aligned_size_from_payload :
    sizeofShaderInputUniform = 144 ∧
    (GpuBufferUniform.create sampleDevice sizeofShaderInputUniform (fun _ => 0)).map
      (fun b => (b.byteSize, b.wholeByteSize)) = some (256, 768) ∧
    bootRenderer.m_gpuBufferUniform.map (fun b => (b.byteSize, b.wholeByteSize))
      = some (256, 768) ∧
    (bootRenderer.render (frameEnv 0 7)).completed = true ∧
    hostWriteSizes (bootRenderer.render (frameEnv 0 7)).state.calls = [256] ∧
    sizeofShaderInputUniform < 256 := by
  decide

/-! ## Start-up and the dirty flags -/

/-- A `mapM` over slots of which one is empty does not complete. -/
theorem mapM_empty_slot {α β : Type} (f : α → β) (l : List (Option α)) (h : none ∈ l) :
    l.mapM (fun o => o.map f) = none := by
  induction l with
  | nil => exact absurd h (List.not_mem_nil _)
  | cons o l ih =>
    rw [List.mapM_cons]
    cases o with
    | none => rfl
    | some a =>
      have hl : none ∈ l := by
        rcases List.mem_cons.mp h with h1 | h1
        · cases h1
        · exact h1
      rw [ih hl]
      rfl

/-- C28 (the code departs from the claim). At start-up with a file system in
which `textures/channel2.png` does not decode, `createImages` completes and
leaves slot 2 empty (null image, null staging buffer, flag clear), and the
constructor's `createDescriptorsImage`, which reads `sampler` and
`imageView` through every slot, does not complete. When all four files
decode, the same steps complete. In general `createDescriptorsImage` does not
complete on a renderer with an empty image slot. -/
theorem startup_failed_load_leaves_empty_slot :
    (ImageLoader.loadStbImage (partialFiles "textures/channel2.png")).m_bytesize = 0 ∧
    (blankRenderer.createImages partialFiles).completed = true ∧
    (blankRenderer.createImages partialFiles).state.m_imageSet.images.map Option.isSome
      = [true, true, false, true] ∧
    (blankRenderer.createImages partialFiles).state.m_imageSet.stagingBuffers.map Option.isSome
      = [true, true, false, true] ∧
    (blankRenderer.createImages partialFiles).state.m_imageSet.dirtyFlags
      = [true, true, false, true] ∧
    (blankRenderer.constructImages partialFiles true true).completed = false ∧
    (blankRenderer.constructImages sampleFiles true true).completed = true ∧
    (∀ r : Renderer, none ∈ r.m_imageSet.images → r.createDescriptorsImage.completed = false) := by
  refine ⟨by decide, by decide, by decide, by decide, by decide, by decide, by decide, ?_⟩
  intro r hnone
  unfold Renderer.createDescriptorsImage
  simp only [Renderer.emit]
  rw [mapM_empty_slot _ _ hnone]
  rfl

/-- C29 (the claim does not hold as stated). A change of `channel1.png`
whose file does not decode, on `settledRenderer`: `updateImages` completes,
no per-slot flag is set, and the aggregate flag is set. -/
theorem updateImages_sets_dirty_without_slot_flag :
    (settledRenderer.m_imageSet.dirty, settledRenderer.m_imageSet.dirtyFlags)
      = (false, [false, false, false, false]) ∧
    (settledRenderer.updateImages missingFiles ["channel1.png"]).completed = true ∧
    (settledRenderer.updateImages missingFiles ["channel1.png"]).state.m_imageSet.dirtyFlags
      = [false, false, false, false] ∧
    (settledRenderer.updateImages missingFiles ["channel1.png"]).state.m_imageSet.dirty
      = true ∧
    ¬ ((settledRenderer.updateImages missingFiles ["channel1.png"]).state.m_imageSet.dirty
        = true ↔
      true ∈ (settledRenderer.updateImages missingFiles
        ["channel1.png"]).state.m_imageSet.dirtyFlags) := by
  decide

/-- The inner loop of `updateImages`, when it completes, keeps the aggregate
flag set if it was, and leaves it set whenever a per-slot flag is set. -/
theorem reloadMatching_covered (fs : String → Option StbImage) (nameRef compareName : String)
    (l : List (Nat × String)) (r r1 : Renderer)
    (hc : true ∈ r.m_imageSet.dirtyFlags → r.m_imageSet.dirty = true)
    (h : r.reloadMatching fs nameRef compareName l = .done () r1) :
    (true ∈ r1.m_imageSet.dirtyFlags → r1.m_imageSet.dirty = true) ∧
    (r.m_imageSet.dirty = true → r1.m_imageSet.dirty = true) := by
  induction l generalizing r with
  | nil =>
    simp only [Renderer.reloadMatching, Run.done.injEq, true_and] at h
    subst h
    exact ⟨hc, id⟩
  | cons p l ih =>
    obtain ⟨idx, searchName⟩ := p
    simp only [Renderer.reloadMatching] at h
    split_ifs at h
    · obtain ⟨_, s, _, h2⟩ := andThen_done _ _ _ _ h
      have hs := ih { s with m_imageSet := { s.m_imageSet with dirty := true } }
        (fun _ => rfl) h2
      exact ⟨hs.1, fun _ => hs.2 rfl⟩
    · exact ih r hc h

/-- The outer loop of `updateImages`, likewise. -/
theorem reloadNames_covered (fs : String → Option StbImage) (names : List String)
    (r r1 : Renderer)
    (hc : true ∈ r.m_imageSet.dirtyFlags → r.m_imageSet.dirty = true)
    (h : r.reloadNames fs names = .done () r1) :
    (true ∈ r1.m_imageSet.dirtyFlags → r1.m_imageSet.dirty = true) ∧
    (r.m_imageSet.dirty = true → r1.m_imageSet.dirty = true) := by
  induction names generalizing r with
  | nil =>
    simp only [Renderer.reloadNames, Run.done.injEq, true_and] at h
    subst h
    exact ⟨hc, id⟩
  | cons n names ih =>
    simp only [Renderer.reloadNames] at h
    obtain ⟨_, s, h1, h2⟩ := andThen_done _ _ _ _ h
    have hs := reloadMatching_covered fs n (compareNameOf n) _ r s hc h1
    have hs2 := ih s hs.1 h2
    exact ⟨hs2.1, fun hd => hs2.2 (hs.2 hd)⟩

/-- C29 (amended). `createImages`, when it completes, leaves the aggregate
flag set. On a renderer on which the aggregate flag is set whenever some
per-slot flag is: a completed `updateImages` keeps this true and does not
clear the aggregate flag; a completed `render` keeps this true, and when the
aggregate flag was set it leaves the aggregate flag and every per-slot flag
false. -/
theorem dirty_flag_covers_slot_flags (r : Renderer)
    (hc : true ∈ r.m_imageSet.dirtyFlags → r.m_imageSet.dirty = true) :
    (∀ fs r1, r.createImages fs = .done () r1 → r1.m_imageSet.dirty = true) ∧
    (∀ fs imageNames r1, r.updateImages fs imageNames = .done () r1 →
      (true ∈ r1.m_imageSet.dirtyFlags → r1.m_imageSet.dirty = true) ∧
      (r.m_imageSet.dirty = true → r1.m_imageSet.dirty = true)) ∧
    (∀ env r1, r.render env = .done () r1 →
      (true ∈ r1.m_imageSet.dirtyFlags → r1.m_imageSet.dirty = true) ∧
      (r.m_imageSet.dirty = true →
        r1.m_imageSet.dirty = false ∧ true ∉ r1.m_imageSet.dirtyFlags)) := by
  refine ⟨?_, ?_, ?_⟩
  · intro fs r1 h
    unfold Renderer.createImages at h
    obtain ⟨_, s, _, h2⟩ := andThen_done _ _ _ _ h
    simp only [Run.done.injEq, true_and] at h2
    subst h2
    rfl
  · intro fs imageNames r1 h
    unfold Renderer.updateImages at h
    obtain ⟨_, s, h1, h2⟩ := andThen_done _ _ _ _ h
    have hs := reloadNames_covered fs imageNames (r.emit [Call.deviceWaitIdle]) s hc h1
    have hset : r1.m_imageSet = s.m_imageSet := by
      unfold Renderer.createDescriptorsImage at h2
      simp only [Renderer.emit] at h2
      split at h2
      · simp only [Run.done.injEq, true_and] at h2
        subst h2
        rfl
      · cases h2
    rw [hset]
    exact hs
  · intro env r1 h
    have hdone : (r.render env).completed = true := by rw [h]; rfl
    obtain ⟨_, _, _, _, _, _, _, _, _, _, hd1, hd0⟩ := render_completed r env hdone
    rw [h] at hd1 hd0
    cases hd : r.m_imageSet.dirty with
    | false =>
      have hset : r1.m_imageSet = r.m_imageSet := hd0 hd
      rw [hset]
      refine ⟨hc, ?_⟩
      intro hx
      cases hx
    | true =>
      obtain ⟨hf, hflags⟩ := hd1 hd
      have hf1 : r1.m_imageSet.dirty = false := hf
      have hflags1 : r1.m_imageSet.dirtyFlags
          = r.m_imageSet.dirtyFlags.map (fun _ => false) := hflags
      have hno : true ∉ r1.m_imageSet.dirtyFlags := by
        rw [hflags1]
        intro hmem
        obtain ⟨_, _, hx⟩ := List.mem_map.mp hmem
        cases hx
      exact ⟨fun hmem => absurd hmem hno, fun _ => ⟨hf1, hno⟩⟩

/-- Witness for C29 (amended): `bootRenderer`, whose aggregate flag and four
per-slot flags are set. -/
theorem dirty_flag_covers_slot_flags_witness :
    (true ∈ bootRenderer.m_imageSet.dirtyFlags → bootRenderer.m_imageSet.dirty = true) ∧
    (bootRenderer.render (frameEnv 0 7)).completed = true ∧
    ((bootRenderer.render (frameEnv 0 7)).state.m_imageSet.dirty,
      (bootRenderer.render (frameEnv 0 7)).state.m_imageSet.dirtyFlags)
      = (false, [false, false, false, false]) ∧
    (blankRenderer.createImages sampleFiles).state.m_imageSet.dirty = true ∧
    (∀ fs r1, bootRenderer.createImages fs = .done () r1 → r1.m_imageSet.dirty = true) :=
  ⟨by decide, by decide, by decide, by decide,
    (dirty_flag_covers_slot_flags bootRenderer (by decide)).1⟩

/-! ## The file watcher -/

/-- Looking a name up after a timestamp was replaced. -/
theorem lookup_setStamp (m : List (String × Nat)) (key : String) (stamp : Nat) (k : String) :
    (setStamp m key stamp).lookup k
      = if k = key then (m.lookup k).map (fun _ => stamp) else m.lookup k := by
  induction m with
  | nil =>
    simp only [setStamp, List.map_nil, List.lookup_nil, Option.map_none', ite_self]
  | cons p m ih =>
    obtain ⟨a, v⟩ := p
    have ih1 : (List.map (fun p : String × Nat => if p.1 = key then (p.1, stamp) else p)
        m).lookup k = if k = key then (m.lookup k).map (fun _ => stamp) else m.lookup k := ih
    simp only [setStamp, List.map_cons]
    by_cases hak : a = key
    · subst hak
      by_cases hk : k = a
      · subst hk
        simp [List.lookup_cons]
      · have hb : (k == a) = false := by simpa using hk
        simp only [if_true, List.lookup_cons, hb, ih1]
    · by_cases hk : k = a
      · subst hk
        simp [hak, List.lookup_cons]
      · have hb : (k == a) = false := by simpa using hk
        simp only [hak, if_false, List.lookup_cons, hb, ih1]

/-- One loop iteration of `getWriteStampFiles`: the entry's full name is
appended exactly when its timestamp differs from the stored one, and
afterwards the entry's compare name, if watched, carries the entry's
timestamp while every other name carries what it carried. -/
theorem examineEntry_spec (crop : Bool) (acc : List String × List (String × Nat))
    (entry : String × Nat) :
    (examineEntry crop acc entry).1
      = acc.1 ++ (if stampDiffers crop acc.2 entry = true then [entry.1] else []) ∧
    ∀ k, (examineEntry crop acc entry).2.lookup k
      = if k = compareFilename crop entry.1 then (acc.2.lookup k).map (fun _ => entry.2)
        else acc.2.lookup k := by
  unfold examineEntry stampDiffers
  cases hl : acc.2.lookup (compareFilename crop entry.1) with
  | none =>
    refine ⟨by simp, ?_⟩
    intro k
    by_cases hk : k = compareFilename crop entry.1
    · subst hk
      simp [hl]
    · simp [hk]
  | some stored =>
    by_cases hne : entry.2 = stored
    · refine ⟨by simp [hne], ?_⟩
      intro k
      by_cases hk : k = compareFilename crop entry.1
      · subst hk
        simp [hl, hne]
      · simp [hk, hne]
    · refine ⟨by simp [hne], ?_⟩
      intro k
      simp only [ne_eq, hne, not_false_eq_true, if_true]
      exact lookup_setStamp _ _ _ _

/-- The loop of `getWriteStampFiles` over entries with pairwise different
compare names: the names appended are those of the entries whose timestamp
differs from the one stored at the start, each such watched name ends up
with the entry's timestamp, and names of no entry keep theirs. -/
theorem foldl_examineEntry (crop : Bool) (es : List (String × Nat))
    (hnd : (es.map fun e => compareFilename crop e.1).Nodup)
    (acc : List String × List (String × Nat)) :
    (es.foldl (examineEntry crop) acc).1
      = acc.1 ++ (es.filter (stampDiffers crop acc.2)).map Prod.fst ∧
    (∀ e ∈ es, (es.foldl (examineEntry crop) acc).2.lookup (compareFilename crop e.1)
      = (acc.2.lookup (compareFilename crop e.1)).map (fun _ => e.2)) ∧
    (∀ k, (∀ e ∈ es, compareFilename crop e.1 ≠ k) →
      (es.foldl (examineEntry crop) acc).2.lookup k = acc.2.lookup k) := by
  induction es generalizing acc with
  | nil =>
    refine ⟨by simp, ?_, fun _ _ => rfl⟩
    intro e he
    exact absurd he (List.not_mem_nil _)
  | cons e es ih =>
    rw [List.map_cons, List.nodup_cons] at hnd
    obtain ⟨hhead, htail⟩ := hnd
    have hother : ∀ x ∈ es, compareFilename crop x.1 ≠ compareFilename crop e.1 := by
      intro x hx heq
      exact hhead (heq ▸ List.mem_map_of_mem (fun e => compareFilename crop e.1) hx)
    obtain ⟨hfiles, hstamp⟩ := examineEntry_spec crop acc e
    obtain ⟨i1, i2, i3⟩ := ih htail (examineEntry crop acc e)
    have hsame : ∀ x ∈ es, (examineEntry crop acc e).2.lookup (compareFilename crop x.1)
        = acc.2.lookup (compareFilename crop x.1) := by
      intro x hx
      rw [hstamp, if_neg (hother x hx)]
    have hfilter : es.filter (stampDiffers crop (examineEntry crop acc e).2)
        = es.filter (stampDiffers crop acc.2) := by
      apply List.filter_congr
      intro x hx
      unfold stampDiffers
      rw [hsame x hx]
    refine ⟨?_, ?_, ?_⟩
    · rw [List.foldl_cons, i1, hfiles, hfilter, List.filter_cons]
      by_cases hd : stampDiffers crop acc.2 e = true
      · simp [hd]
      · simp [hd]
    · intro x hx
      rw [List.foldl_cons]
      rcases List.mem_cons.mp hx with hxe | hxe
      · subst hxe
        rw [i3 _ (fun y hy => hother y hy), hstamp, if_pos rfl]
      · rw [i2 x hxe, hsame x hxe]
    · intro k hk
      rw [List.foldl_cons, i3 k (fun y hy => hk y (List.mem_cons_of_mem _ hy)), hstamp,
        if_neg (fun heq => hk e (List.mem_cons_self _ _) heq.symm)]

/-- C24 (the code departs from the claim). An image watcher (extensions
cropped) on a directory that holds `channel0.jpg` (timestamp 10) and
`channel0.png` (timestamp 20); the listing is the same at construction and at
both drains, so no file is written at any point. The constructor stores 10
for `channel0`. The first drain returns `channel0.png` and stores 20. At the
second drain the stored timestamp is 20, equal to that of `channel0.png`; the
loop first replaces it by 10 for `channel0.jpg`, then finds `channel0.png`
different from it, and both names are returned. -/
theorem getChangedFilesAndReset_twin_names :
    (FileDirectoryWatcher.create ["channel0"] true twinListing).m_watchedFiles
      = [("channel0", 10)] ∧
    (((FileDirectoryWatcher.create ["channel0"] true twinListing).run
      [.watchReturns true, .checkForChanges]).getChangedFilesAndReset twinListing).1
      = ["channel0.png"] ∧
    (((FileDirectoryWatcher.create ["channel0"] true twinListing).run
      [.watchReturns true, .checkForChanges, .getChangedFilesAndReset twinListing,
       .watchReturns true, .checkForChanges]).m_changeDetected,
     ((FileDirectoryWatcher.create ["channel0"] true twinListing).run
      [.watchReturns true, .checkForChanges, .getChangedFilesAndReset twinListing,
       .watchReturns true, .checkForChanges]).m_watchedFiles)
      = (true, [("channel0", 20)]) ∧
    (((FileDirectoryWatcher.create ["channel0"] true twinListing).run
      [.watchReturns true, .checkForChanges, .getChangedFilesAndReset twinListing,
       .watchReturns true, .checkForChanges]).getChangedFilesAndReset twinListing).1
      = ["channel0.jpg", "channel0.png"] := by
  decide

/-- What `getChangedFilesAndReset` does on a watcher whose change flag is
set, for any directory listing: the names returned and the timestamps stored
are those the loop of `getWriteStampFiles` produces over the examined entries
(all but the first); the flag is cleared; a watch is started if the future
holds none; a second call directly afterwards returns the empty list and
changes nothing, as does any call on a watcher whose flag is clear. When no
two examined entries have the same compare name, the names returned are
exactly those of the examined entries whose compare name is watched and whose
timestamp differs from the one stored when the call began, each such name
ends up with the entry's timestamp, and the other names keep theirs. -/
theorem getChangedFilesAndReset_spec (w : FileDirectoryWatcher)
    (entries : List (String × Nat)) (hflag : w.m_changeDetected = true) :
    (w.getChangedFilesAndReset (some entries)).1
      = ((entries.drop 1).foldl (examineEntry w.m_cropExtension) ([], w.m_watchedFiles)).1 ∧
    (w.getChangedFilesAndReset (some entries)).2.m_watchedFiles
      = ((entries.drop 1).foldl (examineEntry w.m_cropExtension) ([], w.m_watchedFiles)).2 ∧
    (w.getChangedFilesAndReset (some entries)).2.m_changeDetected = false ∧
    (w.getChangedFilesAndReset (some entries)).2.m_watcher
      = (if w.m_watcher = .invalid then .running else w.m_watcher) ∧
    (∀ listing, (w.getChangedFilesAndReset (some entries)).2.getChangedFilesAndReset listing
      = ([], (w.getChangedFilesAndReset (some entries)).2)) ∧
    (∀ (v : FileDirectoryWatcher) listing, v.m_changeDetected = false →
      v.getChangedFilesAndReset listing = ([], v)) ∧
    (((entries.drop 1).map fun e => compareFilename w.m_cropExtension e.1).Nodup →
      (w.getChangedFilesAndReset (some entries)).1
        = ((entries.drop 1).filter (stampDiffers w.m_cropExtension w.m_watchedFiles)).map
            Prod.fst ∧
      (∀ e ∈ entries.drop 1,
        (w.getChangedFilesAndReset (some entries)).2.m_watchedFiles.lookup
            (compareFilename w.m_cropExtension e.1)
          = (w.m_watchedFiles.lookup (compareFilename w.m_cropExtension e.1)).map
              (fun _ => e.2)) ∧
      (∀ k, (∀ e ∈ entries.drop 1, compareFilename w.m_cropExtension e.1 ≠ k) →
        (w.getChangedFilesAndReset (some entries)).2.m_watchedFiles.lookup k
          = w.m_watchedFiles.lookup k)) := by
  have hclear : (w.getChangedFilesAndReset (some entries)).2.m_changeDetected = false := by
    simp only [FileDirectoryWatcher.getChangedFilesAndReset, hflag, if_true,
      FileDirectoryWatcher.getWriteStampFiles, FileDirectoryWatcher.startWatch]
    split_ifs <;> rfl
  have hidle : ∀ (v : FileDirectoryWatcher) listing, v.m_changeDetected = false →
      v.getChangedFilesAndReset listing = ([], v) := by
    intro v listing hv
    simp [FileDirectoryWatcher.getChangedFilesAndReset, hv]
  have hfiles : (w.getChangedFilesAndReset (some entries)).1
      = ((entries.drop 1).foldl (examineEntry w.m_cropExtension) ([], w.m_watchedFiles)).1 := by
    simp only [FileDirectoryWatcher.getChangedFilesAndReset, hflag, if_true,
      FileDirectoryWatcher.getWriteStampFiles]
  have hmap : (w.getChangedFilesAndReset (some entries)).2.m_watchedFiles
      = ((entries.drop 1).foldl (examineEntry w.m_cropExtension) ([], w.m_watchedFiles)).2 := by
    simp only [FileDirectoryWatcher.getChangedFilesAndReset, hflag, if_true,
      FileDirectoryWatcher.getWriteStampFiles, FileDirectoryWatcher.startWatch]
    split_ifs <;> rfl
  refine ⟨hfiles, hmap, hclear, ?_, fun listing => hidle _ listing hclear, hidle, ?_⟩
  · simp only [FileDirectoryWatcher.getChangedFilesAndReset, hflag, if_true,
      FileDirectoryWatcher.getWriteStampFiles, FileDirectoryWatcher.startWatch]
    split_ifs <;> rfl
  · intro hnames
    obtain ⟨f1, f2, f3⟩ := foldl_examineEntry w.m_cropExtension (entries.drop 1) hnames
      ([], w.m_watchedFiles)
    refine ⟨?_, ?_, ?_⟩
    · rw [hfiles, f1]
      rfl
    · intro e he
      rw [hmap]
      exact f2 e he
    · intro k hk
      rw [hmap]
      exact f3 k hk

/-- A directory with one file per watched name: `flaggedWatcher` with stored
timestamps 20 and 30 drains a listing in which `channel0.png` has 20 and
`channel1.png` has 31; `channel1.png` is returned, 31 is stored, the flag is
cleared and a watch is started. -/
theorem getChangedFilesAndReset_plain_names :
    flaggedWatcher.getChangedFilesAndReset plainListing
      = (["channel1.png"],
         { m_watchedFiles := [("channel0", 20), ("channel1", 31)], m_changeDetected := false
           m_watcher := .running, m_cropExtension := true }) := by
  decide

/-- C30 (the code departs from the claim). The watch of a newly constructed
watcher returns `false` (stop event, failed wait, or a directory that
`FindFirstChangeNotification` cannot open); the next `checkForChanges`
fetches the result, which leaves the future without a watch and the flag
clear. From such a state no sequence of events leads out: no watch is ever
started again, the flag stays clear and `checkForChanges` keeps returning
`false`. When no watch returns `false`, a watcher that has a watch or a set
flag keeps having one of the two. -/
theorem watcher_stops_after_failed_watch :
    ((FileDirectoryWatcher.create ["channel0"] true plainListing).m_watcher,
      (FileDirectoryWatcher.create ["channel0"] true plainListing).m_changeDetected)
      = (WatchFuture.running, false) ∧
    (((FileDirectoryWatcher.create ["channel0"] true plainListing).run
        [.watchReturns false, .checkForChanges]).m_watcher,
      ((FileDirectoryWatcher.create ["channel0"] true plainListing).run
        [.watchReturns false, .checkForChanges]).m_changeDetected)
      = (WatchFuture.invalid, false) ∧
    (∀ (w : FileDirectoryWatcher) (events : List WatcherEvent),
      w.m_watcher = .invalid → w.m_changeDetected = false →
      (w.run events).m_watcher = .invalid ∧ (w.run events).m_changeDetected = false ∧
      (w.run events).checkForChanges.1 = false) ∧
    (∀ (w : FileDirectoryWatcher) (events : List WatcherEvent),
      WatcherEvent.watchReturns false ∉ events →
      (w.m_watcher = .running ∨ w.m_watcher = .ready true ∨
        (w.m_watcher = .invalid ∧ w.m_changeDetected = true)) →
      ((w.run events).m_watcher = .running ∨ (w.run events).m_watcher = .ready true ∨
        ((w.run events).m_watcher = .invalid ∧ (w.run events).m_changeDetected = true))) := by
  refine ⟨by decide, by decide, ?_, ?_⟩
  · intro w events
    induction events generalizing w with
    | nil =>
      intro h1 h2
      exact ⟨h1, h2, by simp [FileDirectoryWatcher.run, FileDirectoryWatcher.checkForChanges,
        h1, h2]⟩
    | cons ev events ih =>
      intro h1 h2
      have hstep : (w.step ev).m_watcher = .invalid ∧ (w.step ev).m_changeDetected = false := by
        cases ev with
        | checkForChanges =>
          simp [FileDirectoryWatcher.step, FileDirectoryWatcher.checkForChanges, h1, h2]
        | getChangedFilesAndReset listing =>
          simp [FileDirectoryWatcher.step, FileDirectoryWatcher.getChangedFilesAndReset, h1, h2]
        | watchReturns result =>
          simp [FileDirectoryWatcher.step, FileDirectoryWatcher.watchReturns, h1, h2]
      exact ih (w.step ev) hstep.1 hstep.2
  · intro w events
    induction events generalizing w with
    | nil =>
      intro _ h
      exact h
    | cons ev events ih =>
      intro hno h
      have hno1 : WatcherEvent.watchReturns false ∉ events :=
        fun hx => hno (List.mem_cons_of_mem _ hx)
      have hev : ev ≠ WatcherEvent.watchReturns false :=
        fun hx => hno (hx ▸ List.mem_cons_self _ _)
      apply ih (w.step ev) hno1
      cases ev with
      | checkForChanges =>
        rcases h with h | h | ⟨h, hf⟩
        · simp [FileDirectoryWatcher.step, FileDirectoryWatcher.checkForChanges, h]
        · simp [FileDirectoryWatcher.step, FileDirectoryWatcher.checkForChanges, h]
        · simp [FileDirectoryWatcher.step, FileDirectoryWatcher.checkForChanges, h, hf]
      | getChangedFilesAndReset listing =>
        rcases h with h | h | ⟨h, hf⟩
        · cases hc : w.m_changeDetected <;> cases listing <;>
            simp [FileDirectoryWatcher.step, FileDirectoryWatcher.getChangedFilesAndReset,
              FileDirectoryWatcher.getWriteStampFiles, FileDirectoryWatcher.startWatch, h, hc]
        · cases hc : w.m_changeDetected <;> cases listing <;>
            simp [FileDirectoryWatcher.step, FileDirectoryWatcher.getChangedFilesAndReset,
              FileDirectoryWatcher.getWriteStampFiles, FileDirectoryWatcher.startWatch, h, hc]
        · cases listing <;>
            simp [FileDirectoryWatcher.step, FileDirectoryWatcher.getChangedFilesAndReset,
              FileDirectoryWatcher.getWriteStampFiles, FileDirectoryWatcher.startWatch, h, hf]
      | watchReturns result =>
        cases result with
        | false => exact absurd rfl hev
        | true =>
          rcases h with h | h | ⟨h, hf⟩
          · simp [FileDirectoryWatcher.step, FileDirectoryWatcher.watchReturns, h]
          · simp [FileDirectoryWatcher.step, FileDirectoryWatcher.watchReturns, h]
          · simp [FileDirectoryWatcher.step, FileDirectoryWatcher.watchReturns, h, hf]

end core
